import Mathlib

/-!
RIOT scheduler with multi-level feedback: shallow embedding

Sources embedded here:

* `core/sched.c`: the run queues, the bit cache, `sched_run`, `sched_set_status`,
  `sched_switch`, `sched_task_exit`, `sched_change_priority`;
* `sys/sched_feedback/sched_feedback.c`: the quantum callback `_sched_feedback_cb`,
  `sched_runq_callback`, `sched_feedback_init`.

Conventions of the embedding.

* A `thread_t *` is a natural number (the address of the descriptor); the null pointer
  is `none`.  The descriptors live in `State.threads`.
* The globals of both translation units are the fields of `State`.
* Code that cannot continue (a null dereference, a failed `assert`, `core_panic`, the idle
  loop of `sched_run` that waits for an interrupt) ends in `Except.error`.
* External calls whose effect lies outside the scheduler are recorded in observation
  fields: `yield_count` counts the calls of `thread_yield_higher`, `runq_cb_log` lists
  the arguments of the calls of `sched_runq_callback` (latest first), `fb_timer` holds
  the interval of the last `ztimer_set` on `_fb_timer`.
* The run queue table is embedded at two levels.  `State.sched_runqueues` gives each FIFO
  as the list of its members, head first, and `clist.h` as list operations: the FIFO the
  spec describes.  `LinkedState` gives the table as the rings of `rq_entry` links the
  source builds, one link per thread, and `clist.h` as pointer operations; the functions of
  the namespace `Linked` are the same source functions on that table.  What a push or a
  pop does to a FIFO when a thread is linked already, or when two FIFOs share a node, can
  only be said on the linked table.
* `irq_disable` / `irq_restore` have no effect in this sequential model.  The optional
  `sched_cb` observer (`MODULE_SCHED_CB`), TLS and MPU reconfiguration do not touch the
  scheduler state and are left out.  `MODULE_SCHED_RUNQ_CALLBACK` is in use: it is the
  module `sched_feedback` provides.
-/

namespace Sched

/-! ## Constants -/

/-- Modelled from the spec: `thread.h` is not among the sources.  `STATUS_STOPPED` is the
value the feedback callback writes (`status = 0`) and `main.c` prints as "Stopped". -/
abbrev STATUS_STOPPED : Nat := 0

/-- Modelled from the spec: `thread.h` is not among the sources; `main.c` prints status 11
as "Running". -/
abbrev STATUS_RUNNING : Nat := 11

/-- Modelled from the spec: `thread.h` is not among the sources; `main.c` prints status 12
as "Pending". -/
abbrev STATUS_PENDING : Nat := 12

/-- Modelled from the spec: the threshold of the total order on statuses; every status
at or above it is an on-runqueue status.  It is the smallest of them, `STATUS_RUNNING`. -/
abbrev STATUS_ON_RUNQUEUE : Nat := STATUS_RUNNING

/-- Modelled from the spec: `sched.h` is not among the sources.  The static assertion of
`sched.c` bounds it by 32; the comment next to it gives the default, 16. -/
abbrev SCHED_PRIO_LEVELS : Nat := 16

/-- The constant `MAX_Q` of `sched_feedback.c`. -/
abbrev MAX_Q : Nat := 3

/-- The constant `BIT31` of `bitarithm.h`. -/
abbrev BIT31 : Nat := 0x80000000

/-! ## Build configuration -/

/-- The preprocessor switches `sched.c` depends on. -/
structure Config where
  /-- The source's `BITARITHM_HAS_CLZ`: the bit cache is stored in reversed order. -/
  BITARITHM_HAS_CLZ : Bool
  /-- The source's `SCHED_TEST_STACK`: `_unschedule` checks the stack canary. -/
  SCHED_TEST_STACK : Bool
  /-- The source's `MODULE_CORE_IDLE_THREAD`: an idle thread exists, `sched_run` does not
  idle itself. -/
  MODULE_CORE_IDLE_THREAD : Bool
  deriving DecidableEq

/-! ## Data model -/

/-- The fields of `thread_t` the scheduler reads or writes. -/
structure thread_t where
  pid : Nat
  status : Nat
  priority : Nat
  stack_start : Nat
  service_time : Nat
  deriving DecidableEq

/-- Why a function did not run to its end. -/
inductive Abort where
  /-- A field of the null thread pointer was read or written. -/
  | null_deref
  /-- The `assert` of `sched_change_priority` failed. -/
  | assert_failed
  /-- The call `core_panic(PANIC_STACK_OVERFLOW, ...)`, which does not return. -/
  | core_panic_stack_overflow
  /-- The idle loop of `sched_run`: nothing is runnable until an interrupt arrives. -/
  | arch_idle
  deriving DecidableEq

/-- The globals of `sched.c` and `sched_feedback.c`, the descriptor memory and the
observation fields. -/
structure State where
  /-- Descriptor memory: the `thread_t` at each address. -/
  threads : Nat → thread_t
  /-- Word memory, read by the stack test. -/
  mem : Nat → Nat
  sched_active_pid : Nat
  /-- The process table, indexed by pid. -/
  sched_threads : Nat → Option Nat
  sched_num_threads : Int
  sched_active_thread : Option Nat
  sched_context_switch_request : Nat
  /-- The run queue of each priority, head first. -/
  sched_runqueues : Nat → List Nat
  runqueue_bitcache : Nat
  _current_fb_priority : Nat
  /-- The interval `_fb_timer` was last set to, if it was set. -/
  fb_timer : Option Nat
  /-- Number of calls of `ztimer_set` on `_fb_timer`. -/
  timer_set_count : Nat
  /-- Number of calls of `thread_yield_higher`. -/
  yield_count : Nat
  /-- Arguments of the calls of `sched_runq_callback`, latest first. -/
  runq_cb_log : List Nat

/-- Write one descriptor. -/
def State.set_thread (s : State) (t : Nat) (f : thread_t → thread_t) : State :=
  { s with threads := fun i => if i = t then f (s.threads i) else s.threads i }

/-- Write one run queue. -/
def State.set_runqueue (s : State) (p : Nat) (l : List Nat) : State :=
  { s with sched_runqueues := fun q => if q = p then l else s.sched_runqueues q }

/-! ## Circular lists (`clist.h`) and bit arithmetic (`bitarithm.h`) -/

/-- Modelled from the spec: `clist.h` is not among the sources.  A FIFO is the list of
its members, head first; `clist_rpush` is the O(1) push-to-tail. -/
def clist_rpush (l : List Nat) (new_node : Nat) : List Nat := l ++ [new_node]

/-- Modelled from the spec: `clist.h` is not among the sources.  `clist_lpop` is the O(1)
pop-from-head; on an empty list it does nothing. -/
def clist_lpop (l : List Nat) : List Nat := l.tail

/-- Modelled from the spec: `clist.h` is not among the sources.  `clist_lpoprpush` is the
rotation: the head becomes the tail. -/
def clist_lpoprpush : List Nat → List Nat
  | [] => []
  | x :: xs => xs ++ [x]

/-- Modelled from the spec: `bitarithm.h` is not among the sources.  `bitarithm_lsb v` is
the index of the least significant set bit, found by shifting right until bit 0 is set;
the argument has 32 bits. -/
def bitarithm_lsb_loop : Nat → Nat → Nat
  | 0, _ => 0
  | fuel + 1, v => if v % 2 = 1 then 0 else 1 + bitarithm_lsb_loop fuel (v / 2)

/-- Modelled from the spec: see `bitarithm_lsb_loop`. -/
def bitarithm_lsb (v : Nat) : Nat := bitarithm_lsb_loop 32 v

/-- Modelled from the spec: `bitarithm.h` is not among the sources.  `bitarithm_msb v` is
the index of the most significant set bit, found by counting the right shifts until the
value is used up; the argument has 32 bits. -/
def bitarithm_msb_loop : Nat → Nat → Nat
  | 0, _ => 0
  | fuel + 1, v => if v / 2 = 0 then 0 else 1 + bitarithm_msb_loop fuel (v / 2)

/-- Modelled from the spec: see `bitarithm_msb_loop`. -/
def bitarithm_msb (v : Nat) : Nat := bitarithm_msb_loop 32 v

/-! ## The bit cache -/

/-- The source's `_set_runqueue_bit`, as a function of the old cache. -/
def _set_runqueue_bit (cfg : Config) (cache : Nat) (priority : Nat) : Nat :=
  if cfg.BITARITHM_HAS_CLZ then (cache ||| (BIT31 >>> priority)) % 2 ^ 32
  else (cache ||| (1 <<< priority)) % 2 ^ 32

/-- The source's `_clear_runqueue_bit`, as a function of the old cache. -/
def _clear_runqueue_bit (cfg : Config) (cache : Nat) (priority : Nat) : Nat :=
  if cfg.BITARITHM_HAS_CLZ then (cache &&& (0xFFFFFFFF ^^^ (BIT31 >>> priority))) % 2 ^ 32
  else (cache &&& (0xFFFFFFFF ^^^ ((1 <<< priority) % 2 ^ 32))) % 2 ^ 32

/-- The source's `_get_prio_queue_from_runqueue`, as a function of the cache. -/
def _get_prio_queue_from_runqueue (cfg : Config) (cache : Nat) : Nat :=
  if cfg.BITARITHM_HAS_CLZ then 31 - bitarithm_msb cache
  else bitarithm_lsb cache

/-- The bit of the cache that represents priority `p`: bit `31 - p` with CLZ, bit `p`
without. -/
def runqueue_bit (cfg : Config) (cache : Nat) (p : Nat) : Bool :=
  if cfg.BITARITHM_HAS_CLZ then cache.testBit (31 - p) else cache.testBit p

/-! ## The feedback controller's arming rule (`sched_feedback.c`) -/

/-- Modelled from the spec: `thread_yield_higher` is an external collaborator that triggers
`sched_run` by a software interrupt or a direct call.  The call is counted; the `sched_run`
it triggers is a step of its own. -/
def thread_yield_higher (s : State) : State :=
  { s with yield_count := s.yield_count + 1 }

/-- The source's `_sched_feedback_set`. -/
def _sched_feedback_set (s : State) (prio : Nat) : State :=
  if prio = 0 then s
  else { s with _current_fb_priority := prio, fb_timer := some 500000,
                timer_set_count := s.timer_set_count + 1 }

/-- The source's `sched_runq_callback`; the call is logged first. -/
def sched_runq_callback (s : State) (prio : Nat) : State :=
  let s1 : State := { s with runq_cb_log := prio :: s.runq_cb_log }
  if prio = 0 then s1
  else if s1._current_fb_priority = 0xff then _sched_feedback_set s1 prio
  else s1

/-! ## Run queue operations (`sched.c`) -/

/-- Modelled from the spec: `thread.h` is not among the sources.  `thread_is_active` says
that the status is an on-runqueue status, that is at or above `STATUS_ON_RUNQUEUE`. -/
def thread_is_active (t : thread_t) : Prop := STATUS_ON_RUNQUEUE ≤ t.status

instance (t : thread_t) : Decidable (thread_is_active t) :=
  inferInstanceAs (Decidable (STATUS_ON_RUNQUEUE ≤ t.status))

/-- Modelled from the spec: `sched.h` is not among the sources.  `sched_runq_advance`
advances the FIFO of `prio`: it rotates the head to the tail. -/
def sched_runq_advance (s : State) (prio : Nat) : State :=
  s.set_runqueue prio (clist_lpoprpush (s.sched_runqueues prio))

/-- Modelled from the spec: `sched.h` is not among the sources.  `sched_runq_is_empty`
says that the FIFO of `prio` has no member. -/
def sched_runq_is_empty (s : State) (prio : Nat) : Prop := s.sched_runqueues prio = []

instance (s : State) (prio : Nat) : Decidable (sched_runq_is_empty s prio) :=
  inferInstanceAs (Decidable (s.sched_runqueues prio = []))

/-- The source's `_runqueue_push`. -/
def _runqueue_push (cfg : Config) (s : State) (thread : Nat) (priority : Nat) : State :=
  let s1 : State :=
    { s.set_runqueue priority (clist_rpush (s.sched_runqueues priority) thread) with
      runqueue_bitcache := _set_runqueue_bit cfg s.runqueue_bitcache priority }
  match s1.sched_active_thread with
  | some active_thread =>
    if (s1.threads active_thread).priority = priority then sched_runq_callback s1 priority
    else s1
  | none => s1

/-- The source's `_runqueue_pop`: the head of the run queue of `thread->priority` is removed. -/
def _runqueue_pop (cfg : Config) (s : State) (thread : Nat) : State :=
  let priority := (s.threads thread).priority
  let s1 : State := s.set_runqueue priority (clist_lpop (s.sched_runqueues priority))
  if s1.sched_runqueues priority = [] then
    sched_runq_callback
      { s1 with runqueue_bitcache := _clear_runqueue_bit cfg s1.runqueue_bitcache priority }
      priority
  else s1

/-- The source's `sched_set_status`. -/
def sched_set_status (cfg : Config) (s : State) (process : Nat) (status : Nat) : State :=
  let s1 : State :=
    if STATUS_ON_RUNQUEUE ≤ status then
      if ¬ (STATUS_ON_RUNQUEUE ≤ (s.threads process).status) then
        _runqueue_push cfg s process (s.threads process).priority
      else s
    else
      if STATUS_ON_RUNQUEUE ≤ (s.threads process).status then _runqueue_pop cfg s process
      else s
  s1.set_thread process (fun t => { t with status := status })

/-- The source's `_unschedule`. -/
def _unschedule (cfg : Config) (s : State) (active_thread : Nat) : Except Abort State :=
  let s1 : State :=
    if (s.threads active_thread).status = STATUS_RUNNING then
      s.set_thread active_thread (fun t => { t with status := STATUS_PENDING })
    else s
  if cfg.SCHED_TEST_STACK = true ∧
      s1.mem (s1.threads active_thread).stack_start ≠ (s1.threads active_thread).stack_start then
    .error .core_panic_stack_overflow
  else .ok s1

/-- The source's `sched_run`: the thread returned and the state on return. -/
def sched_run (cfg : Config) (s : State) : Except Abort (Nat × State) :=
  let previous_thread := s.sched_active_thread
  if cfg.MODULE_CORE_IDLE_THREAD = false ∧ s.runqueue_bitcache = 0 then
    match s.sched_active_thread with
    | some active_thread =>
      match _unschedule cfg s active_thread with
      | .error e => .error e
      | .ok _ => .error .arch_idle
    | none => .error .arch_idle
  else
    let s1 : State := { s with sched_context_switch_request := 0 }
    let nextrq := _get_prio_queue_from_runqueue cfg s1.runqueue_bitcache
    match (s1.sched_runqueues nextrq).head? with
    | none => .error .null_deref
    | some next_thread =>
      let s2 := sched_runq_callback s1 (nextrq % 256)
      let s3 := s2.set_thread next_thread (fun t => { t with status := STATUS_RUNNING })
      if previous_thread = some next_thread then .ok (next_thread, s3)
      else
        let unscheduled : Except Abort State :=
          match previous_thread with
          | some active_thread => _unschedule cfg s3 active_thread
          | none => .ok s3
        match unscheduled with
        | .error e => .error e
        | .ok s4 =>
          .ok (next_thread,
            { s4 with sched_active_pid := (s4.threads next_thread).pid,
                      sched_active_thread := some next_thread })

/-- The source's `sched_switch`; `irq_is_in` is the answer of the external `irq_is_in()`. -/
def sched_switch (s : State) (irq_is_in : Bool) (other_prio : Nat) : Except Abort State :=
  match s.sched_active_thread with
  | none => .error .null_deref
  | some active_thread =>
    let current_prio := (s.threads active_thread).priority
    if ¬ (STATUS_ON_RUNQUEUE ≤ (s.threads active_thread).status) ∨ current_prio > other_prio then
      if irq_is_in = true then .ok { s with sched_context_switch_request := 1 }
      else .ok (thread_yield_higher s)
    else .ok s

/-- The source's `sched_task_exit`: the state at the call of `cpu_switch_context_exit`. -/
def sched_task_exit (cfg : Config) (s : State) : Except Abort State :=
  let s1 : State :=
    { s with sched_threads := fun i => if i = s.sched_active_pid then none else s.sched_threads i,
             sched_num_threads := s.sched_num_threads - 1 }
  match s1.sched_active_thread with
  | none => .error .null_deref
  | some active_thread =>
    .ok { sched_set_status cfg s1 active_thread STATUS_STOPPED with sched_active_thread := none }

/-- The critical section of `sched_change_priority`, between `irq_disable` and
`irq_restore`: a thread with an on-runqueue status is popped and pushed, then the priority
is written. -/
def sched_change_priority_requeue (cfg : Config) (s : State) (t : Nat) (priority : Nat) :
    State :=
  let s1 : State :=
    if thread_is_active (s.threads t) then _runqueue_push cfg (_runqueue_pop cfg s t) t priority
    else s
  s1.set_thread t (fun d => { d with priority := priority })

/-- The source's `sched_change_priority`. -/
def sched_change_priority (cfg : Config) (s : State) (thread : Option Nat) (priority : Nat) :
    Except Abort State :=
  match thread with
  | none => .error .assert_failed
  | some t =>
    if ¬ (priority < SCHED_PRIO_LEVELS) then .error .assert_failed
    else if (s.threads t).priority = priority then .ok s
    else
      let s2 : State := sched_change_priority_requeue cfg s t priority
      match s2.sched_active_thread with
      | some active =>
        if active = t ∨
            ((s2.threads active).priority > priority ∧ thread_is_active (s2.threads t)) then
          .ok (thread_yield_higher s2)
        else .ok s2
      | none => .ok s2

/-! ## The quantum callback and the initialisation (`sched_feedback.c`) -/

/-- The statement `active_thread->service_time -= 500000` on a `uint32_t`. -/
def debit_quantum (s : State) (active_thread : Nat) : State :=
  s.set_thread active_thread
    (fun t => { t with service_time := (t.service_time + (2 ^ 32 - 500000)) % 2 ^ 32 })

/-- The source's `_sched_feedback_cb`. -/
def _sched_feedback_cb (cfg : Config) (s : State) : Except Abort State :=
  let prio := s._current_fb_priority
  match s.sched_active_thread with
  | none => .error .null_deref
  | some active_thread =>
    let active_priority := (s.threads active_thread).priority
    let s1 : State := if prio ≠ 0xff then { s with _current_fb_priority := 0xff } else s
    let s2 : State :=
      if (s1.threads active_thread).service_time = 0 then
        thread_yield_higher
          (sched_runq_advance (s1.set_thread active_thread (fun t => { t with status := 0 }))
            (s1.threads active_thread).priority)
      else s1
    if (s2.threads active_thread).service_time ≠ 0 then
      if active_priority = prio ∧ active_priority < MAX_Q then
        match sched_change_priority cfg s2 (some active_thread) ((active_priority + 1) % 256) with
        | .error e => .error e
        | .ok s3 =>
          let prio2 := if sched_runq_is_empty s3 prio then (prio + 1) % 256 else prio
          .ok (sched_runq_callback (debit_quantum s3 active_thread) prio2)
      else if active_priority = MAX_Q then
        .ok (sched_runq_callback
          (debit_quantum (thread_yield_higher (sched_runq_advance s2 MAX_Q)) active_thread) prio)
      else .ok (sched_runq_callback (debit_quantum s2 active_thread) prio)
    else .ok (sched_runq_callback s2 prio)

/-- The source's `sched_feedback_init`. -/
def sched_feedback_init (cfg : Config) (s : State) : Except Abort State :=
  let s1 : State := { s with _current_fb_priority := 0xff }
  let active_thread := s1.sched_active_thread
  match sched_change_priority cfg s1 active_thread 1 with
  | .error e => .error e
  | .ok s2 =>
    match active_thread with
    | some a => .ok (sched_runq_callback s2 (s2.threads a).priority)
    | none => .ok s2

/-! ## Reachable states -/

/-- One step of the scheduler: a call of one of the five entry points that runs to its end. -/
inductive Step (cfg : Config) : State → State → Prop where
  | set_status (s : State) (t status : Nat) : Step cfg s (sched_set_status cfg s t status)
  | change_priority (s s1 : State) (t : Option Nat) (p : Nat) :
      sched_change_priority cfg s t p = .ok s1 → Step cfg s s1
  | task_exit (s s1 : State) : sched_task_exit cfg s = .ok s1 → Step cfg s s1
  | run (s s1 : State) (n : Nat) : sched_run cfg s = .ok (n, s1) → Step cfg s s1
  | quantum (s s1 : State) : _sched_feedback_cb cfg s = .ok s1 → Step cfg s s1

/-- The empty initial state: the static initial values of the globals (all run queues
empty, bit cache 0, no active thread, no switch requested, `_current_fb_priority = 0`) and
descriptors of threads that are created but not yet on a run queue. -/
def initial (s : State) : Prop :=
  (∀ p, s.sched_runqueues p = []) ∧ s.runqueue_bitcache = 0 ∧
  s.sched_active_thread = none ∧ s.sched_context_switch_request = 0 ∧
  s._current_fb_priority = 0 ∧
  (∀ t, (s.threads t).status < STATUS_ON_RUNQUEUE) ∧
  (∀ t, (s.threads t).priority < SCHED_PRIO_LEVELS)

/-- The states reachable from an empty initial state. -/
inductive Reachable (cfg : Config) : State → Prop where
  | init (s : State) : initial s → Reachable cfg s
  | step (s s1 : State) : Reachable cfg s → Step cfg s s1 → Reachable cfg s1

/-- The invariant I2 / P1: for every priority below 32 the bit that represents it is set
exactly when its run queue is not empty. -/
def bits_match (cfg : Config) (s : State) : Prop :=
  ∀ p, p < 32 → (runqueue_bit cfg s.runqueue_bitcache p = true ↔ s.sched_runqueues p ≠ [])

/-! ## Reachable states of the feedback controller -/

/-- One step seen by the feedback controller: a scheduler step (which includes the quantum
expiry), a call of `sched_feedback_init` that runs to its end, or a call of
`sched_runq_callback` by the scheduler with a priority below `SCHED_PRIO_LEVELS`. -/
inductive FbStep (cfg : Config) : State → State → Prop where
  | sched (s s1 : State) : Step cfg s s1 → FbStep cfg s s1
  | init (s s1 : State) : sched_feedback_init cfg s = .ok s1 → FbStep cfg s s1
  | callback (s : State) (p : Nat) : p < SCHED_PRIO_LEVELS →
      FbStep cfg s (sched_runq_callback s p)

/-- The states reachable from an empty initial state, where `_current_fb_priority` has
its static initial value. -/
inductive FbReachable (cfg : Config) : State → Prop where
  | init (s : State) : initial s → FbReachable cfg s
  | step (s s1 : State) : FbReachable cfg s → FbStep cfg s s1 → FbReachable cfg s1

/-- What holds of the controller in every reachable state: every descriptor carries a
valid level, only run queues of valid levels are occupied, and `_current_fb_priority` is a
level or the sentinel. -/
def fb_inv (s : State) : Prop :=
  (∀ t, (s.threads t).priority < SCHED_PRIO_LEVELS) ∧
  (∀ q, s.sched_runqueues q ≠ [] → q < SCHED_PRIO_LEVELS) ∧
  (s._current_fb_priority < SCHED_PRIO_LEVELS ∨ s._current_fb_priority = 0xff)

/-! ## Example states -/

/-- Descriptors of threads that are created but not yet queued: the thread at address `i`
has pid `i + 1`, is STOPPED, and has the given priority and service time. -/
def created (prio service : Nat → Nat) : Nat → thread_t :=
  fun i => { pid := i + 1, status := STATUS_STOPPED, priority := prio i,
             stack_start := 4096 * (i + 1), service_time := service i }

/-- The state at boot: the static initial values of the globals, the given descriptors,
and every stack canary intact (each word of memory holds its own address). -/
def boot (threads : Nat → thread_t) : State :=
  { threads := threads, mem := fun a => a, sched_active_pid := 0,
    sched_threads := fun _ => none, sched_num_threads := 0, sched_active_thread := none,
    sched_context_switch_request := 0, sched_runqueues := fun _ => [], runqueue_bitcache := 0,
    _current_fb_priority := 0, fb_timer := none, timer_set_count := 0, yield_count := 0,
    runq_cb_log := [] }

/-- Thread `a` has been selected by the scheduler: it is RUNNING and active. -/
def dispatched (s : State) (a : Nat) : State :=
  { s.set_thread a (fun t => { t with status := STATUS_RUNNING }) with
    sched_active_pid := (s.threads a).pid, sched_active_thread := some a }

/-- The stack of the thread at address `a` has overflowed: its canary word is overwritten. -/
def stack_smashed (s : State) (a : Nat) : State :=
  { s with mem := fun x => if x = (s.threads a).stack_start then 0 else s.mem x }

/-- A build without CLZ, with the stack test, without idle thread. -/
def cfg_lsb : Config :=
  { BITARITHM_HAS_CLZ := false, SCHED_TEST_STACK := true, MODULE_CORE_IDLE_THREAD := false }

/-- A build with CLZ, with the stack test, without idle thread. -/
def cfg_clz : Config :=
  { BITARITHM_HAS_CLZ := true, SCHED_TEST_STACK := true, MODULE_CORE_IDLE_THREAD := false }

/-- Scenario S1: A (address 0, priority 1), B (address 1, priority 2) and C (address 2,
priority 3), all made PENDING in this order. -/
def three_pending (cfg : Config) : State :=
  sched_set_status cfg
    (sched_set_status cfg
      (sched_set_status cfg (boot (created (fun i => min (i + 1) 3) (fun _ => 1000000))) 0
        STATUS_PENDING)
      1 STATUS_PENDING)
    2 STATUS_PENDING

/-- Two threads of the same priority, A (address 0) and B (address 1), made PENDING in
this order: the run queue of `prio` is `[A, B]`. -/
def two_pending (cfg : Config) (prio : Nat) : State :=
  sched_set_status cfg
    (sched_set_status cfg (boot (created (fun _ => prio) (fun _ => 1000000))) 0 STATUS_PENDING)
    1 STATUS_PENDING

/-- Scenario S2: A and B of priority 3, A RUNNING and active, B PENDING. -/
def running_and_pending (cfg : Config) : State := dispatched (two_pending cfg 3) 0

/-- A (address 0, priority 2) is RUNNING and active and has overflowed its stack; B
(address 1, priority 1) has just been made PENDING. -/
def overflowed_then_woken (cfg : Config) : State :=
  sched_set_status cfg
    (stack_smashed
      (dispatched
        (sched_set_status cfg (boot (created (fun i => 2 - i) (fun _ => 1000000))) 0
          STATUS_PENDING) 0) 0)
    1 STATUS_PENDING

/-- One thread A (address 0, priority 1) with a budget of one quantum, made PENDING. -/
def one_pending (cfg : Config) : State :=
  sched_set_status cfg (boot (created (fun _ => 1) (fun _ => 500000))) 0 STATUS_PENDING

/-- The controller has armed its timer on class `p`: what `_sched_feedback_set` leaves. -/
def armed (s : State) (p : Nat) : State :=
  { s with _current_fb_priority := p, fb_timer := some 500000,
           timer_set_count := s.timer_set_count + 1 }

/-- One thread A (address 0) of the given priority and service time is the only runnable
thread, RUNNING and active at the head of its run queue, and the controller is armed on
class `fb`. -/
def single_running (cfg : Config) (prio service fb : Nat) : State :=
  armed
    (dispatched
      (sched_set_status cfg (boot (created (fun _ => prio) (fun _ => service))) 0 STATUS_PENDING)
      0)
    fb

/-- Scenario S4: A (address 0, priority 2, service time 0) is RUNNING and active, the only
member of run queue 2; B (address 1, priority 3) is PENDING; the controller is armed on
class 2. -/
def exhausted_and_pending (cfg : Config) : State :=
  armed
    (dispatched
      (sched_set_status cfg
        (sched_set_status cfg
          (boot (created (fun i => 2 + min i 1) (fun i => if i = 0 then 0 else 1000000))) 0
          STATUS_PENDING)
        1 STATUS_PENDING)
      0)
    2

/-- A (address 0, priority 2) is RUNNING and active; B (address 1, priority 1) has just
been made PENDING; every canary is intact. -/
def running_then_woken (cfg : Config) : State :=
  sched_set_status cfg
    (dispatched
      (sched_set_status cfg (boot (created (fun i => 2 - i) (fun _ => 1000000))) 0
        STATUS_PENDING) 0)
    1 STATUS_PENDING

/-- The controller is idle (`_current_fb_priority = 0xFF`), nothing else has happened. -/
def controller_idle : State :=
  { boot (created (fun _ => 1) (fun _ => 500000)) with _current_fb_priority := 0xff }

/-- One thread A (address 0) of priority 7 with a budget of two quanta, made PENDING. -/
def one_pending_prio7 (cfg : Config) : State :=
  sched_set_status cfg (boot (created (fun _ => 7) (fun _ => 1000000))) 0 STATUS_PENDING

/-! ## Derived operations of the later claims -/

/-- The first statement of `_unschedule`: a RUNNING thread becomes PENDING.  It is the
state in which the canary is tested and, on a mismatch, `core_panic` is called. -/
def _unschedule_status (s : State) (active_thread : Nat) : State :=
  if (s.threads active_thread).status = STATUS_RUNNING then
    s.set_thread active_thread (fun t => { t with status := STATUS_PENDING })
  else s

/-- The threads of a list are made PENDING by `sched_set_status`, in the order of the
list. -/
def make_pending (cfg : Config) : State → List Nat → State
  | s, [] => s
  | s, t :: ts => make_pending cfg (sched_set_status cfg s t STATUS_PENDING) ts

/-- The loop of the FIFO claim, `n` times: `sched_run`, then
`sched_set_status(returned thread, STATUS_STOPPED)`.  The result lists the threads
returned, in order. -/
def run_and_stop (cfg : Config) : Nat → State → Except Abort (List Nat × State)
  | 0, s => .ok ([], s)
  | n + 1, s =>
    match sched_run cfg s with
    | .error e => .error e
    | .ok (t, s1) =>
      match run_and_stop cfg n (sched_set_status cfg s1 t STATUS_STOPPED) with
      | .error e => .error e
      | .ok (ts, s2) => .ok (t :: ts, s2)

/-- A run of the system from `s` in which the quantum callback has fired `j` times, each
time with `a` as the active thread, with any calls of `sched_set_status`,
`sched_change_priority` and `sched_run` in between. -/
inductive Expiries (cfg : Config) (a : Nat) : Nat → State → State → Prop where
  | start (s : State) : Expiries cfg a 0 s s
  | expiry (j : Nat) (s s1 s2 : State) : Expiries cfg a j s s1 →
      s1.sched_active_thread = some a → _sched_feedback_cb cfg s1 = .ok s2 →
      Expiries cfg a (j + 1) s s2
  | set_status (j : Nat) (s s1 : State) (t status : Nat) : Expiries cfg a j s s1 →
      Expiries cfg a j s (sched_set_status cfg s1 t status)
  | change_priority (j : Nat) (s s1 s2 : State) (t : Option Nat) (p : Nat) :
      Expiries cfg a j s s1 → sched_change_priority cfg s1 t p = .ok s2 →
      Expiries cfg a j s s2
  | run (j : Nat) (s s1 s2 : State) (n : Nat) : Expiries cfg a j s s1 →
      sched_run cfg s1 = .ok (n, s2) → Expiries cfg a j s s2

/-- The service times `S_TIME1` to `S_TIME5` of the reference workload in `main.c`. -/
def S_TIME : List Nat := [3000000, 6000000, 4000000, 5000000, 2000000]

/-- Scenario S5: A and B of priority 3 in run queue 3 = `[A, B]`, A RUNNING and active with
two quanta of service left, the controller armed on class 3. -/
def round_robin_pair (cfg : Config) : State := armed (running_and_pending cfg) 3

/-- The main thread A (address 0, priority 7) is RUNNING and active, alone in run queue 7;
the controller has not been initialised. -/
def main_thread_running (cfg : Config) : State :=
  dispatched (one_pending_prio7 cfg) 0

/-- Three threads of priority 1 (addresses 0, 1, 2), created and not yet queued. -/
def three_created : State := boot (created (fun _ => 1) (fun _ => 1000000))

/-- A (address 0, priority 2) is RUNNING and active and has overflowed its stack; B
(address 1, priority 1) is created and not yet queued. -/
def overflowed_running : State :=
  stack_smashed
    (dispatched
      (sched_set_status cfg_lsb (boot (created (fun i => 2 - i) (fun _ => 1000000))) 0
        STATUS_PENDING) 0) 0

/-! ## The run queues as intrusive circular lists -/

/-- Modelled from the spec: `clist.h` is not among the sources.  The run queue table as
"circular intrusive FIFOs": every thread has one link, `rq_entry`, and a FIFO is a ring of
such links.  `rq_entry t` is `t->rq_entry.next` of the thread at address `t`;
`runqueue p` is `sched_runqueues[p].next`, null for an empty FIFO, otherwise the last
node, whose link leads to the first (`sched_run` reads the head as
`sched_runqueues[nextrq].next->next`). -/
structure Links where
  rq_entry : Nat → Nat
  runqueue : Nat → Option Nat

/-- Modelled from the spec: `clist.h` is not among the sources.  `clist_rpush(list,
new_node)`, the O(1) push-to-tail: the new node is linked to the first node, the last node
is linked to the new node (in this order), and the new node becomes the last; in an empty
list the new node is linked to itself. -/
def Links.clist_rpush (L : Links) (list new_node : Nat) : Links :=
  match L.runqueue list with
  | some last =>
    let L1 : Links :=
      { L with rq_entry := fun x => if x = new_node then L.rq_entry last else L.rq_entry x }
    { rq_entry := fun x => if x = last then new_node else L1.rq_entry x,
      runqueue := fun q => if q = list then some new_node else L1.runqueue q }
  | none =>
    { rq_entry := fun x => if x = new_node then new_node else L.rq_entry x,
      runqueue := fun q => if q = list then some new_node else L.runqueue q }

/-- Modelled from the spec: `clist.h` is not among the sources.  `clist_lpop(list)`, the
O(1) pop-from-head: when the first node is the last one the list becomes empty, otherwise
the last node is linked to the node after the first; on an empty list it does nothing. -/
def Links.clist_lpop (L : Links) (list : Nat) : Links :=
  match L.runqueue list with
  | some last =>
    let first := L.rq_entry last
    if last = first then
      { L with runqueue := fun q => if q = list then none else L.runqueue q }
    else
      { L with rq_entry := fun x => if x = last then L.rq_entry first else L.rq_entry x }
  | none => L

/-- Modelled from the spec: `clist.h` is not among the sources.  `clist_lpoprpush(list)`,
the O(1) rotation: the first node becomes the last. -/
def Links.clist_lpoprpush (L : Links) (list : Nat) : Links :=
  match L.runqueue list with
  | some last =>
    { L with runqueue := fun q => if q = list then some (L.rq_entry last) else L.runqueue q }
  | none => L

/-- Each node of the list is linked to the node after it, and the last one to `b`. -/
def links_to (next : Nat → Nat) : List Nat → Nat → Prop
  | [], _ => True
  | x :: xs, b => next x = xs.headD b ∧ links_to next xs b

/-- Whether `links_to` holds can be computed. -/
def links_to_decidable (next : Nat → Nat) : (l : List Nat) → (b : Nat) →
    Decidable (links_to next l b)
  | [], _ => .isTrue trivial
  | x :: xs, b =>
    match Nat.decEq (next x) (xs.headD b), links_to_decidable next xs b with
    | .isTrue h1, .isTrue h2 => .isTrue ⟨h1, h2⟩
    | .isFalse h1, _ => .isFalse fun h => h1 h.1
    | _, .isFalse h2 => .isFalse fun h => h2 h.2

instance (next : Nat → Nat) (l : List Nat) (b : Nat) : Decidable (links_to next l b) :=
  links_to_decidable next l b

/-- The FIFO of priority `p` is the list `l`, head first: `sched_runqueues[p].next` is the
last node of `l` (null when `l` is empty), the nodes of `l` are distinct, each is linked to
the next and the last to the first. -/
def Links.is_fifo (L : Links) (p : Nat) (l : List Nat) : Prop :=
  L.runqueue p = l.getLast? ∧ l.Nodup ∧ links_to L.rq_entry l (l.headD 0)

instance (L : Links) (p : Nat) (l : List Nat) : Decidable (L.is_fifo p l) :=
  inferInstanceAs (Decidable (_ ∧ _ ∧ _))

/-- The scheduler state with the run queue table as linked rings. -/
structure LinkedState where
  /-- The descriptors and every global but the run queue table.  The functions on linked
  states neither read nor write the field `sched_runqueues` of this component. -/
  globals : State
  /-- The run queue table. -/
  links : Links

namespace Linked

/-- Modelled from the spec: `sched.h` is not among the sources.  `sched_runq_advance`
advances the FIFO of `prio` by `clist_lpoprpush`. -/
def sched_runq_advance (s : LinkedState) (prio : Nat) : LinkedState :=
  { s with links := s.links.clist_lpoprpush prio }

/-- Modelled from the spec: `sched.h` is not among the sources.  `sched_runq_is_empty`
says that the FIFO of `prio` has no member: `sched_runqueues[prio].next` is null. -/
def sched_runq_is_empty (s : LinkedState) (prio : Nat) : Prop := s.links.runqueue prio = none

instance (s : LinkedState) (prio : Nat) : Decidable (sched_runq_is_empty s prio) :=
  inferInstanceAs (Decidable (s.links.runqueue prio = none))

/-- The source's `_runqueue_push`, on linked run queues. -/
def _runqueue_push (cfg : Config) (s : LinkedState) (thread : Nat) (priority : Nat) :
    LinkedState :=
  let s1 : LinkedState :=
    { globals := { s.globals with
        runqueue_bitcache := _set_runqueue_bit cfg s.globals.runqueue_bitcache priority },
      links := s.links.clist_rpush priority thread }
  match s1.globals.sched_active_thread with
  | some active_thread =>
    if (s1.globals.threads active_thread).priority = priority then
      { s1 with globals := sched_runq_callback s1.globals priority }
    else s1
  | none => s1

/-- The source's `_runqueue_pop`, on linked run queues: the head of the FIFO of
`thread->priority` is removed. -/
def _runqueue_pop (cfg : Config) (s : LinkedState) (thread : Nat) : LinkedState :=
  let priority := (s.globals.threads thread).priority
  let s1 : LinkedState := { s with links := s.links.clist_lpop priority }
  if s1.links.runqueue priority = none then
    let g1 : State :=
      { s1.globals with
        runqueue_bitcache := _clear_runqueue_bit cfg s1.globals.runqueue_bitcache priority }
    { s1 with globals := sched_runq_callback g1 priority }
  else s1

/-- The source's `sched_set_status`, on linked run queues. -/
def sched_set_status (cfg : Config) (s : LinkedState) (process : Nat) (status : Nat) :
    LinkedState :=
  let s1 : LinkedState :=
    if STATUS_ON_RUNQUEUE ≤ status then
      if ¬ (STATUS_ON_RUNQUEUE ≤ (s.globals.threads process).status) then
        _runqueue_push cfg s process (s.globals.threads process).priority
      else s
    else
      if STATUS_ON_RUNQUEUE ≤ (s.globals.threads process).status then
        _runqueue_pop cfg s process
      else s
  { s1 with globals := s1.globals.set_thread process (fun t => { t with status := status }) }

/-- The source's `sched_run`, on linked run queues: the thread returned and the state on
return.  The next thread is `sched_runqueues[nextrq].next->next`. -/
def sched_run (cfg : Config) (s : LinkedState) : Except Abort (Nat × LinkedState) :=
  let previous_thread := s.globals.sched_active_thread
  if cfg.MODULE_CORE_IDLE_THREAD = false ∧ s.globals.runqueue_bitcache = 0 then
    match s.globals.sched_active_thread with
    | some active_thread =>
      match _unschedule cfg s.globals active_thread with
      | .error e => .error e
      | .ok _ => .error .arch_idle
    | none => .error .arch_idle
  else
    let g1 : State := { s.globals with sched_context_switch_request := 0 }
    let nextrq := _get_prio_queue_from_runqueue cfg g1.runqueue_bitcache
    match s.links.runqueue nextrq with
    | none => .error .null_deref
    | some last =>
      let next_thread := s.links.rq_entry last
      let g2 := sched_runq_callback g1 (nextrq % 256)
      let g3 := g2.set_thread next_thread (fun t => { t with status := STATUS_RUNNING })
      if previous_thread = some next_thread then .ok (next_thread, { s with globals := g3 })
      else
        let unscheduled : Except Abort State :=
          match previous_thread with
          | some active_thread => _unschedule cfg g3 active_thread
          | none => .ok g3
        match unscheduled with
        | .error e => .error e
        | .ok g4 =>
          let g5 : State :=
            { g4 with sched_active_pid := (g4.threads next_thread).pid,
                      sched_active_thread := some next_thread }
          .ok (next_thread, { s with globals := g5 })

/-- The source's `sched_task_exit`, on linked run queues: the state at the call of
`cpu_switch_context_exit`. -/
def sched_task_exit (cfg : Config) (s : LinkedState) : Except Abort LinkedState :=
  let g1 : State :=
    { s.globals with
      sched_threads := fun i =>
        if i = s.globals.sched_active_pid then none else s.globals.sched_threads i,
      sched_num_threads := s.globals.sched_num_threads - 1 }
  let s1 : LinkedState := { s with globals := g1 }
  match s1.globals.sched_active_thread with
  | none => .error .null_deref
  | some active_thread =>
    let s2 := sched_set_status cfg s1 active_thread STATUS_STOPPED
    .ok { s2 with globals := { s2.globals with sched_active_thread := none } }

/-- The critical section of `sched_change_priority`, on linked run queues. -/
def sched_change_priority_requeue (cfg : Config) (s : LinkedState) (t : Nat) (priority : Nat) :
    LinkedState :=
  let s1 : LinkedState :=
    if thread_is_active (s.globals.threads t) then
      _runqueue_push cfg (_runqueue_pop cfg s t) t priority
    else s
  { s1 with globals := s1.globals.set_thread t (fun d => { d with priority := priority }) }

/-- The source's `sched_change_priority`, on linked run queues. -/
def sched_change_priority (cfg : Config) (s : LinkedState) (thread : Option Nat)
    (priority : Nat) : Except Abort LinkedState :=
  match thread with
  | none => .error .assert_failed
  | some t =>
    if ¬ (priority < SCHED_PRIO_LEVELS) then .error .assert_failed
    else if (s.globals.threads t).priority = priority then .ok s
    else
      let s2 : LinkedState := sched_change_priority_requeue cfg s t priority
      match s2.globals.sched_active_thread with
      | some active =>
        if active = t ∨
            ((s2.globals.threads active).priority > priority ∧
              thread_is_active (s2.globals.threads t)) then
          .ok { s2 with globals := thread_yield_higher s2.globals }
        else .ok s2
      | none => .ok s2

/-- The source's `_sched_feedback_cb`, on linked run queues. -/
def _sched_feedback_cb (cfg : Config) (s : LinkedState) : Except Abort LinkedState :=
  let prio := s.globals._current_fb_priority
  match s.globals.sched_active_thread with
  | none => .error .null_deref
  | some active_thread =>
    let active_priority := (s.globals.threads active_thread).priority
    let s1 : LinkedState :=
      if prio ≠ 0xff then { s with globals := { s.globals with _current_fb_priority := 0xff } }
      else s
    let s2 : LinkedState :=
      if (s1.globals.threads active_thread).service_time = 0 then
        let g1 : State := s1.globals.set_thread active_thread (fun t => { t with status := 0 })
        let s1a : LinkedState :=
          sched_runq_advance { s1 with globals := g1 } (s1.globals.threads active_thread).priority
        { s1a with globals := thread_yield_higher s1a.globals }
      else s1
    if (s2.globals.threads active_thread).service_time ≠ 0 then
      if active_priority = prio ∧ active_priority < MAX_Q then
        match sched_change_priority cfg s2 (some active_thread) ((active_priority + 1) % 256) with
        | .error e => .error e
        | .ok s3 =>
          let prio2 := if sched_runq_is_empty s3 prio then (prio + 1) % 256 else prio
          let g3 : State := sched_runq_callback (debit_quantum s3.globals active_thread) prio2
          .ok { s3 with globals := g3 }
      else if active_priority = MAX_Q then
        let s2a := sched_runq_advance s2 MAX_Q
        let g3 : State :=
          sched_runq_callback
            (debit_quantum (thread_yield_higher s2a.globals) active_thread) prio
        .ok { s2a with globals := g3 }
      else
        let g3 : State := sched_runq_callback (debit_quantum s2.globals active_thread) prio
        .ok { s2 with globals := g3 }
    else .ok { s2 with globals := sched_runq_callback s2.globals prio }

end Linked

/-- The linked state at boot: the globals of `boot` and an empty run queue table. -/
def linked_boot (threads : Nat → thread_t) : LinkedState :=
  { globals := boot threads, links := { rq_entry := fun x => x, runqueue := fun _ => none } }

/-- Two threads, A (address 0) and B (address 1), made PENDING in this order on linked run
queues. -/
def linked_two_pending (cfg : Config) (threads : Nat → thread_t) : LinkedState :=
  Linked.sched_set_status cfg
    (Linked.sched_set_status cfg (linked_boot threads) 0 STATUS_PENDING) 1 STATUS_PENDING

/-- Scenario S2 on linked run queues: A and B of priority 3, FIFO 3 is the ring `[A, B]`,
A RUNNING and active, B PENDING. -/
def linked_running_and_pending (cfg : Config) : LinkedState :=
  { globals :=
      dispatched (linked_two_pending cfg (created (fun _ => 3) (fun _ => 1000000))).globals 0,
    links := (linked_two_pending cfg (created (fun _ => 3) (fun _ => 1000000))).links }

/-- A (priority 1, service time 0) and B (priority 1) on linked run queues: FIFO 1 is the
ring `[A, B]`, A RUNNING and active, B PENDING, the controller armed on class 1. -/
def linked_exhausted_pair (cfg : Config) : LinkedState :=
  { globals :=
      armed
        (dispatched
          (linked_two_pending cfg
            (created (fun _ => 1) (fun i => if i = 0 then 0 else 1000000))).globals 0) 1,
    links :=
      (linked_two_pending cfg
        (created (fun _ => 1) (fun i => if i = 0 then 0 else 1000000))).links }

/-- A and B of priority 1 and C (address 2) of priority 3, made PENDING in this order on
linked run queues: FIFO 1 is the ring `[A, B]`, FIFO 3 the ring `[C]`. -/
def linked_three_pending (cfg : Config) : LinkedState :=
  Linked.sched_set_status cfg
    (linked_two_pending cfg (created (fun i => if i = 2 then 3 else 1) (fun _ => 1000000)))
    2 STATUS_PENDING

/-- A (address 0, priority 2) is RUNNING and active, B (address 1, priority 1) has just
been made PENDING, on linked run queues: FIFO 2 is the ring `[A]`, FIFO 1 the ring `[B]`. -/
def linked_running_then_woken (cfg : Config) : LinkedState :=
  Linked.sched_set_status cfg
    { globals :=
        dispatched
          (Linked.sched_set_status cfg (linked_boot (created (fun i => 2 - i) (fun _ => 1000000)))
            0 STATUS_PENDING).globals 0,
      links :=
        (Linked.sched_set_status cfg (linked_boot (created (fun i => 2 - i) (fun _ => 1000000)))
          0 STATUS_PENDING).links }
    1 STATUS_PENDING

/-! ## Bit arithmetic -/

theorem two_pow_31 : (2147483648 : Nat) = 2 ^ 31 := by norm_num

theorem ones_32 : (4294967295 : Nat) = 2 ^ 32 - 1 := by norm_num

/-- Setting the bit of `q` changes the bit of `q` only. -/
theorem runqueue_bit_set (cfg : Config) (c p q : Nat) (hp : p < 32) :
    runqueue_bit cfg (_set_runqueue_bit cfg c q) p
      = (decide (p = q) || runqueue_bit cfg c p) := by
  unfold runqueue_bit _set_runqueue_bit
  cases cfg.BITARITHM_HAS_CLZ
  · simp only [Bool.false_eq_true, if_false, Nat.testBit_mod_two_pow, Nat.testBit_lor,
      Nat.one_shiftLeft, Nat.testBit_two_pow]
    by_cases h : p = q
    · subst h; simp [hp]
    · have h2 : ¬ q = p := fun e => h e.symm
      simp [h, h2, hp]
  · simp only [if_true, Nat.testBit_mod_two_pow, Nat.testBit_lor, Nat.testBit_shiftRight, BIT31,
      two_pow_31, Nat.testBit_two_pow]
    have h31 : 31 - p < 32 := by omega
    by_cases h : p = q
    · subst h
      have : 31 = p + (31 - p) := by omega
      simp [h31, ← this]
    · have h2 : ¬ 31 = q + (31 - p) := by omega
      simp [h, h2, h31]

/-- Clearing the bit of `q` changes the bit of `q` only. -/
theorem runqueue_bit_clear (cfg : Config) (c p q : Nat) (hp : p < 32) :
    runqueue_bit cfg (_clear_runqueue_bit cfg c q) p
      = (!decide (p = q) && runqueue_bit cfg c p) := by
  unfold runqueue_bit _clear_runqueue_bit
  cases cfg.BITARITHM_HAS_CLZ
  · simp only [Bool.false_eq_true, if_false, Nat.testBit_mod_two_pow, Nat.testBit_land,
      Nat.testBit_xor, Nat.one_shiftLeft, Nat.testBit_two_pow, ones_32,
      Nat.testBit_two_pow_sub_one]
    by_cases h : p = q
    · subst h; simp [hp]
    · have h2 : ¬ q = p := fun e => h e.symm
      simp [h, h2, hp]
  · simp only [if_true, Nat.testBit_mod_two_pow, Nat.testBit_land, Nat.testBit_xor,
      Nat.testBit_shiftRight, BIT31, two_pow_31, Nat.testBit_two_pow, ones_32,
      Nat.testBit_two_pow_sub_one]
    have h31 : 31 - p < 32 := by omega
    by_cases h : p = q
    · subst h
      have : 31 = p + (31 - p) := by omega
      simp [h31, ← this]
    · have h2 : ¬ 31 = q + (31 - p) := by omega
      simp [h, h2, h31]

theorem set_runqueue_bit_lt (cfg : Config) (c q : Nat) :
    _set_runqueue_bit cfg c q < 2 ^ 32 := by
  unfold _set_runqueue_bit
  split <;> exact Nat.mod_lt _ (by norm_num)

theorem clear_runqueue_bit_lt (cfg : Config) (c q : Nat) :
    _clear_runqueue_bit cfg c q < 2 ^ 32 := by
  unfold _clear_runqueue_bit
  split <;> exact Nat.mod_lt _ (by norm_num)

/-- The shift loop of `bitarithm_lsb` stops at the lowest set bit. -/
theorem lsb_loop_eq (k : Nat) : ∀ (fuel v : Nat), k < fuel → v.testBit k = true →
    (∀ j, j < k → v.testBit j = false) → bitarithm_lsb_loop fuel v = k := by
  induction k with
  | zero =>
    intro fuel v hf hk _
    obtain ⟨f, rfl⟩ : ∃ f, fuel = f + 1 := ⟨fuel - 1, by omega⟩
    have h1 : v % 2 = 1 := by simpa [Nat.testBit_zero] using hk
    simp [bitarithm_lsb_loop, h1]
  | succ k ih =>
    intro fuel v hf hk hlow
    obtain ⟨f, rfl⟩ : ∃ f, fuel = f + 1 := ⟨fuel - 1, by omega⟩
    have h0 : ¬ v % 2 = 1 := by
      have := hlow 0 (Nat.succ_pos k)
      simpa [Nat.testBit_zero] using this
    have hrec := ih f (v / 2) (by omega) (by rwa [Nat.testBit_succ] at hk)
      (fun j hj => by have := hlow (j + 1) (by omega); rwa [Nat.testBit_succ] at this)
    simp [bitarithm_lsb_loop, h0, hrec, Nat.add_comm]

/-- The shift loop of `bitarithm_msb` counts up to the highest set bit. -/
theorem msb_loop_eq (k : Nat) : ∀ (fuel v : Nat), k < fuel → v.testBit k = true →
    (∀ j, k < j → v.testBit j = false) → bitarithm_msb_loop fuel v = k := by
  induction k with
  | zero =>
    intro fuel v hf _ hhigh
    obtain ⟨f, rfl⟩ : ∃ f, fuel = f + 1 := ⟨fuel - 1, by omega⟩
    have hlt : v < 2 ^ 1 := Nat.lt_pow_two_of_testBit v (fun j hj => hhigh j (by omega))
    have h1 : v / 2 = 0 := by omega
    simp [bitarithm_msb_loop, h1]
  | succ k ih =>
    intro fuel v hf hk hhigh
    obtain ⟨f, rfl⟩ : ∃ f, fuel = f + 1 := ⟨fuel - 1, by omega⟩
    have hk2 : (v / 2).testBit k = true := by rwa [Nat.testBit_succ] at hk
    have h0 : ¬ v / 2 = 0 := by
      intro e
      rw [e] at hk2
      simp at hk2
    have hrec := ih f (v / 2) (by omega) hk2
      (fun j hj => by have := hhigh (j + 1) (by omega); rwa [Nat.testBit_succ] at this)
    simp [bitarithm_msb_loop, h0, hrec, Nat.add_comm]

/-- Reading the cache gives the smallest priority whose bit is set, in both encodings. -/
theorem get_prio_queue_eq (cfg : Config) (c p : Nat) (hc : c < 2 ^ 32) (hp : p < 32)
    (hset : runqueue_bit cfg c p = true) (hmin : ∀ q, q < p → runqueue_bit cfg c q = false) :
    _get_prio_queue_from_runqueue cfg c = p := by
  unfold _get_prio_queue_from_runqueue
  unfold runqueue_bit at hset hmin
  cases hclz : cfg.BITARITHM_HAS_CLZ
  · simp only [hclz, Bool.false_eq_true, if_false] at hset hmin ⊢
    exact lsb_loop_eq p 32 c hp hset hmin
  · simp only [hclz, if_true] at hset hmin ⊢
    have hm : bitarithm_msb c = 31 - p := by
      refine msb_loop_eq (31 - p) 32 c (by omega) hset ?_
      intro j hj
      by_cases h32 : j < 32
      · have := hmin (31 - j) (by omega)
        have e : 31 - (31 - j) = j := by omega
        rwa [e] at this
      · exact Nat.testBit_lt_two_pow
          (lt_of_lt_of_le hc (Nat.pow_le_pow_right (by norm_num) (by omega)))
    rw [hm]
    omega

/-! ## Fields the operations leave alone -/

@[simp] theorem sched_runq_callback_threads (s : State) (p : Nat) :
    (sched_runq_callback s p).threads = s.threads := by
  unfold sched_runq_callback _sched_feedback_set; dsimp only; split_ifs <;> rfl

@[simp] theorem sched_runq_callback_mem (s : State) (p : Nat) :
    (sched_runq_callback s p).mem = s.mem := by
  unfold sched_runq_callback _sched_feedback_set; dsimp only; split_ifs <;> rfl

@[simp] theorem sched_runq_callback_sched_active_pid (s : State) (p : Nat) :
    (sched_runq_callback s p).sched_active_pid = s.sched_active_pid := by
  unfold sched_runq_callback _sched_feedback_set; dsimp only; split_ifs <;> rfl

@[simp] theorem sched_runq_callback_sched_threads (s : State) (p : Nat) :
    (sched_runq_callback s p).sched_threads = s.sched_threads := by
  unfold sched_runq_callback _sched_feedback_set; dsimp only; split_ifs <;> rfl

@[simp] theorem sched_runq_callback_sched_num_threads (s : State) (p : Nat) :
    (sched_runq_callback s p).sched_num_threads = s.sched_num_threads := by
  unfold sched_runq_callback _sched_feedback_set; dsimp only; split_ifs <;> rfl

@[simp] theorem sched_runq_callback_sched_active_thread (s : State) (p : Nat) :
    (sched_runq_callback s p).sched_active_thread = s.sched_active_thread := by
  unfold sched_runq_callback _sched_feedback_set; dsimp only; split_ifs <;> rfl

@[simp] theorem sched_runq_callback_sched_context_switch_request (s : State) (p : Nat) :
    (sched_runq_callback s p).sched_context_switch_request = s.sched_context_switch_request := by
  unfold sched_runq_callback _sched_feedback_set; dsimp only; split_ifs <;> rfl

@[simp] theorem sched_runq_callback_sched_runqueues (s : State) (p : Nat) :
    (sched_runq_callback s p).sched_runqueues = s.sched_runqueues := by
  unfold sched_runq_callback _sched_feedback_set; dsimp only; split_ifs <;> rfl

@[simp] theorem sched_runq_callback_runqueue_bitcache (s : State) (p : Nat) :
    (sched_runq_callback s p).runqueue_bitcache = s.runqueue_bitcache := by
  unfold sched_runq_callback _sched_feedback_set; dsimp only; split_ifs <;> rfl

@[simp] theorem sched_runq_callback_yield_count (s : State) (p : Nat) :
    (sched_runq_callback s p).yield_count = s.yield_count := by
  unfold sched_runq_callback _sched_feedback_set; dsimp only; split_ifs <;> rfl

@[simp] theorem runqueue_push_threads (cfg : Config) (s : State) (t p : Nat) :
    (_runqueue_push cfg s t p).threads = s.threads := by
  unfold _runqueue_push; dsimp only; split <;> [split_ifs; skip] <;> simp [State.set_runqueue]

@[simp] theorem runqueue_push_mem (cfg : Config) (s : State) (t p : Nat) :
    (_runqueue_push cfg s t p).mem = s.mem := by
  unfold _runqueue_push; dsimp only; split <;> [split_ifs; skip] <;> simp [State.set_runqueue]

@[simp] theorem runqueue_push_sched_active_pid (cfg : Config) (s : State) (t p : Nat) :
    (_runqueue_push cfg s t p).sched_active_pid = s.sched_active_pid := by
  unfold _runqueue_push; dsimp only; split <;> [split_ifs; skip] <;> simp [State.set_runqueue]

@[simp] theorem runqueue_push_sched_threads (cfg : Config) (s : State) (t p : Nat) :
    (_runqueue_push cfg s t p).sched_threads = s.sched_threads := by
  unfold _runqueue_push; dsimp only; split <;> [split_ifs; skip] <;> simp [State.set_runqueue]

@[simp] theorem runqueue_push_sched_num_threads (cfg : Config) (s : State) (t p : Nat) :
    (_runqueue_push cfg s t p).sched_num_threads = s.sched_num_threads := by
  unfold _runqueue_push; dsimp only; split <;> [split_ifs; skip] <;> simp [State.set_runqueue]

@[simp] theorem runqueue_push_sched_active_thread (cfg : Config) (s : State) (t p : Nat) :
    (_runqueue_push cfg s t p).sched_active_thread = s.sched_active_thread := by
  unfold _runqueue_push; dsimp only; split <;> [split_ifs; skip] <;> simp [State.set_runqueue]

@[simp] theorem runqueue_push_sched_context_switch_request (cfg : Config) (s : State) (t p : Nat) :
    (_runqueue_push cfg s t p).sched_context_switch_request = s.sched_context_switch_request := by
  unfold _runqueue_push; dsimp only; split <;> [split_ifs; skip] <;> simp [State.set_runqueue]

@[simp] theorem runqueue_push_yield_count (cfg : Config) (s : State) (t p : Nat) :
    (_runqueue_push cfg s t p).yield_count = s.yield_count := by
  unfold _runqueue_push; dsimp only; split <;> [split_ifs; skip] <;> simp [State.set_runqueue]

@[simp] theorem runqueue_pop_threads (cfg : Config) (s : State) (t : Nat) :
    (_runqueue_pop cfg s t).threads = s.threads := by
  unfold _runqueue_pop; dsimp only; split_ifs <;> simp [State.set_runqueue]

@[simp] theorem runqueue_pop_mem (cfg : Config) (s : State) (t : Nat) :
    (_runqueue_pop cfg s t).mem = s.mem := by
  unfold _runqueue_pop; dsimp only; split_ifs <;> simp [State.set_runqueue]

@[simp] theorem runqueue_pop_sched_active_pid (cfg : Config) (s : State) (t : Nat) :
    (_runqueue_pop cfg s t).sched_active_pid = s.sched_active_pid := by
  unfold _runqueue_pop; dsimp only; split_ifs <;> simp [State.set_runqueue]

@[simp] theorem runqueue_pop_sched_threads (cfg : Config) (s : State) (t : Nat) :
    (_runqueue_pop cfg s t).sched_threads = s.sched_threads := by
  unfold _runqueue_pop; dsimp only; split_ifs <;> simp [State.set_runqueue]

@[simp] theorem runqueue_pop_sched_num_threads (cfg : Config) (s : State) (t : Nat) :
    (_runqueue_pop cfg s t).sched_num_threads = s.sched_num_threads := by
  unfold _runqueue_pop; dsimp only; split_ifs <;> simp [State.set_runqueue]

@[simp] theorem runqueue_pop_sched_active_thread (cfg : Config) (s : State) (t : Nat) :
    (_runqueue_pop cfg s t).sched_active_thread = s.sched_active_thread := by
  unfold _runqueue_pop; dsimp only; split_ifs <;> simp [State.set_runqueue]

@[simp] theorem runqueue_pop_sched_context_switch_request (cfg : Config) (s : State) (t : Nat) :
    (_runqueue_pop cfg s t).sched_context_switch_request = s.sched_context_switch_request := by
  unfold _runqueue_pop; dsimp only; split_ifs <;> simp [State.set_runqueue]

@[simp] theorem runqueue_pop_yield_count (cfg : Config) (s : State) (t : Nat) :
    (_runqueue_pop cfg s t).yield_count = s.yield_count := by
  unfold _runqueue_pop; dsimp only; split_ifs <;> simp [State.set_runqueue]

@[simp] theorem sched_set_status_mem (cfg : Config) (s : State) (t st : Nat) :
    (sched_set_status cfg s t st).mem = s.mem := by
  unfold sched_set_status; dsimp only; split_ifs <;> simp [State.set_thread]

@[simp] theorem sched_set_status_sched_active_pid (cfg : Config) (s : State) (t st : Nat) :
    (sched_set_status cfg s t st).sched_active_pid = s.sched_active_pid := by
  unfold sched_set_status; dsimp only; split_ifs <;> simp [State.set_thread]

@[simp] theorem sched_set_status_sched_threads (cfg : Config) (s : State) (t st : Nat) :
    (sched_set_status cfg s t st).sched_threads = s.sched_threads := by
  unfold sched_set_status; dsimp only; split_ifs <;> simp [State.set_thread]

@[simp] theorem sched_set_status_sched_num_threads (cfg : Config) (s : State) (t st : Nat) :
    (sched_set_status cfg s t st).sched_num_threads = s.sched_num_threads := by
  unfold sched_set_status; dsimp only; split_ifs <;> simp [State.set_thread]

@[simp] theorem sched_set_status_sched_active_thread (cfg : Config) (s : State) (t st : Nat) :
    (sched_set_status cfg s t st).sched_active_thread = s.sched_active_thread := by
  unfold sched_set_status; dsimp only; split_ifs <;> simp [State.set_thread]

@[simp] theorem sched_set_status_sched_context_switch_request (cfg : Config) (s : State) (t st : Nat) :
    (sched_set_status cfg s t st).sched_context_switch_request = s.sched_context_switch_request := by
  unfold sched_set_status; dsimp only; split_ifs <;> simp [State.set_thread]

@[simp] theorem sched_set_status_yield_count (cfg : Config) (s : State) (t st : Nat) :
    (sched_set_status cfg s t st).yield_count = s.yield_count := by
  unfold sched_set_status; dsimp only; split_ifs <;> simp [State.set_thread]

/-! ## What the run queue operations change -/

theorem runqueue_push_runqueues (cfg : Config) (s : State) (t p : Nat) :
    (_runqueue_push cfg s t p).sched_runqueues
      = fun q => if q = p then s.sched_runqueues p ++ [t] else s.sched_runqueues q := by
  unfold _runqueue_push; dsimp only
  split <;> [split_ifs; skip] <;> simp [State.set_runqueue, clist_rpush]

theorem runqueue_push_bitcache (cfg : Config) (s : State) (t p : Nat) :
    (_runqueue_push cfg s t p).runqueue_bitcache = _set_runqueue_bit cfg s.runqueue_bitcache p := by
  unfold _runqueue_push; dsimp only
  split <;> [split_ifs; skip] <;> simp [State.set_runqueue]

theorem runqueue_pop_runqueues (cfg : Config) (s : State) (t : Nat) :
    (_runqueue_pop cfg s t).sched_runqueues
      = fun q => if q = (s.threads t).priority then (s.sched_runqueues q).tail
                 else s.sched_runqueues q := by
  unfold _runqueue_pop; dsimp only
  split_ifs <;> simp [State.set_runqueue, clist_lpop] <;> funext q <;> split_ifs with h <;>
    simp [h]

theorem runqueue_pop_bitcache (cfg : Config) (s : State) (t : Nat) :
    (_runqueue_pop cfg s t).runqueue_bitcache
      = if (s.sched_runqueues (s.threads t).priority).tail = [] then
          _clear_runqueue_bit cfg s.runqueue_bitcache (s.threads t).priority
        else s.runqueue_bitcache := by
  unfold _runqueue_pop; dsimp only
  split_ifs <;> simp_all [State.set_runqueue, clist_lpop]

theorem sched_set_status_threads (cfg : Config) (s : State) (t st : Nat) :
    (sched_set_status cfg s t st).threads
      = fun i => if i = t then { s.threads i with status := st } else s.threads i := by
  unfold sched_set_status; dsimp only
  split_ifs <;> simp [State.set_thread]

theorem sched_set_status_runqueues (cfg : Config) (s : State) (t st : Nat) :
    (sched_set_status cfg s t st).sched_runqueues
      = if STATUS_ON_RUNQUEUE ≤ st then
          if STATUS_ON_RUNQUEUE ≤ (s.threads t).status then s.sched_runqueues
          else (_runqueue_push cfg s t (s.threads t).priority).sched_runqueues
        else
          if STATUS_ON_RUNQUEUE ≤ (s.threads t).status then (_runqueue_pop cfg s t).sched_runqueues
          else s.sched_runqueues := by
  unfold sched_set_status; dsimp only
  split_ifs <;> simp [State.set_thread]

theorem sched_set_status_bitcache (cfg : Config) (s : State) (t st : Nat) :
    (sched_set_status cfg s t st).runqueue_bitcache
      = if STATUS_ON_RUNQUEUE ≤ st then
          if STATUS_ON_RUNQUEUE ≤ (s.threads t).status then s.runqueue_bitcache
          else (_runqueue_push cfg s t (s.threads t).priority).runqueue_bitcache
        else
          if STATUS_ON_RUNQUEUE ≤ (s.threads t).status then (_runqueue_pop cfg s t).runqueue_bitcache
          else s.runqueue_bitcache := by
  unfold sched_set_status; dsimp only
  split_ifs <;> simp [State.set_thread]

/-! ## `sched_change_priority` -/

theorem requeue_threads (cfg : Config) (s : State) (t p : Nat) :
    (sched_change_priority_requeue cfg s t p).threads
      = fun i => if i = t then { s.threads i with priority := p } else s.threads i := by
  unfold sched_change_priority_requeue; dsimp only
  split_ifs <;> simp [State.set_thread]

@[simp] theorem requeue_active_thread (cfg : Config) (s : State) (t p : Nat) :
    (sched_change_priority_requeue cfg s t p).sched_active_thread = s.sched_active_thread := by
  unfold sched_change_priority_requeue; dsimp only
  split_ifs <;> simp [State.set_thread]

@[simp] theorem requeue_yield_count (cfg : Config) (s : State) (t p : Nat) :
    (sched_change_priority_requeue cfg s t p).yield_count = s.yield_count := by
  unfold sched_change_priority_requeue; dsimp only
  split_ifs <;> simp [State.set_thread]

theorem requeue_runqueues (cfg : Config) (s : State) (t p : Nat) :
    (sched_change_priority_requeue cfg s t p).sched_runqueues
      = if STATUS_ON_RUNQUEUE ≤ (s.threads t).status then
          (_runqueue_push cfg (_runqueue_pop cfg s t) t p).sched_runqueues
        else s.sched_runqueues := by
  unfold sched_change_priority_requeue thread_is_active; dsimp only
  split_ifs <;> simp [State.set_thread]

theorem requeue_bitcache (cfg : Config) (s : State) (t p : Nat) :
    (sched_change_priority_requeue cfg s t p).runqueue_bitcache
      = if STATUS_ON_RUNQUEUE ≤ (s.threads t).status then
          (_runqueue_push cfg (_runqueue_pop cfg s t) t p).runqueue_bitcache
        else s.runqueue_bitcache := by
  unfold sched_change_priority_requeue thread_is_active; dsimp only
  split_ifs <;> simp [State.set_thread]

/-- With a valid level that differs from the thread's priority `sched_change_priority`
runs to its end: the critical section, then the yield if its condition holds. -/
theorem sched_change_priority_eq (cfg : Config) (s : State) (t p : Nat)
    (hp : p < SCHED_PRIO_LEVELS) (h : (s.threads t).priority ≠ p) :
    sched_change_priority cfg s (some t) p
      = .ok (if s.sched_active_thread = some t ∨
                ∃ a, s.sched_active_thread = some a ∧ (s.threads a).priority > p ∧
                  STATUS_ON_RUNQUEUE ≤ (s.threads t).status
             then thread_yield_higher (sched_change_priority_requeue cfg s t p)
             else sched_change_priority_requeue cfg s t p) := by
  unfold sched_change_priority
  simp only [hp, not_true_eq_false, if_false, h, requeue_active_thread]
  cases ha : s.sched_active_thread with
  | none => simp
  | some a =>
    simp only [requeue_threads, thread_is_active]
    by_cases hat : a = t
    · subst hat; simp
    · have hta : ¬ t = a := fun e => hat e.symm
      simp only [hat, hta, if_false, false_or, Option.some.injEq, exists_eq_left', gt_iff_lt]
      split_ifs <;> rfl

/-- When the thread is the head of the run queue of its priority, the pop of
`sched_change_priority` removes the thread itself: afterwards it is the tail of the run
queue of the new priority, its old queue has lost exactly its head, the other queues are
unchanged and the priority field holds the new priority. -/
theorem sched_change_priority_of_head (cfg : Config) (s : State) (t p : Nat) (rest : List Nat)
    (hp : p < SCHED_PRIO_LEVELS) (hne : (s.threads t).priority ≠ p)
    (hon : STATUS_ON_RUNQUEUE ≤ (s.threads t).status)
    (hhead : s.sched_runqueues (s.threads t).priority = t :: rest) :
    ∃ s1, sched_change_priority cfg s (some t) p = .ok s1 ∧
      s1.sched_runqueues p = s.sched_runqueues p ++ [t] ∧
      s1.sched_runqueues (s.threads t).priority = rest ∧
      (s1.threads t).priority = p ∧
      ∀ q, q ≠ p → q ≠ (s.threads t).priority → s1.sched_runqueues q = s.sched_runqueues q := by
  have hpn : ¬ p = (s.threads t).priority := fun e => hne e.symm
  have hrq : (sched_change_priority_requeue cfg s t p).sched_runqueues
      = fun q => if q = p then s.sched_runqueues p ++ [t]
                 else if q = (s.threads t).priority then rest else s.sched_runqueues q := by
    rw [requeue_runqueues, if_pos hon, runqueue_push_runqueues, runqueue_pop_runqueues]
    funext q
    by_cases hq : q = p
    · subst hq; simp [hpn]
    · by_cases hq2 : q = (s.threads t).priority
      · subst hq2; simp [hq, hhead]
      · simp [hq, hq2]
  have hth : ((sched_change_priority_requeue cfg s t p).threads t).priority = p := by
    rw [requeue_threads]; simp
  refine ⟨_, sched_change_priority_eq cfg s t p hp hne, ?_, ?_, ?_, ?_⟩
  · split_ifs <;> simp [thread_yield_higher, hrq]
  · split_ifs <;> simp [thread_yield_higher, hrq, hne]
  · split_ifs <;> simp [thread_yield_higher, hth]
  · intro q hq hq2
    split_ifs <;> simp [thread_yield_higher, hrq, hq, hq2]

/-- C8. `sched_change_priority(t, p)` for a non-null thread and a valid level: with the
priority unchanged the state is returned as it is (no yield); otherwise the call runs to
its end and `thread_yield_higher` is called exactly when `t` is the active thread, or an
active thread exists whose priority is numerically greater than `p` while `t` has an
on-runqueue status. -/
theorem C8_sched_change_priority_yield (cfg : Config) (s : State) (t p : Nat)
    (hp : p < SCHED_PRIO_LEVELS) :
    (p = (s.threads t).priority → sched_change_priority cfg s (some t) p = .ok s) ∧
    (p ≠ (s.threads t).priority →
      ∃ s1, sched_change_priority cfg s (some t) p = .ok s1 ∧
        ((s.sched_active_thread = some t ∨
            ∃ a, s.sched_active_thread = some a ∧ (s.threads a).priority > p ∧
              STATUS_ON_RUNQUEUE ≤ (s.threads t).status) →
          s1.yield_count = s.yield_count + 1) ∧
        (¬ (s.sched_active_thread = some t ∨
            ∃ a, s.sched_active_thread = some a ∧ (s.threads a).priority > p ∧
              STATUS_ON_RUNQUEUE ≤ (s.threads t).status) →
          s1.yield_count = s.yield_count)) := by
  constructor
  · intro h
    unfold sched_change_priority
    simp only [hp, not_true_eq_false, if_false, h.symm, if_true]
  · intro h
    refine ⟨_, sched_change_priority_eq cfg s t p hp (fun e => h e.symm), ?_, ?_⟩
    · intro hc
      rw [if_pos hc]
      simp [thread_yield_higher]
    · intro hc
      rw [if_neg hc]
      simp

/-- C9. `sched_switch(other_prio)` with a non-null active thread runs to its end.  A
switch is requested exactly when the active thread's status is below
`STATUS_ON_RUNQUEUE` or its priority is numerically greater than `other_prio`: in
interrupt context the request flag becomes 1 and nothing yields, otherwise
`thread_yield_higher` is called once and the flag keeps its value.  Without a request the
state is unchanged.  Run queues, bit cache and descriptors are never written. -/
theorem C9_sched_switch (s : State) (a : Nat) (irq_is_in : Bool) (other_prio : Nat)
    (ha : s.sched_active_thread = some a) :
    ∃ s1, sched_switch s irq_is_in other_prio = .ok s1 ∧
      (((s.threads a).status < STATUS_ON_RUNQUEUE ∨ (s.threads a).priority > other_prio) →
        irq_is_in = true →
          s1.sched_context_switch_request = 1 ∧ s1.yield_count = s.yield_count) ∧
      (((s.threads a).status < STATUS_ON_RUNQUEUE ∨ (s.threads a).priority > other_prio) →
        irq_is_in = false →
          s1.yield_count = s.yield_count + 1 ∧
          s1.sched_context_switch_request = s.sched_context_switch_request) ∧
      (¬ ((s.threads a).status < STATUS_ON_RUNQUEUE ∨ (s.threads a).priority > other_prio) →
        s1 = s) ∧
      s1.sched_runqueues = s.sched_runqueues ∧
      s1.runqueue_bitcache = s.runqueue_bitcache ∧
      s1.threads = s.threads := by
  unfold sched_switch
  simp only [ha, not_le]
  by_cases hreq : (s.threads a).status < STATUS_ON_RUNQUEUE ∨ (s.threads a).priority > other_prio
  · cases irq_is_in
    · simp [hreq, thread_yield_higher]
    · simp [hreq]
  · simp [hreq]

/-! ## `sched_run` -/

/-- With an intact canary, or without the stack test, `_unschedule` runs to its end and
writes at most the status of the thread it is given. -/
theorem unschedule_ok (cfg : Config) (s : State) (a : Nat)
    (hcanary : cfg.SCHED_TEST_STACK = true →
      s.mem (s.threads a).stack_start = (s.threads a).stack_start) :
    _unschedule cfg s a
      = .ok (if (s.threads a).status = STATUS_RUNNING then
               s.set_thread a (fun t => { t with status := STATUS_PENDING })
             else s) := by
  unfold _unschedule
  dsimp only
  split_ifs with h1 h2 h3
  · exfalso
    apply h2.2
    simpa [State.set_thread] using hcanary h2.1
  · rfl
  · exact absurd (hcanary h3.1) h3.2
  · rfl

/-- C2 (amended). In a well-formed state (32-bit cache, bit `q` set iff run queue `q`
non-empty for every level, every queued thread carries the priority of its queue, some
queue non-empty) in which, when the stack test is compiled in, the canary of an outgoing
active thread is intact, `sched_run` returns the head of the run queue of the smallest
occupied priority; on return that thread is RUNNING, still carries that priority, and
`sched_context_switch_request` is 0. -/
theorem C2_sched_run_head (cfg : Config) (s : State) (p h : Nat) (rest : List Nat)
    (hc : s.runqueue_bitcache < 2 ^ 32)
    (hbits : ∀ q, q < SCHED_PRIO_LEVELS →
      (runqueue_bit cfg s.runqueue_bitcache q = true ↔ s.sched_runqueues q ≠ []))
    (hprio : ∀ q, q < SCHED_PRIO_LEVELS → ∀ t ∈ s.sched_runqueues q, (s.threads t).priority = q)
    (hp : p < SCHED_PRIO_LEVELS) (hhead : s.sched_runqueues p = h :: rest)
    (hmin : ∀ q, q < p → s.sched_runqueues q = [])
    (hcanary : cfg.SCHED_TEST_STACK = true → ∀ a, s.sched_active_thread = some a → a ≠ h →
      s.mem (s.threads a).stack_start = (s.threads a).stack_start) :
    ∃ s1, sched_run cfg s = .ok (h, s1) ∧
      (s1.threads h).status = STATUS_RUNNING ∧
      s1.sched_context_switch_request = 0 ∧
      (s1.threads h).priority = p := by
  have hp32 : p < 32 := lt_of_lt_of_le hp (by decide)
  have hset : runqueue_bit cfg s.runqueue_bitcache p = true :=
    (hbits p hp).mpr (by rw [hhead]; simp)
  have hclear : ∀ q, q < p → runqueue_bit cfg s.runqueue_bitcache q = false := by
    intro q hq
    have := (hbits q (lt_trans hq hp)).not.mpr (by simp [hmin q hq])
    simpa using this
  have hnext := get_prio_queue_eq cfg _ p hc hp32 hset hclear
  have hne : s.runqueue_bitcache ≠ 0 := by
    intro e
    rw [e] at hset
    unfold runqueue_bit at hset
    split at hset <;> simp at hset
  have hph : (s.threads h).priority = p := hprio p hp h (by rw [hhead]; simp)
  unfold sched_run
  simp only [hne, and_false, if_false, hnext, hhead, List.head?_cons]
  by_cases hprev : s.sched_active_thread = some h
  · simp [hprev, State.set_thread, hph]
  · simp only [hprev, if_false]
    cases ha : s.sched_active_thread with
    | none => simp [State.set_thread, hph]
    | some a =>
      have hah : a ≠ h := by
        intro e
        apply hprev
        rw [ha, e]
      have hha : ¬ h = a := fun e => hah e.symm
      dsimp only
      rw [unschedule_ok]
      · refine ⟨_, rfl, ?_, ?_, ?_⟩
        · split_ifs <;> simp [State.set_thread, hha]
        · split_ifs <;> simp [State.set_thread]
        · split_ifs <;> simp [State.set_thread, hha, hph]
      · intro ht
        have := hcanary ht a ha hah
        simpa [State.set_thread, hah] using this

/-! ## The bit cache invariant -/

theorem bits_match_of_eq (cfg : Config) (s s1 : State)
    (hrq : s1.sched_runqueues = s.sched_runqueues)
    (hc : s1.runqueue_bitcache = s.runqueue_bitcache) (h : bits_match cfg s) :
    bits_match cfg s1 := by
  intro p hp
  rw [hrq, hc]
  exact h p hp

theorem bits_match_set_thread (cfg : Config) (s : State) (t : Nat) (f : thread_t → thread_t)
    (h : bits_match cfg s) : bits_match cfg (s.set_thread t f) :=
  bits_match_of_eq cfg s _ rfl rfl h

theorem bits_match_yield (cfg : Config) (s : State) (h : bits_match cfg s) :
    bits_match cfg (thread_yield_higher s) :=
  bits_match_of_eq cfg s _ rfl rfl h

theorem bits_match_debit (cfg : Config) (s : State) (t : Nat) (h : bits_match cfg s) :
    bits_match cfg (debit_quantum s t) :=
  bits_match_of_eq cfg s _ rfl rfl h

theorem bits_match_callback (cfg : Config) (s : State) (p : Nat) (h : bits_match cfg s) :
    bits_match cfg (sched_runq_callback s p) :=
  bits_match_of_eq cfg s _ (by simp) (by simp) h

theorem bits_match_push (cfg : Config) (s : State) (t p : Nat) (h : bits_match cfg s) :
    bits_match cfg (_runqueue_push cfg s t p) := by
  intro q hq
  rw [runqueue_push_runqueues, runqueue_push_bitcache, runqueue_bit_set cfg _ _ _ hq]
  by_cases hqp : q = p
  · subst hqp; simp
  · simpa [hqp] using h q hq

theorem bits_match_pop (cfg : Config) (s : State) (t : Nat) (h : bits_match cfg s) :
    bits_match cfg (_runqueue_pop cfg s t) := by
  intro q hq
  rw [runqueue_pop_runqueues, runqueue_pop_bitcache]
  dsimp only
  by_cases hqp : q = (s.threads t).priority
  · subst hqp
    by_cases he : (s.sched_runqueues (s.threads t).priority).tail = []
    · simp [he, runqueue_bit_clear cfg _ _ _ hq]
    · have hne : s.sched_runqueues (s.threads t).priority ≠ [] := by
        intro e
        rw [e] at he
        exact he rfl
      simpa [he] using (h _ hq).mpr hne
  · rw [if_neg hqp]
    split_ifs with he
    · rw [runqueue_bit_clear cfg _ _ _ hq]
      simpa [hqp] using h q hq
    · exact h q hq

theorem clist_lpoprpush_eq_nil (l : List Nat) : clist_lpoprpush l = [] ↔ l = [] := by
  cases l <;> simp [clist_lpoprpush]

theorem bits_match_advance (cfg : Config) (s : State) (p : Nat) (h : bits_match cfg s) :
    bits_match cfg (sched_runq_advance s p) := by
  intro q hq
  unfold sched_runq_advance State.set_runqueue
  dsimp only
  by_cases hqp : q = p
  · subst hqp
    simpa [clist_lpoprpush_eq_nil] using h q hq
  · simpa [hqp] using h q hq

theorem bits_match_set_status (cfg : Config) (s : State) (t st : Nat) (h : bits_match cfg s) :
    bits_match cfg (sched_set_status cfg s t st) := by
  unfold sched_set_status
  dsimp only
  apply bits_match_set_thread
  split_ifs
  · exact h
  · exact bits_match_push cfg s _ _ h
  · exact bits_match_pop cfg s _ h
  · exact h

theorem bits_match_requeue (cfg : Config) (s : State) (t p : Nat) (h : bits_match cfg s) :
    bits_match cfg (sched_change_priority_requeue cfg s t p) := by
  unfold sched_change_priority_requeue
  dsimp only
  apply bits_match_set_thread
  split_ifs
  · exact bits_match_push cfg _ _ _ (bits_match_pop cfg s _ h)
  · exact h

theorem bits_match_change_priority (cfg : Config) (s s1 : State) (t : Option Nat) (p : Nat)
    (hs : sched_change_priority cfg s t p = .ok s1) (h : bits_match cfg s) :
    bits_match cfg s1 := by
  cases t with
  | none => simp [sched_change_priority] at hs
  | some t =>
    by_cases hp : p < SCHED_PRIO_LEVELS
    · by_cases hpr : (s.threads t).priority = p
      · have : s1 = s := by
          simp only [sched_change_priority, hp, not_true_eq_false, if_false, hpr, if_true] at hs
          cases hs
          rfl
        rw [this]
        exact h
      · rw [sched_change_priority_eq cfg s t p hp hpr] at hs
        have hr := bits_match_requeue cfg s t p h
        split_ifs at hs <;> cases hs
        · exact bits_match_yield cfg _ hr
        · exact hr
    · simp [sched_change_priority, hp] at hs

theorem bits_match_task_exit (cfg : Config) (s s1 : State)
    (hs : sched_task_exit cfg s = .ok s1) (h : bits_match cfg s) : bits_match cfg s1 := by
  unfold sched_task_exit at hs
  dsimp only at hs
  split at hs
  · simp at hs
  · cases hs
    refine bits_match_of_eq cfg _ _ rfl rfl (bits_match_set_status cfg _ _ _ ?_)
    exact bits_match_of_eq cfg s _ rfl rfl h

theorem unschedule_frame (cfg : Config) (s s1 : State) (a : Nat)
    (hs : _unschedule cfg s a = .ok s1) :
    s1.sched_runqueues = s.sched_runqueues ∧ s1.runqueue_bitcache = s.runqueue_bitcache := by
  unfold _unschedule at hs
  dsimp only at hs
  split_ifs at hs <;> cases hs <;> exact ⟨rfl, rfl⟩

theorem sched_run_frame (cfg : Config) (s s1 : State) (n : Nat)
    (hs : sched_run cfg s = .ok (n, s1)) :
    s1.sched_runqueues = s.sched_runqueues ∧ s1.runqueue_bitcache = s.runqueue_bitcache := by
  unfold sched_run at hs
  dsimp only at hs
  by_cases h1 : cfg.MODULE_CORE_IDLE_THREAD = false ∧ s.runqueue_bitcache = 0
  · rw [if_pos h1] at hs
    split at hs
    · split at hs <;> simp at hs
    · simp at hs
  · rw [if_neg h1] at hs
    split at hs
    · simp at hs
    · rename_i nt hh
      by_cases h2 : s.sched_active_thread = some nt
      · rw [if_pos h2] at hs
        cases hs
        simp [State.set_thread]
      · rw [if_neg h2] at hs
        split at hs
        · simp at hs
        · rename_i s4 heq
          cases hs
          split at heq
          · have := unschedule_frame cfg _ _ _ heq
            simpa [State.set_thread] using this
          · cases heq
            simp [State.set_thread]

theorem bits_match_run (cfg : Config) (s s1 : State) (n : Nat)
    (hs : sched_run cfg s = .ok (n, s1)) (h : bits_match cfg s) : bits_match cfg s1 :=
  bits_match_of_eq cfg s s1 (sched_run_frame cfg s s1 n hs).1 (sched_run_frame cfg s s1 n hs).2 h

theorem bits_match_quantum (cfg : Config) (s s1 : State)
    (hs : _sched_feedback_cb cfg s = .ok s1) (h : bits_match cfg s) : bits_match cfg s1 := by
  unfold _sched_feedback_cb at hs
  dsimp only at hs
  split at hs
  · simp at hs
  · rename_i a ha
    have h1 : bits_match cfg
        (if s._current_fb_priority ≠ 0xff then { s with _current_fb_priority := 0xff } else s) := by
      split_ifs
      · exact h
      · exact bits_match_of_eq cfg s _ rfl rfl h
    generalize (if s._current_fb_priority ≠ 0xff then
      ({ s with _current_fb_priority := 0xff } : State) else s) = sa at hs h1
    have h2 : bits_match cfg
        (if (sa.threads a).service_time = 0 then
          thread_yield_higher
            (sched_runq_advance (sa.set_thread a (fun t => { t with status := 0 }))
              (sa.threads a).priority)
        else sa) := by
      split_ifs
      · exact bits_match_yield cfg _ (bits_match_advance cfg _ _ (bits_match_set_thread cfg _ _ _ h1))
      · exact h1
    generalize (if (sa.threads a).service_time = 0 then
          thread_yield_higher
            (sched_runq_advance (sa.set_thread a (fun t => { t with status := 0 }))
              (sa.threads a).priority)
        else sa) = sb at hs h2
    split_ifs at hs with c1 c2 c3
    · split at hs
      · simp at hs
      · rename_i s3 heq
        cases hs
        exact bits_match_callback cfg _ _
          (bits_match_debit cfg _ _ (bits_match_change_priority cfg _ _ _ _ heq h2))
    · cases hs
      exact bits_match_callback cfg _ _ (bits_match_debit cfg _ _
        (bits_match_yield cfg _ (bits_match_advance cfg _ _ h2)))
    · cases hs
      exact bits_match_callback cfg _ _ (bits_match_debit cfg _ _ h2)
    · cases hs
      exact bits_match_callback cfg _ _ h2

theorem bits_match_step (cfg : Config) (s s1 : State) (hs : Step cfg s s1)
    (h : bits_match cfg s) : bits_match cfg s1 := by
  cases hs with
  | set_status t status => exact bits_match_set_status cfg s t status h
  | change_priority _ t p hs => exact bits_match_change_priority cfg s s1 t p hs h
  | task_exit _ hs => exact bits_match_task_exit cfg s s1 hs h
  | run _ n hs => exact bits_match_run cfg s s1 n hs h
  | quantum _ hs => exact bits_match_quantum cfg s s1 hs h

theorem bits_match_initial (cfg : Config) (s : State) (h : initial s) : bits_match cfg s := by
  intro p _
  rw [h.2.1, h.1 p]
  unfold runqueue_bit
  split <;> simp

/-- C3. In every state reachable from the empty initial state by calls of
`sched_set_status`, `sched_change_priority`, `sched_task_exit`, `sched_run` and the quantum
callback, for every priority below `SCHED_PRIO_LEVELS` the bit that represents it in
`runqueue_bitcache` is set if and only if its run queue is non-empty. -/
theorem C3_bitcache_matches_runqueues (cfg : Config) (s : State) (hs : Reachable cfg s)
    (p : Nat) (hp : p < SCHED_PRIO_LEVELS) :
    runqueue_bit cfg s.runqueue_bitcache p = true ↔ s.sched_runqueues p ≠ [] := by
  have hall : bits_match cfg s := by
    induction hs with
    | init s h => exact bits_match_initial cfg s h
    | step s s1 _ hstep ih => exact bits_match_step cfg s s1 hstep ih
  exact hall p (lt_of_lt_of_le hp (by decide))

/-! ## Scenarios -/

theorem boot_initial (prio service : Nat → Nat) (h : ∀ i, prio i < SCHED_PRIO_LEVELS) :
    initial (boot (created prio service)) :=
  ⟨fun _ => rfl, rfl, rfl, rfl, rfl, fun _ => by simp [boot, created], fun t => h t⟩

theorem two_pending_reachable (cfg : Config) (prio : Nat) (h : prio < SCHED_PRIO_LEVELS) :
    Reachable cfg (two_pending cfg prio) :=
  Reachable.step _ _
    (Reachable.step _ _ (Reachable.init _ (boot_initial _ _ (fun _ => h)))
      (Step.set_status _ 0 STATUS_PENDING))
    (Step.set_status _ 1 STATUS_PENDING)

theorem one_pending_reachable (cfg : Config) : Reachable cfg (one_pending cfg) :=
  Reachable.step _ _ (Reachable.init _ (boot_initial _ _ (fun _ => by decide)))
    (Step.set_status _ 0 STATUS_PENDING)

/-- C2, witness: scenario S1.  With A (priority 1), B (priority 2) and C (priority 3) all
PENDING, `sched_run` returns A, RUNNING, with the request flag cleared. -/
theorem C2_sched_run_head_witness :
    ∃ s1, sched_run cfg_lsb (three_pending cfg_lsb) = .ok (0, s1) ∧
      (s1.threads 0).status = STATUS_RUNNING ∧
      s1.sched_context_switch_request = 0 ∧
      (s1.threads 0).priority = 1 :=
  C2_sched_run_head cfg_lsb (three_pending cfg_lsb) 1 0 [] (by decide) (by decide) (by decide)
    (by decide) (by decide) (by decide) (fun _ a ha => nomatch ha)

/-- C2, counterexample to the claim as stated: a state that is well-formed in the sense of
the claim (bits match the run queues, queued threads carry the priority of their queue,
run queue 1 is the smallest occupied one and holds B) in which `sched_run` does not
return: the outgoing thread A has overflowed its stack and `_unschedule` panics. -/
theorem C2_counterexample_stack_overflow :
    (∀ q, q < SCHED_PRIO_LEVELS →
      (runqueue_bit cfg_lsb (overflowed_then_woken cfg_lsb).runqueue_bitcache q = true ↔
        (overflowed_then_woken cfg_lsb).sched_runqueues q ≠ [])) ∧
    (∀ q, q < SCHED_PRIO_LEVELS → ∀ t ∈ (overflowed_then_woken cfg_lsb).sched_runqueues q,
      ((overflowed_then_woken cfg_lsb).threads t).priority = q) ∧
    (overflowed_then_woken cfg_lsb).sched_runqueues 1 = [1] ∧
    (overflowed_then_woken cfg_lsb).sched_runqueues 0 = [] ∧
    sched_run cfg_lsb (overflowed_then_woken cfg_lsb) = .error .core_panic_stack_overflow :=
  ⟨by decide, by decide, by decide, by decide, rfl⟩

/-- C3, witness: after the first `sched_set_status(A, PENDING)` bit 1 is set and run
queue 1 is non-empty. -/
theorem C3_bitcache_matches_runqueues_witness :
    runqueue_bit cfg_clz (one_pending cfg_clz).runqueue_bitcache 1 = true ↔
      (one_pending cfg_clz).sched_runqueues 1 ≠ [] :=
  C3_bitcache_matches_runqueues cfg_clz (one_pending cfg_clz) (one_pending_reachable cfg_clz) 1
    (by decide)

/-- C8, witness: scenario S2.  With A (priority 3) RUNNING and B (priority 3) PENDING,
`sched_change_priority(B, 1)` calls `thread_yield_higher`. -/
theorem C8_sched_change_priority_yield_witness :
    ∃ s1, sched_change_priority cfg_lsb (running_and_pending cfg_lsb) (some 1) 1 = .ok s1 ∧
      s1.yield_count = (running_and_pending cfg_lsb).yield_count + 1 :=
  have h := (C8_sched_change_priority_yield cfg_lsb (running_and_pending cfg_lsb) 1 1
    (by decide)).2 (by decide)
  h.elim fun s1 hs1 => ⟨s1, hs1.1, hs1.2.1 (Or.inr ⟨0, rfl, by decide, by decide⟩)⟩

/-- C9, witness: with A (priority 3) active, `sched_switch(1)` in interrupt context sets
the request flag. -/
theorem C9_sched_switch_witness :
    ∃ s1, sched_switch (running_and_pending cfg_lsb) true 1 = .ok s1 ∧
      s1.sched_context_switch_request = 1 :=
  (C9_sched_switch (running_and_pending cfg_lsb) 0 true 1 rfl).elim
    fun s1 hs1 => ⟨s1, hs1.1, (hs1.2.1 (Or.inr (by decide)) rfl).1⟩

/-- C1, failing input.  A and B of priority 1 are made PENDING (run queue 1 is `[A, B]`),
then `sched_change_priority(B, 2)` is called: `_runqueue_pop` removes the head A instead
of B, so B stays in run queue 1 with priority 2.  In this reachable state run queue 1 is
the smallest occupied one, and `sched_run` returns B, whose priority is 2. -/
theorem C1_failing_input_wrong_priority :
    ∃ s, Reachable cfg_lsb s ∧ s.sched_runqueues 0 = [] ∧ s.sched_runqueues 1 ≠ [] ∧
      ∃ s1, sched_run cfg_lsb s = .ok (1, s1) ∧ (s1.threads 1).priority = 2 :=
  ⟨_, Reachable.step _ _ (two_pending_reachable cfg_lsb 1 (by decide))
        (Step.change_priority _ _ (some 1) 2 rfl),
    by decide, by decide, _, rfl, by decide⟩

/-- C4, failing input: scenario S2 of the specification.  A and B of priority 3 are made
PENDING, `sched_run` selects A, then `sched_change_priority(B, 1)` is called: the head A is
popped instead of B, and B is afterwards a member of run queue 3 and of run queue 1. -/
theorem C4_failing_input_two_queues :
    ∃ s, Reachable cfg_lsb s ∧ 1 ∈ s.sched_runqueues 3 ∧ 1 ∈ s.sched_runqueues 1 :=
  ⟨_, Reachable.step _ _
        (Reachable.step _ _ (two_pending_reachable cfg_lsb 3 (by decide)) (Step.run _ _ 0 rfl))
        (Step.change_priority _ _ (some 1) 1 rfl),
    by decide, by decide⟩

/-- C5, failing input.  A (priority 1, budget one quantum) is made PENDING and selected;
the first quantum callback uses up the budget, the second one finds `service_time == 0`
and writes `status = 0` without taking A off its run queue: A is STOPPED and still a
member of run queue 1. -/
theorem C5_failing_input_stopped_but_queued :
    ∃ s, Reachable cfg_lsb s ∧ 0 ∈ s.sched_runqueues 1 ∧
      (s.threads 0).status = STATUS_STOPPED ∧ (s.threads 0).status < STATUS_ON_RUNQUEUE :=
  ⟨_, Reachable.step _ _
        (Reachable.step _ _
          (Reachable.step _ _ (one_pending_reachable cfg_lsb) (Step.run _ _ 0 rfl))
          (Step.quantum _ _ rfl))
        (Step.quantum _ _ rfl),
    by decide, by decide, by decide⟩

/-- C6, failing input.  B is PENDING in run queue 1 = `[A, B]`, behind A;
`sched_change_priority(B, 2)` makes B the tail of run queue 2 with priority 2, but B is
still a member of run queue 1: the thread that was removed is the head A. -/
theorem C6_failing_input_not_head :
    (two_pending cfg_lsb 1).sched_runqueues 1 = [0, 1] ∧
    STATUS_ON_RUNQUEUE ≤ ((two_pending cfg_lsb 1).threads 1).status ∧
    ((two_pending cfg_lsb 1).threads 1).priority = 1 ∧
    ∃ s1, sched_change_priority cfg_lsb (two_pending cfg_lsb 1) (some 1) 2 = .ok s1 ∧
      s1.sched_runqueues 2 = [1] ∧ (s1.threads 1).priority = 2 ∧
      1 ∈ s1.sched_runqueues 1 ∧ 0 ∉ s1.sched_runqueues 1 :=
  ⟨by decide, by decide, by decide, _, rfl, by decide, by decide, by decide, by decide⟩

/-! ## The single running thread -/

/-- When `_unschedule` runs to its end it has written at most the status of its thread. -/
theorem unschedule_result (cfg : Config) (s s1 : State) (a : Nat)
    (h : _unschedule cfg s a = .ok s1) :
    s1 = if (s.threads a).status = STATUS_RUNNING then
           s.set_thread a (fun t => { t with status := STATUS_PENDING })
         else s := by
  unfold _unschedule at h
  dsimp only at h
  split_ifs at h with h1 h2 h3
  · cases h
    rw [if_pos h1]
  · cases h
    rw [if_neg h1]

/-- C11. `sched_run` preserves the single-running-thread invariant.  In a state where
every RUNNING thread is the active thread and `sched_active_pid` is the pid of the active
thread when there is one (the active pointers are well-formed), if `sched_run` returns
thread `n` then afterwards `n` is the one and only RUNNING thread, `sched_active_thread`
refers to `n`, `sched_active_pid` is the pid of `n`, and a thread other than `n` that was
RUNNING before is PENDING. -/
theorem C11_sched_run_single_running (cfg : Config) (s s1 : State) (n : Nat)
    (hret : sched_run cfg s = .ok (n, s1))
    (hone : ∀ t, (s.threads t).status = STATUS_RUNNING → s.sched_active_thread = some t)
    (hpid : ∀ a, s.sched_active_thread = some a → s.sched_active_pid = (s.threads a).pid) :
    (∀ t, (s1.threads t).status = STATUS_RUNNING ↔ t = n) ∧
    s1.sched_active_thread = some n ∧
    s1.sched_active_pid = (s1.threads n).pid ∧
    (∀ r, r ≠ n → (s.threads r).status = STATUS_RUNNING →
      (s1.threads r).status = STATUS_PENDING) := by
  unfold sched_run at hret
  dsimp only at hret
  by_cases h1 : cfg.MODULE_CORE_IDLE_THREAD = false ∧ s.runqueue_bitcache = 0
  · rw [if_pos h1] at hret
    split at hret
    · split at hret <;> simp at hret
    · simp at hret
  · rw [if_neg h1] at hret
    split at hret
    · simp at hret
    · rename_i nt hh
      by_cases h2 : s.sched_active_thread = some nt
      · rw [if_pos h2] at hret
        simp only [Except.ok.injEq, Prod.mk.injEq] at hret
        obtain ⟨rfl, rfl⟩ := hret
        refine ⟨?_, ?_, ?_, ?_⟩
        · intro t
          by_cases ht : t = nt
          · subst ht; simp [State.set_thread]
          · simp only [State.set_thread, sched_runq_callback_threads, ht, if_false, iff_false]
            intro hr
            have := hone t hr
            rw [h2] at this
            exact ht (Option.some.inj this).symm
        · simpa [State.set_thread] using h2
        · simpa [State.set_thread] using hpid nt h2
        · intro r hr hrun
          have := hone r hrun
          rw [h2] at this
          exact absurd (Option.some.inj this).symm hr
      · rw [if_neg h2] at hret
        split at hret
        · simp at hret
        · rename_i s4 heq
          simp only [Except.ok.injEq, Prod.mk.injEq] at hret
          obtain ⟨rfl, rfl⟩ := hret
          cases ha : s.sched_active_thread with
          | none =>
            rw [ha] at heq
            simp only [Except.ok.injEq] at heq
            subst heq
            have hnone : ∀ t, (s.threads t).status ≠ STATUS_RUNNING := by
              intro t hr
              have := hone t hr
              rw [ha] at this
              cases this
            refine ⟨?_, rfl, ?_, ?_⟩
            · intro t
              by_cases ht : t = nt
              · subst ht; simp [State.set_thread]
              · simpa [State.set_thread, ht] using hnone t
            · simp [State.set_thread]
            · intro r _ hrun
              exact absurd hrun (hnone r)
          | some a =>
            rw [ha] at heq
            dsimp only at heq
            have hant : a ≠ nt := by
              intro e
              apply h2
              rw [ha, e]
            have hnta : ¬ nt = a := fun e => hant e.symm
            have hres := unschedule_result cfg _ _ _ heq
            simp only [State.set_thread, sched_runq_callback_threads, hant, if_false] at hres
            have hact : ∀ t, (s.threads t).status = STATUS_RUNNING → t = a := by
              intro t hr
              have := hone t hr
              rw [ha] at this
              exact (Option.some.inj this).symm
            by_cases hrun : (s.threads a).status = STATUS_RUNNING
            · rw [if_pos hrun] at hres
              subst hres
              refine ⟨?_, rfl, rfl, ?_⟩
              · intro t
                by_cases hta : t = a
                · subst hta
                  simp [hant]
                · by_cases ht : t = nt
                  · subst ht
                    simp [hta]
                  · simp only [hta, ht, if_false, sched_runq_callback_threads, iff_false]
                    exact fun hr => hta (hact t hr)
              · intro r hr hrun2
                have hra := hact r hrun2
                subst hra
                simp
            · rw [if_neg hrun] at hres
              subst hres
              refine ⟨?_, rfl, rfl, ?_⟩
              · intro t
                by_cases ht : t = nt
                · subst ht
                  simp
                · simp only [ht, if_false, sched_runq_callback_threads, iff_false]
                  intro hr
                  have hta := hact t hr
                  subst hta
                  exact hrun hr
              · intro r _ hrun2
                have hra := hact r hrun2
                subst hra
                exact absurd hrun2 hrun

/-! ## The two encodings of the bit cache -/

theorem runqueue_bit_zero (cfg : Config) (q : Nat) : runqueue_bit cfg 0 q = false := by
  unfold runqueue_bit
  split <;> simp

/-- After setting the bits of a list of priorities, the bits set are those of the list and
those set before. -/
theorem runqueue_bit_foldl (cfg : Config) (S : List Nat) : ∀ (c q : Nat), q < 32 →
    runqueue_bit cfg (S.foldl (_set_runqueue_bit cfg) c) q
      = (decide (q ∈ S) || runqueue_bit cfg c q) := by
  induction S with
  | nil => intro c q _; simp
  | cons x xs ih =>
    intro c q hq
    rw [List.foldl_cons, ih _ q hq, runqueue_bit_set cfg c q x hq]
    by_cases hx : q = x
    · simp [hx]
    · by_cases hm : q ∈ xs <;> simp [hx, hm]

theorem foldl_set_runqueue_bit_lt (cfg : Config) (S : List Nat) : ∀ (c : Nat), c < 2 ^ 32 →
    S.foldl (_set_runqueue_bit cfg) c < 2 ^ 32 := by
  induction S with
  | nil => intro c hc; simpa using hc
  | cons x xs ih =>
    intro c _
    rw [List.foldl_cons]
    exact ih _ (set_runqueue_bit_lt cfg c x)

/-- C12. The two encodings of the bit cache are equivalent.  For a non-empty collection
`S` of priorities below 32 with least element `m`, in either encoding (any configuration)
the cache built from 0 by `_set_runqueue_bit` over `S` makes
`_get_prio_queue_from_runqueue` return `m`.  On a 32-bit cache `_set_runqueue_bit(p)` sets
and `_clear_runqueue_bit(p)` clears the bit that represents `p`, and both leave the bit
that represents any other priority as it was and the cache within 32 bits. -/
theorem C12_bitcache_encodings (S : List Nat) (m : Nat) (hS : ∀ x ∈ S, x < 32) (hm : m ∈ S)
    (hmin : ∀ x ∈ S, m ≤ x) :
    (∀ cfg : Config,
      _get_prio_queue_from_runqueue cfg (S.foldl (_set_runqueue_bit cfg) 0) = m) ∧
    (∀ (cfg : Config) (c p q : Nat), c < 2 ^ 32 → p < 32 → q < 32 →
      runqueue_bit cfg (_set_runqueue_bit cfg c p) q
        = (if q = p then true else runqueue_bit cfg c q) ∧
      runqueue_bit cfg (_clear_runqueue_bit cfg c p) q
        = (if q = p then false else runqueue_bit cfg c q) ∧
      _set_runqueue_bit cfg c p < 2 ^ 32 ∧ _clear_runqueue_bit cfg c p < 2 ^ 32) := by
  constructor
  · intro cfg
    apply get_prio_queue_eq cfg _ m (foldl_set_runqueue_bit_lt cfg S 0 (by norm_num)) (hS m hm)
    · rw [runqueue_bit_foldl cfg S 0 m (hS m hm)]
      simp [hm]
    · intro q hq
      rw [runqueue_bit_foldl cfg S 0 q (lt_trans hq (hS m hm)), runqueue_bit_zero]
      have : q ∉ S := fun h => absurd (hmin q h) (by omega)
      simp [this]
  · intro cfg c p q _ _ hq
    refine ⟨?_, ?_, set_runqueue_bit_lt cfg c p, clear_runqueue_bit_lt cfg c p⟩
    · rw [runqueue_bit_set cfg c q p hq]
      by_cases h : q = p <;> simp [h]
    · rw [runqueue_bit_clear cfg c q p hq]
      by_cases h : q = p <;> simp [h]

/-! ## The run queue change notifier -/

theorem sched_runq_callback_log (s : State) (p : Nat) :
    (sched_runq_callback s p).runq_cb_log = p :: s.runq_cb_log := by
  unfold sched_runq_callback _sched_feedback_set; dsimp only; split_ifs <;> rfl

theorem runqueue_push_log (cfg : Config) (s : State) (t p : Nat) :
    (_runqueue_push cfg s t p).runq_cb_log
      = match s.sched_active_thread with
        | some a => if (s.threads a).priority = p then p :: s.runq_cb_log else s.runq_cb_log
        | none => s.runq_cb_log := by
  unfold _runqueue_push; dsimp only
  cases h : s.sched_active_thread with
  | none => simp [State.set_runqueue, h]
  | some a =>
    simp only [State.set_runqueue, h]
    split_ifs <;> simp [sched_runq_callback_log]

theorem runqueue_pop_log (cfg : Config) (s : State) (t : Nat) :
    (_runqueue_pop cfg s t).runq_cb_log
      = if (s.sched_runqueues (s.threads t).priority).tail = [] then
          (s.threads t).priority :: s.runq_cb_log
        else s.runq_cb_log := by
  unfold _runqueue_pop; dsimp only
  split_ifs <;> simp_all [State.set_runqueue, clist_lpop, sched_runq_callback_log]

/-! ## The arming rule -/

/-- C15 (amended). `sched_runq_callback(p)` sets `_current_fb_priority` to `p` and sets
the timer to 500000 exactly when `p != 0` and `_current_fb_priority = 0xFF`; otherwise
`_current_fb_priority` and the timer are unchanged.  When the first call armed the timer
and `p` is not the sentinel 0xFF itself, a second call with any `q` leaves the controller
as the first call left it. -/
theorem C15_arming_rule (s : State) (p q : Nat) :
    ((p ≠ 0 ∧ s._current_fb_priority = 0xff) →
      (sched_runq_callback s p)._current_fb_priority = p ∧
      (sched_runq_callback s p).fb_timer = some 500000 ∧
      (sched_runq_callback s p).timer_set_count = s.timer_set_count + 1) ∧
    (¬ (p ≠ 0 ∧ s._current_fb_priority = 0xff) →
      (sched_runq_callback s p)._current_fb_priority = s._current_fb_priority ∧
      (sched_runq_callback s p).fb_timer = s.fb_timer ∧
      (sched_runq_callback s p).timer_set_count = s.timer_set_count) ∧
    ((p ≠ 0 ∧ s._current_fb_priority = 0xff) → p ≠ 0xff →
      (sched_runq_callback (sched_runq_callback s p) q)._current_fb_priority
        = (sched_runq_callback s p)._current_fb_priority ∧
      (sched_runq_callback (sched_runq_callback s p) q).fb_timer
        = (sched_runq_callback s p).fb_timer ∧
      (sched_runq_callback (sched_runq_callback s p) q).timer_set_count
        = (sched_runq_callback s p).timer_set_count) := by
  have harm : (p ≠ 0 ∧ s._current_fb_priority = 0xff) →
      (sched_runq_callback s p)._current_fb_priority = p ∧
      (sched_runq_callback s p).fb_timer = some 500000 ∧
      (sched_runq_callback s p).timer_set_count = s.timer_set_count + 1 := by
    rintro ⟨h1, h2⟩
    simp [sched_runq_callback, _sched_feedback_set, h1, h2]
  have hkeep : ∀ (s0 : State) (r : Nat), ¬ (r ≠ 0 ∧ s0._current_fb_priority = 0xff) →
      (sched_runq_callback s0 r)._current_fb_priority = s0._current_fb_priority ∧
      (sched_runq_callback s0 r).fb_timer = s0.fb_timer ∧
      (sched_runq_callback s0 r).timer_set_count = s0.timer_set_count := by
    intro s0 r h
    unfold sched_runq_callback _sched_feedback_set
    dsimp only
    by_cases h1 : r = 0
    · simp [h1]
    · have h2 : ¬ s0._current_fb_priority = 0xff := fun e => h ⟨h1, e⟩
      simp [h1, h2]
  refine ⟨harm, hkeep s p, ?_⟩
  intro h hp
  apply hkeep
  rw [(harm h).1]
  exact fun hc => hp hc.2

/-! ## The values of `_current_fb_priority` -/

theorem fb_inv_of_eq (s s1 : State)
    (ht : ∀ t, (s1.threads t).priority = (s.threads t).priority)
    (hrq : s1.sched_runqueues = s.sched_runqueues)
    (hfb : s1._current_fb_priority = s._current_fb_priority) (h : fb_inv s) : fb_inv s1 := by
  refine ⟨fun t => ?_, fun q hq => ?_, ?_⟩
  · rw [ht t]; exact h.1 t
  · rw [hrq] at hq; exact h.2.1 q hq
  · rw [hfb]; exact h.2.2

theorem fb_inv_set_thread (s : State) (t : Nat) (f : thread_t → thread_t)
    (hf : ∀ d, (f d).priority = d.priority) (h : fb_inv s) : fb_inv (s.set_thread t f) := by
  refine fb_inv_of_eq s _ (fun i => ?_) rfl rfl h
  unfold State.set_thread
  dsimp only
  split_ifs
  · exact hf _
  · rfl

theorem fb_inv_yield (s : State) (h : fb_inv s) : fb_inv (thread_yield_higher s) :=
  fb_inv_of_eq s _ (fun _ => rfl) rfl rfl h

theorem fb_inv_debit (s : State) (t : Nat) (h : fb_inv s) : fb_inv (debit_quantum s t) :=
  fb_inv_set_thread s t _ (fun _ => rfl) h

theorem fb_inv_callback (s : State) (p : Nat) (hp : p < SCHED_PRIO_LEVELS ∨ p = 0xff)
    (h : fb_inv s) : fb_inv (sched_runq_callback s p) := by
  refine ⟨fun t => ?_, fun q hq => ?_, ?_⟩
  · rw [sched_runq_callback_threads]; exact h.1 t
  · rw [sched_runq_callback_sched_runqueues] at hq; exact h.2.1 q hq
  · unfold sched_runq_callback _sched_feedback_set
    dsimp only
    by_cases h0 : p = 0
    · simpa [h0] using h.2.2
    · by_cases hf : s._current_fb_priority = 0xff
      · simpa [h0, hf] using hp
      · simpa [h0, hf] using h.2.2

theorem fb_inv_push (cfg : Config) (s : State) (t p : Nat) (hp : p < SCHED_PRIO_LEVELS)
    (h : fb_inv s) : fb_inv (_runqueue_push cfg s t p) := by
  have h1 : fb_inv
      { s.set_runqueue p (clist_rpush (s.sched_runqueues p) t) with
        runqueue_bitcache := _set_runqueue_bit cfg s.runqueue_bitcache p } := by
    refine ⟨h.1, fun q hq => ?_, h.2.2⟩
    by_cases hqp : q = p
    · rw [hqp]; exact hp
    · apply h.2.1 q
      simpa [State.set_runqueue, hqp] using hq
  unfold _runqueue_push
  dsimp only
  split
  · split_ifs
    · exact fb_inv_callback _ p (Or.inl hp) h1
    · exact h1
  · exact h1

theorem fb_inv_pop (cfg : Config) (s : State) (t : Nat) (h : fb_inv s) :
    fb_inv (_runqueue_pop cfg s t) := by
  have hrq : ∀ q, (s.set_runqueue (s.threads t).priority
      (clist_lpop (s.sched_runqueues (s.threads t).priority))).sched_runqueues q ≠ [] →
      q < SCHED_PRIO_LEVELS := by
    intro q hq
    by_cases hqp : q = (s.threads t).priority
    · rw [hqp]; exact h.1 t
    · apply h.2.1 q
      simpa [State.set_runqueue, hqp] using hq
  unfold _runqueue_pop
  dsimp only
  split_ifs
  · exact fb_inv_callback _ _ (Or.inl (h.1 t)) ⟨h.1, hrq, h.2.2⟩
  · exact ⟨h.1, hrq, h.2.2⟩

theorem fb_inv_advance (s : State) (p : Nat) (h : fb_inv s) :
    fb_inv (sched_runq_advance s p) := by
  refine ⟨h.1, fun q hq => ?_, h.2.2⟩
  apply h.2.1 q
  unfold sched_runq_advance State.set_runqueue at hq
  dsimp only at hq
  by_cases hqp : q = p
  · subst hqp
    simpa [clist_lpoprpush_eq_nil] using hq
  · simpa [hqp] using hq

theorem fb_inv_set_status (cfg : Config) (s : State) (t st : Nat) (h : fb_inv s) :
    fb_inv (sched_set_status cfg s t st) := by
  unfold sched_set_status
  dsimp only
  refine fb_inv_set_thread _ _ _ (fun d => rfl) ?_
  split_ifs
  · exact h
  · exact fb_inv_push cfg s _ _ (h.1 t) h
  · exact fb_inv_pop cfg s _ h
  · exact h

theorem fb_inv_requeue (cfg : Config) (s : State) (t p : Nat) (hp : p < SCHED_PRIO_LEVELS)
    (h : fb_inv s) : fb_inv (sched_change_priority_requeue cfg s t p) := by
  have h1 : fb_inv (if thread_is_active (s.threads t) then
      _runqueue_push cfg (_runqueue_pop cfg s t) t p else s) := by
    split_ifs
    · exact fb_inv_push cfg _ _ _ hp (fb_inv_pop cfg s _ h)
    · exact h
  unfold sched_change_priority_requeue
  dsimp only
  generalize (if thread_is_active (s.threads t) then
      _runqueue_push cfg (_runqueue_pop cfg s t) t p else s) = sx at h1
  refine ⟨fun i => ?_, h1.2.1, h1.2.2⟩
  unfold State.set_thread
  dsimp only
  by_cases hi : i = t
  · rw [if_pos hi]
    exact hp
  · rw [if_neg hi]
    exact h1.1 i

theorem fb_inv_change_priority (cfg : Config) (s s1 : State) (t : Option Nat) (p : Nat)
    (hs : sched_change_priority cfg s t p = .ok s1) (h : fb_inv s) : fb_inv s1 := by
  cases t with
  | none => simp [sched_change_priority] at hs
  | some t =>
    by_cases hp : p < SCHED_PRIO_LEVELS
    · by_cases hpr : (s.threads t).priority = p
      · have : s1 = s := by
          simp only [sched_change_priority, hp, not_true_eq_false, if_false, hpr, if_true] at hs
          cases hs
          rfl
        rw [this]
        exact h
      · rw [sched_change_priority_eq cfg s t p hp hpr] at hs
        have hr := fb_inv_requeue cfg s t p hp h
        split_ifs at hs <;> cases hs
        · exact fb_inv_yield _ hr
        · exact hr
    · simp [sched_change_priority, hp] at hs

theorem fb_inv_task_exit (cfg : Config) (s s1 : State)
    (hs : sched_task_exit cfg s = .ok s1) (h : fb_inv s) : fb_inv s1 := by
  unfold sched_task_exit at hs
  dsimp only at hs
  split at hs
  · simp at hs
  · cases hs
    refine fb_inv_of_eq _ _ (fun _ => rfl) rfl rfl (fb_inv_set_status cfg _ _ _ ?_)
    exact fb_inv_of_eq s _ (fun _ => rfl) rfl rfl h

theorem fb_inv_unschedule (cfg : Config) (s s1 : State) (a : Nat)
    (hs : _unschedule cfg s a = .ok s1) (h : fb_inv s) : fb_inv s1 := by
  rw [unschedule_result cfg s s1 a hs]
  split_ifs
  · exact fb_inv_set_thread s a _ (fun d => rfl) h
  · exact h

theorem fb_inv_run (cfg : Config) (s s1 : State) (n : Nat)
    (hs : sched_run cfg s = .ok (n, s1)) (h : fb_inv s) : fb_inv s1 := by
  unfold sched_run at hs
  dsimp only at hs
  by_cases h1 : cfg.MODULE_CORE_IDLE_THREAD = false ∧ s.runqueue_bitcache = 0
  · rw [if_pos h1] at hs
    split at hs
    · split at hs <;> simp at hs
    · simp at hs
  · rw [if_neg h1] at hs
    split at hs
    · simp at hs
    · rename_i nt hh
      have hne : s.sched_runqueues (_get_prio_queue_from_runqueue cfg s.runqueue_bitcache) ≠ [] := by
        intro e
        rw [e] at hh
        simp at hh
      have hlt := h.2.1 _ hne
      have hmod : _get_prio_queue_from_runqueue cfg s.runqueue_bitcache % 256
          = _get_prio_queue_from_runqueue cfg s.runqueue_bitcache :=
        Nat.mod_eq_of_lt (lt_trans hlt (by decide))
      have h3 : fb_inv
          ((sched_runq_callback { s with sched_context_switch_request := 0 }
              (_get_prio_queue_from_runqueue cfg s.runqueue_bitcache % 256)).set_thread nt
            (fun t => { t with status := STATUS_RUNNING })) := by
        refine fb_inv_set_thread _ _ _ (fun d => rfl) ?_
        refine fb_inv_callback _ _ (Or.inl (by rw [hmod]; exact hlt)) ?_
        exact fb_inv_of_eq s _ (fun _ => rfl) rfl rfl h
      by_cases h2 : s.sched_active_thread = some nt
      · rw [if_pos h2] at hs
        cases hs
        exact h3
      · rw [if_neg h2] at hs
        split at hs
        · simp at hs
        · rename_i s4 heq
          cases hs
          refine fb_inv_of_eq s4 _ (fun _ => rfl) rfl rfl ?_
          split at heq
          · exact fb_inv_unschedule cfg _ _ _ heq h3
          · cases heq
            exact h3

theorem fb_inv_quantum (cfg : Config) (s s1 : State)
    (hs : _sched_feedback_cb cfg s = .ok s1) (h : fb_inv s) : fb_inv s1 := by
  unfold _sched_feedback_cb at hs
  dsimp only at hs
  split at hs
  · simp at hs
  · rename_i a ha
    have hprio := h.2.2
    have h1 : fb_inv
        (if s._current_fb_priority ≠ 0xff then { s with _current_fb_priority := 0xff } else s) := by
      split_ifs
      · exact ⟨h.1, h.2.1, Or.inr rfl⟩
      · exact h
    generalize (if s._current_fb_priority ≠ 0xff then
      ({ s with _current_fb_priority := 0xff } : State) else s) = sa at hs h1
    have h2 : fb_inv
        (if (sa.threads a).service_time = 0 then
          thread_yield_higher
            (sched_runq_advance (sa.set_thread a (fun t => { t with status := 0 }))
              (sa.threads a).priority)
        else sa) := by
      split_ifs
      · exact fb_inv_yield _ (fb_inv_advance _ _ (fb_inv_set_thread _ _ _ (fun d => rfl) h1))
      · exact h1
    generalize (if (sa.threads a).service_time = 0 then
          thread_yield_higher
            (sched_runq_advance (sa.set_thread a (fun t => { t with status := 0 }))
              (sa.threads a).priority)
        else sa) = sb at hs h2
    split_ifs at hs with c1 c2 c3
    · split at hs
      · simp at hs
      · rename_i s3 heq
        cases hs
        apply fb_inv_callback
        · split_ifs
          · left
            have hlt : s._current_fb_priority < MAX_Q := c2.1 ▸ c2.2
            have : (s._current_fb_priority + 1) % 256 = s._current_fb_priority + 1 :=
              Nat.mod_eq_of_lt (by unfold MAX_Q at hlt; omega)
            rw [this]
            unfold MAX_Q at hlt
            unfold SCHED_PRIO_LEVELS
            omega
          · exact hprio
        · exact fb_inv_debit _ _ (fb_inv_change_priority cfg _ _ _ _ heq h2)
    · cases hs
      exact fb_inv_callback _ _ hprio (fb_inv_debit _ _
        (fb_inv_yield _ (fb_inv_advance _ _ h2)))
    · cases hs
      exact fb_inv_callback _ _ hprio (fb_inv_debit _ _ h2)
    · cases hs
      exact fb_inv_callback _ _ hprio h2

theorem fb_inv_feedback_init (cfg : Config) (s s1 : State)
    (hs : sched_feedback_init cfg s = .ok s1) (h : fb_inv s) : fb_inv s1 := by
  unfold sched_feedback_init at hs
  dsimp only at hs
  have h0 : fb_inv { s with _current_fb_priority := 0xff } := ⟨h.1, h.2.1, Or.inr rfl⟩
  split at hs
  · simp at hs
  · rename_i s2 heq
    have h2 := fb_inv_change_priority cfg _ _ _ _ heq h0
    split at hs
    · cases hs
      exact fb_inv_callback _ _ (Or.inl (h2.1 _)) h2
    · cases hs
      exact h2

theorem fb_inv_initial (s : State) (h : initial s) : fb_inv s := by
  refine ⟨h.2.2.2.2.2.2, fun q hq => absurd (h.1 q) hq, Or.inl ?_⟩
  rw [h.2.2.2.2.1]
  decide

theorem fb_inv_step (cfg : Config) (s s1 : State) (hs : Step cfg s s1) (h : fb_inv s) :
    fb_inv s1 := by
  cases hs with
  | set_status t status => exact fb_inv_set_status cfg s t status h
  | change_priority _ t p hs => exact fb_inv_change_priority cfg s s1 t p hs h
  | task_exit _ hs => exact fb_inv_task_exit cfg s s1 hs h
  | run _ n hs => exact fb_inv_run cfg s s1 n hs h
  | quantum _ hs => exact fb_inv_quantum cfg s s1 hs h

/-- C16 (amended). In every state reachable from the static initial values through
scheduler steps, quantum expiries, `sched_feedback_init` and calls of
`sched_runq_callback` with a priority below `SCHED_PRIO_LEVELS`, `_current_fb_priority` is
its static initial value 0, or a class in `[1, SCHED_PRIO_LEVELS)`, or the sentinel
0xFF. -/
theorem C16_current_fb_priority_values (cfg : Config) (s : State) (hs : FbReachable cfg s) :
    s._current_fb_priority = 0 ∨
    (1 ≤ s._current_fb_priority ∧ s._current_fb_priority < SCHED_PRIO_LEVELS) ∨
    s._current_fb_priority = 0xff := by
  have hinv : fb_inv s := by
    induction hs with
    | init s h => exact fb_inv_initial s h
    | step s s1 _ hstep ih =>
      cases hstep with
      | sched _ hst => exact fb_inv_step cfg s s1 hst ih
      | init _ hi => exact fb_inv_feedback_init cfg s s1 hi ih
      | callback p hp => exact fb_inv_callback s p (Or.inl hp) ih
  rcases hinv.2.2 with h | h
  · by_cases h0 : s._current_fb_priority = 0
    · exact Or.inl h0
    · exact Or.inr (Or.inl ⟨Nat.pos_of_ne_zero h0, h⟩)
  · exact Or.inr (Or.inr h)

/-! ## The debit of the quantum -/

/-- With an active thread whose service time is not 0 the quantum callback runs to its
end; it subtracts 500000 from the service time of the active thread modulo 2^32 and
leaves every other descriptor as it was. -/
theorem feedback_cb_service_time (cfg : Config) (s : State) (a : Nat)
    (ha : s.sched_active_thread = some a) (hs : (s.threads a).service_time ≠ 0) :
    ∃ s1, _sched_feedback_cb cfg s = .ok s1 ∧
      (s1.threads a).service_time
        = ((s.threads a).service_time + (2 ^ 32 - 500000)) % 2 ^ 32 ∧
      ∀ t, t ≠ a → s1.threads t = s.threads t := by
  unfold _sched_feedback_cb
  dsimp only
  split
  · rename_i hnone
    rw [ha] at hnone
    cases hnone
  rename_i a1 ha1
  have ha1a : a = a1 := by
    rw [ha] at ha1
    exact Option.some.inj ha1
  subst ha1a
  have hth : (if s._current_fb_priority ≠ 0xff then
      ({ s with _current_fb_priority := 0xff } : State) else s).threads = s.threads := by
    split_ifs <;> rfl
  have hact : (if s._current_fb_priority ≠ 0xff then
      ({ s with _current_fb_priority := 0xff } : State) else s).sched_active_thread
        = s.sched_active_thread := by
    split_ifs <;> rfl
  generalize (if s._current_fb_priority ≠ 0xff then
      ({ s with _current_fb_priority := 0xff } : State) else s) = sa at hth hact
  simp only [hth, hs, if_false, ne_eq, not_false_eq_true, if_true]
  by_cases c2 : (s.threads a).priority = s._current_fb_priority ∧ (s.threads a).priority < MAX_Q
  · rw [if_pos c2]
    have hlt : (s.threads a).priority < 3 := c2.2
    have hmod : ((s.threads a).priority + 1) % 256 = (s.threads a).priority + 1 :=
      Nat.mod_eq_of_lt (by omega)
    have hpa : (sa.threads a).priority = (s.threads a).priority := by rw [hth]
    rw [hmod, sched_change_priority_eq cfg sa a _ (by unfold SCHED_PRIO_LEVELS; omega)
      (by rw [hpa]; omega)]
    refine ⟨_, rfl, ?_, ?_⟩
    · split_ifs <;>
        simp [debit_quantum, State.set_thread, thread_yield_higher, requeue_threads, hth]
    · intro t ht
      split_ifs <;>
        simp [debit_quantum, State.set_thread, thread_yield_higher, requeue_threads, hth, ht]
  · rw [if_neg c2]
    by_cases c3 : (s.threads a).priority = MAX_Q
    · rw [if_pos c3]
      refine ⟨_, rfl, ?_, ?_⟩
      · simp [debit_quantum, State.set_thread, thread_yield_higher, sched_runq_advance,
          State.set_runqueue, hth]
      · intro t ht
        simp [debit_quantum, State.set_thread, thread_yield_higher, sched_runq_advance,
          State.set_runqueue, hth, ht]
    · rw [if_neg c3]
      refine ⟨_, rfl, ?_, ?_⟩
      · simp [debit_quantum, State.set_thread, hth]
      · intro t ht
        simp [debit_quantum, State.set_thread, hth, ht]

/-! ## Service time over the steps -/

theorem sched_change_priority_service_time (cfg : Config) (s s1 : State) (th : Option Nat)
    (p : Nat) (hs : sched_change_priority cfg s th p = .ok s1) (t : Nat) :
    (s1.threads t).service_time = (s.threads t).service_time := by
  cases th with
  | none => simp [sched_change_priority] at hs
  | some a =>
    by_cases hp : p < SCHED_PRIO_LEVELS
    · by_cases hpr : (s.threads a).priority = p
      · simp only [sched_change_priority, hp, not_true_eq_false, if_false, hpr, if_true] at hs
        cases hs
        rfl
      · rw [sched_change_priority_eq cfg s a p hp hpr] at hs
        split_ifs at hs <;> cases hs <;>
          simp only [thread_yield_higher, requeue_threads] <;> split_ifs <;> rfl
    · simp [sched_change_priority, hp] at hs

theorem sched_run_service_time (cfg : Config) (s s1 : State) (n : Nat)
    (hs : sched_run cfg s = .ok (n, s1)) (t : Nat) :
    (s1.threads t).service_time = (s.threads t).service_time := by
  unfold sched_run at hs
  dsimp only at hs
  by_cases h1 : cfg.MODULE_CORE_IDLE_THREAD = false ∧ s.runqueue_bitcache = 0
  · rw [if_pos h1] at hs
    split at hs
    · split at hs <;> simp at hs
    · simp at hs
  · rw [if_neg h1] at hs
    split at hs
    · simp at hs
    · rename_i nt hh
      have h3 : ∀ i, (((sched_runq_callback { s with sched_context_switch_request := 0 }
              (_get_prio_queue_from_runqueue cfg s.runqueue_bitcache % 256)).set_thread nt
            (fun d => { d with status := STATUS_RUNNING })).threads i).service_time
          = (s.threads i).service_time := by
        intro i
        simp only [State.set_thread, sched_runq_callback_threads]
        split_ifs <;> rfl
      by_cases h2 : s.sched_active_thread = some nt
      · rw [if_pos h2] at hs
        cases hs
        exact h3 t
      · rw [if_neg h2] at hs
        split at hs
        · simp at hs
        · rename_i s4 heq
          cases hs
          show (s4.threads t).service_time = (s.threads t).service_time
          split at heq
          · rw [unschedule_result cfg _ _ _ heq, ← h3 t]
            split_ifs
            · simp only [State.set_thread]
              split_ifs <;> rfl
            · rfl
          · cases heq
            exact h3 t

theorem feedback_cb_exhausted_service_time (cfg : Config) (s s1 : State) (a : Nat)
    (ha : s.sched_active_thread = some a) (hz : (s.threads a).service_time = 0)
    (hs : _sched_feedback_cb cfg s = .ok s1) (t : Nat) :
    (s1.threads t).service_time = (s.threads t).service_time := by
  unfold _sched_feedback_cb at hs
  dsimp only at hs
  split at hs
  · simp at hs
  rename_i a1 ha1
  have ha1a : a = a1 := by
    rw [ha] at ha1
    exact Option.some.inj ha1
  subst ha1a
  have hth : (if s._current_fb_priority ≠ 0xff then
      ({ s with _current_fb_priority := 0xff } : State) else s).threads = s.threads := by
    split_ifs <;> rfl
  generalize (if s._current_fb_priority ≠ 0xff then
      ({ s with _current_fb_priority := 0xff } : State) else s) = sa at hs hth
  have hz2 : (sa.threads a).service_time = 0 := by rw [hth]; exact hz
  simp only [hz2, if_true, thread_yield_higher, sched_runq_advance, State.set_runqueue,
    State.set_thread, ne_eq, not_true_eq_false, if_false, Except.ok.injEq] at hs
  subst hs
  simp only [sched_runq_callback_threads, hth]
  split_ifs <;> rfl

/-- Without the wrap-around, service time never grows: over every scheduler step, the
quantum expiry included, taken in a state where the service time of the active thread is 0
or at least one quantum, the service time of every thread stays or shrinks. -/
theorem service_time_le_of_step (cfg : Config) (s s1 : State) (hstep : Step cfg s s1)
    (hquantum : ∀ a, s.sched_active_thread = some a →
      (s.threads a).service_time = 0 ∨ 500000 ≤ (s.threads a).service_time)
    (hword : ∀ a, (s.threads a).service_time < 2 ^ 32) (t : Nat) :
    (s1.threads t).service_time ≤ (s.threads t).service_time := by
  cases hstep with
  | set_status p status =>
    rw [sched_set_status_threads]
    dsimp only
    split_ifs <;> exact le_refl _
  | change_priority _ th p hs =>
    exact le_of_eq (sched_change_priority_service_time cfg s s1 th p hs t)
  | task_exit _ hs =>
    unfold sched_task_exit at hs
    dsimp only at hs
    split at hs
    · simp at hs
    · cases hs
      show ((sched_set_status cfg _ _ _).threads t).service_time ≤ _
      rw [sched_set_status_threads]
      dsimp only
      split_ifs <;> exact le_refl _
  | run _ n hs => exact le_of_eq (sched_run_service_time cfg s s1 n hs t)
  | quantum _ hs =>
    cases ha : s.sched_active_thread with
    | none => simp [_sched_feedback_cb, ha] at hs
    | some a =>
      rcases hquantum a ha with hz | hge
      · exact le_of_eq (feedback_cb_exhausted_service_time cfg s s1 a ha hz hs t)
      · obtain ⟨s2, h2, hserv, hother⟩ :=
          feedback_cb_service_time cfg s a ha (by omega)
        rw [hs] at h2
        cases h2
        by_cases hta : t = a
        · subst hta
          rw [hserv]
          have := hword t
          omega
        · rw [hother t hta]

/-! ## Scenarios of the feedback controller -/

theorem fb_reachable_of_reachable (cfg : Config) (s : State) (h : Reachable cfg s) :
    FbReachable cfg s := by
  induction h with
  | init s hi => exact FbReachable.init s hi
  | step s s1 _ hst ih => exact FbReachable.step s s1 ih (FbStep.sched s s1 hst)

theorem one_pending_prio7_reachable (cfg : Config) : Reachable cfg (one_pending_prio7 cfg) :=
  Reachable.step _ _ (Reachable.init _ (boot_initial _ _ (fun _ => by decide)))
    (Step.set_status _ 0 STATUS_PENDING)

theorem running_then_woken_one_running (t : Nat)
    (ht : ((running_then_woken cfg_lsb).threads t).status = STATUS_RUNNING) :
    (running_then_woken cfg_lsb).sched_active_thread = some t := by
  by_cases h0 : t = 0
  · subst h0
    rfl
  · exfalso
    simp only [running_then_woken, sched_set_status_threads, dispatched, State.set_thread, boot,
      created] at ht
    split_ifs at ht
    simp at ht

/-- C11, witness.  A (priority 2) is RUNNING and active, B (priority 1) has been made
PENDING: `sched_run` returns B, B is RUNNING and active with its pid, A is PENDING. -/
theorem C11_sched_run_single_running_witness :
    ∃ s1, sched_run cfg_lsb (running_then_woken cfg_lsb) = .ok (1, s1) ∧
      (s1.threads 1).status = STATUS_RUNNING ∧ s1.sched_active_thread = some 1 ∧
      s1.sched_active_pid = (s1.threads 1).pid ∧ (s1.threads 0).status = STATUS_PENDING := by
  refine ⟨_, rfl, ?_⟩
  have h := C11_sched_run_single_running cfg_lsb (running_then_woken cfg_lsb) _ 1 rfl
    running_then_woken_one_running
    (fun a ha => by
      have h0 : a = 0 := (Option.some.inj ha).symm
      subst h0
      rfl)
  exact ⟨(h.1 1).mpr rfl, h.2.1, h.2.2.1, h.2.2.2 0 (by decide) (by decide)⟩

/-- C12, witness.  For the priorities 3, 1, 2 both encodings read back 1. -/
theorem C12_bitcache_encodings_witness :
    _get_prio_queue_from_runqueue cfg_clz ([3, 1, 2].foldl (_set_runqueue_bit cfg_clz) 0) = 1 ∧
    _get_prio_queue_from_runqueue cfg_lsb ([3, 1, 2].foldl (_set_runqueue_bit cfg_lsb) 0) = 1 :=
  have h := (C12_bitcache_encodings [3, 1, 2] 1 (by decide) (by decide) (by decide)).1
  ⟨h cfg_clz, h cfg_lsb⟩

/-- C15, witness.  From the idle controller `sched_runq_callback(1)` arms the timer on
class 1, and a following `sched_runq_callback(2)` changes nothing. -/
theorem C15_arming_rule_witness :
    (sched_runq_callback controller_idle 1)._current_fb_priority = 1 ∧
    (sched_runq_callback (sched_runq_callback controller_idle 1) 2)._current_fb_priority
      = (sched_runq_callback controller_idle 1)._current_fb_priority :=
  have h := C15_arming_rule controller_idle 1 2
  ⟨(h.1 ⟨by decide, rfl⟩).1, (h.2.2 ⟨by decide, rfl⟩ (by decide)).1⟩

/-- C15, counterexample to the claim as stated.  From the idle controller
`sched_runq_callback(0xFF)` arms the timer and leaves `_current_fb_priority = 0xFF`; a
following `sched_runq_callback(1)` arms again and sets `_current_fb_priority = 1`. -/
theorem C15_counterexample_sentinel_argument :
    controller_idle._current_fb_priority = 0xff ∧
    (sched_runq_callback controller_idle 0xff).fb_timer = some 500000 ∧
    (sched_runq_callback controller_idle 0xff).timer_set_count
      = controller_idle.timer_set_count + 1 ∧
    (sched_runq_callback controller_idle 0xff)._current_fb_priority = 0xff ∧
    (sched_runq_callback (sched_runq_callback controller_idle 0xff) 1)._current_fb_priority = 1 :=
  ⟨by decide, by decide, by decide, by decide, by decide⟩

/-- C16, witness.  After the scheduler has called `sched_runq_callback(3)` on the boot
state, `_current_fb_priority` still has one of the three kinds of value. -/
theorem C16_current_fb_priority_values_witness :
    (sched_runq_callback (one_pending cfg_lsb) 3)._current_fb_priority = 0 ∨
    (1 ≤ (sched_runq_callback (one_pending cfg_lsb) 3)._current_fb_priority ∧
      (sched_runq_callback (one_pending cfg_lsb) 3)._current_fb_priority < SCHED_PRIO_LEVELS) ∨
    (sched_runq_callback (one_pending cfg_lsb) 3)._current_fb_priority = 0xff :=
  C16_current_fb_priority_values cfg_lsb _
    (FbReachable.step _ _ (fb_reachable_of_reachable cfg_lsb _ (one_pending_reachable cfg_lsb))
      (FbStep.callback _ 3 (by decide)))

/-- C16, counterexample to the claim as stated.  In the initial state
`_current_fb_priority` is 0; and with a thread of priority 7 (made PENDING, selected, one
quantum expiry, selected again) it becomes 7.  Neither value is in `[1, 3]` or 0xFF. -/
theorem C16_counterexample_zero_and_seven :
    (∃ s, FbReachable cfg_lsb s ∧ s._current_fb_priority = 0) ∧
    (∃ s, FbReachable cfg_lsb s ∧ s._current_fb_priority = 7) :=
  ⟨⟨_, FbReachable.init _ (boot_initial (fun _ => 7) (fun _ => 1000000)
        (fun _ => (by decide : 7 < SCHED_PRIO_LEVELS))),
      rfl⟩,
    ⟨_, fb_reachable_of_reachable cfg_lsb _
        (Reachable.step _ _
          (Reachable.step _ _
            (Reachable.step _ _ (one_pending_prio7_reachable cfg_lsb) (Step.run _ _ 0 rfl))
            (Step.quantum _ _ rfl))
          (Step.run _ _ 0 rfl)),
      by decide⟩⟩

/-- C17, failing input.  A (active, priority 1, controller armed on class 1) has 300000 us
of service left when the quantum callback fires: afterwards its `service_time` is
300000 + 2^32 - 500000 = 4294767296, not 0. -/
theorem C17_failing_input_wraps :
    (single_running cfg_lsb 1 300000 1).sched_active_thread = some 0 ∧
    ((single_running cfg_lsb 1 300000 1).threads 0).service_time = 300000 ∧
    ∃ s1, _sched_feedback_cb cfg_lsb (single_running cfg_lsb 1 300000 1) = .ok s1 ∧
      (s1.threads 0).service_time = 4294767296 :=
  ⟨by decide, by decide, _, rfl, by decide⟩

/-- C18, failing input.  A (active, priority 3, controller armed on class 3) has 200000 us
of service left: the quantum expiry is a step after which its `service_time` is greater
than before. -/
theorem C18_failing_input_increases :
    ∃ s1, Step cfg_lsb (single_running cfg_lsb 3 200000 3) s1 ∧
      ((single_running cfg_lsb 3 200000 3).threads 0).service_time = 200000 ∧
      (s1.threads 0).service_time = 4294667296 ∧
      ((single_running cfg_lsb 3 200000 3).threads 0).service_time < (s1.threads 0).service_time :=
  ⟨_, Step.quantum _ _ rfl, by decide, by decide, by decide⟩

/-- C19, failing input: scenario S3.  A (priority 1, service time two quanta) is the only
runnable thread, active, and the controller is armed on class 1.  After the quantum
callback A has priority 2 and one quantum left, but `_current_fb_priority` is 1, not 2:
the pop inside `sched_change_priority` empties run queue 1 and calls
`sched_runq_callback(1)`, which arms on class 1 again, so the closing
`sched_runq_callback(2)` does nothing. -/
theorem C19_failing_input_rearmed_on_old_class :
    (single_running cfg_lsb 1 1000000 1)._current_fb_priority = 1 ∧
    (single_running cfg_lsb 1 1000000 1).sched_runqueues 1 = [0] ∧
    ∃ s1, _sched_feedback_cb cfg_lsb (single_running cfg_lsb 1 1000000 1) = .ok s1 ∧
      (s1.threads 0).priority = 2 ∧ (s1.threads 0).service_time = 500000 ∧
      s1._current_fb_priority = 1 ∧ s1.runq_cb_log = [2, 1] :=
  ⟨by decide, by decide, _, rfl, by decide, by decide, by decide, by decide⟩

/-- C20, failing input: scenario S4.  A (priority 2, service time 0) is RUNNING and active,
alone in run queue 2, and B (priority 3) is PENDING.  After the quantum callback A is
STOPPED but still the member of run queue 2, bit 2 is still set, and the next `sched_run`
returns A, not B. -/
theorem C20_failing_input_stopped_thread_selected :
    (exhausted_and_pending cfg_lsb).sched_runqueues 2 = [0] ∧
    (exhausted_and_pending cfg_lsb).sched_runqueues 3 = [1] ∧
    ∃ s1, _sched_feedback_cb cfg_lsb (exhausted_and_pending cfg_lsb) = .ok s1 ∧
      (s1.threads 0).status = STATUS_STOPPED ∧ s1.sched_runqueues 2 = [0] ∧
      runqueue_bit cfg_lsb s1.runqueue_bitcache 2 = true ∧
      ∃ s2, sched_run cfg_lsb s1 = .ok (0, s2) :=
  ⟨by decide, by decide, _, rfl, by decide, by decide, by decide, _, rfl⟩

/-! ## The stack test of `_unschedule` -/

theorem unschedule_eq (cfg : Config) (s : State) (a : Nat) :
    _unschedule cfg s a
      = if cfg.SCHED_TEST_STACK = true ∧
            (_unschedule_status s a).mem ((_unschedule_status s a).threads a).stack_start
              ≠ ((_unschedule_status s a).threads a).stack_start then
          .error .core_panic_stack_overflow
        else .ok (_unschedule_status s a) := rfl

theorem unschedule_status_threads (s : State) (a u : Nat) :
    (_unschedule_status s a).threads u
      = if u = a ∧ (s.threads a).status = STATUS_RUNNING then
          { s.threads a with status := STATUS_PENDING }
        else s.threads u := by
  unfold _unschedule_status
  by_cases hr : (s.threads a).status = STATUS_RUNNING
  · by_cases hu : u = a
    · subst hu; simp [hr, State.set_thread]
    · simp [hr, hu, State.set_thread]
  · simp [hr]

theorem unschedule_status_mem (s : State) (a : Nat) : (_unschedule_status s a).mem = s.mem := by
  unfold _unschedule_status
  split_ifs <;> rfl

/-- C25. With the stack test enabled, `_unschedule(t)` ends in
`core_panic(PANIC_STACK_OVERFLOW)` if and only if the word stored at `t.stack_start`
differs from the address `t.stack_start`, and otherwise returns.  In both cases the state
at the test (the one handed to `core_panic`, or the one returned) has the status of `t`
PENDING if it was RUNNING and unchanged otherwise, every other field of `t`, every other
descriptor and the memory unchanged. -/
theorem C25_unschedule_stack_test (cfg : Config) (s : State) (t : Nat)
    (htest : cfg.SCHED_TEST_STACK = true) :
    (_unschedule cfg s t = .error .core_panic_stack_overflow ↔
      s.mem (s.threads t).stack_start ≠ (s.threads t).stack_start) ∧
    (s.mem (s.threads t).stack_start = (s.threads t).stack_start →
      _unschedule cfg s t = .ok (_unschedule_status s t)) ∧
    ((s.threads t).status = STATUS_RUNNING →
      ((_unschedule_status s t).threads t).status = STATUS_PENDING) ∧
    ((s.threads t).status ≠ STATUS_RUNNING →
      ((_unschedule_status s t).threads t).status = (s.threads t).status) ∧
    ((_unschedule_status s t).threads t).pid = (s.threads t).pid ∧
    ((_unschedule_status s t).threads t).priority = (s.threads t).priority ∧
    ((_unschedule_status s t).threads t).stack_start = (s.threads t).stack_start ∧
    ((_unschedule_status s t).threads t).service_time = (s.threads t).service_time ∧
    (∀ u, u ≠ t → (_unschedule_status s t).threads u = s.threads u) ∧
    (_unschedule_status s t).mem = s.mem := by
  have hss : ((_unschedule_status s t).threads t).stack_start = (s.threads t).stack_start := by
    rw [unschedule_status_threads]
    split_ifs <;> rfl
  refine ⟨?_, ?_, ?_, ?_, ?_, ?_, hss, ?_, ?_, unschedule_status_mem s t⟩
  · rw [unschedule_eq, hss, unschedule_status_mem]
    by_cases hc : s.mem (s.threads t).stack_start = (s.threads t).stack_start
    · simp [hc]
    · simp [hc, htest]
  · intro hc
    rw [unschedule_eq, hss, unschedule_status_mem]
    simp [hc]
  · intro hr
    rw [unschedule_status_threads]
    simp [hr]
  · intro hr
    rw [unschedule_status_threads]
    simp [hr]
  · rw [unschedule_status_threads]
    split_ifs <;> rfl
  · rw [unschedule_status_threads]
    split_ifs <;> rfl
  · rw [unschedule_status_threads]
    split_ifs <;> rfl
  · intro u hu
    rw [unschedule_status_threads]
    simp [hu]

/-! ## The demotion of the quantum callback -/

/-- With an active thread the quantum callback runs to its end.  The priority of the
active thread goes up by one exactly when its service time is not 0, its priority is the
class observed and that class is above the bottom class; no other priority changes, and
the active thread stays the active thread. -/
theorem feedback_cb_priority (cfg : Config) (s : State) (a : Nat)
    (ha : s.sched_active_thread = some a) :
    ∃ s1, _sched_feedback_cb cfg s = .ok s1 ∧
      (s1.threads a).priority
        = (if (s.threads a).service_time ≠ 0 ∧
              (s.threads a).priority = s._current_fb_priority ∧ (s.threads a).priority < MAX_Q
           then (s.threads a).priority + 1 else (s.threads a).priority) ∧
      (∀ t, t ≠ a → (s1.threads t).priority = (s.threads t).priority) ∧
      s1.sched_active_thread = some a := by
  unfold _sched_feedback_cb
  dsimp only
  split
  · rename_i hnone
    rw [ha] at hnone
    cases hnone
  rename_i a1 ha1
  have ha1a : a = a1 := by
    rw [ha] at ha1
    exact Option.some.inj ha1
  subst ha1a
  have hth : (if s._current_fb_priority ≠ 0xff then
      ({ s with _current_fb_priority := 0xff } : State) else s).threads = s.threads := by
    split_ifs <;> rfl
  have hact : (if s._current_fb_priority ≠ 0xff then
      ({ s with _current_fb_priority := 0xff } : State) else s).sched_active_thread
        = some a := by
    split_ifs <;> exact ha
  generalize (if s._current_fb_priority ≠ 0xff then
      ({ s with _current_fb_priority := 0xff } : State) else s) = sa at hth hact
  by_cases hz : (s.threads a).service_time = 0
  · have hz2 : (sa.threads a).service_time = 0 := by rw [hth]; exact hz
    simp only [hz2, if_true, thread_yield_higher, sched_runq_advance, State.set_runqueue,
      State.set_thread, ne_eq, not_true_eq_false, if_false, hz, false_and]
    refine ⟨_, rfl, ?_, ?_, ?_⟩
    · simp [hth]
    · intro t ht
      simp [hth, ht]
    · simpa using hact
  · simp only [hth, hz, if_false, ne_eq, not_false_eq_true, if_true, true_and]
    by_cases c2 : (s.threads a).priority = s._current_fb_priority ∧ (s.threads a).priority < MAX_Q
    · rw [if_pos c2, if_pos c2]
      have hlt : (s.threads a).priority < 3 := c2.2
      have hmod : ((s.threads a).priority + 1) % 256 = (s.threads a).priority + 1 :=
        Nat.mod_eq_of_lt (by omega)
      have hpa : (sa.threads a).priority = (s.threads a).priority := by rw [hth]
      rw [hmod, sched_change_priority_eq cfg sa a _ (by unfold SCHED_PRIO_LEVELS; omega)
        (by rw [hpa]; omega)]
      refine ⟨_, rfl, ?_, ?_, ?_⟩
      · split_ifs <;>
          simp [debit_quantum, State.set_thread, thread_yield_higher, requeue_threads]
      · intro t ht
        split_ifs <;>
          simp [debit_quantum, State.set_thread, thread_yield_higher, requeue_threads, hth, ht]
      · split_ifs <;>
          simp [debit_quantum, State.set_thread, thread_yield_higher, hact]
    · rw [if_neg c2, if_neg c2]
      by_cases c3 : (s.threads a).priority = MAX_Q
      · rw [if_pos c3]
        refine ⟨_, rfl, ?_, ?_, ?_⟩
        · simp [debit_quantum, State.set_thread, thread_yield_higher, sched_runq_advance,
            State.set_runqueue, hth]
        · intro t ht
          simp [debit_quantum, State.set_thread, thread_yield_higher, sched_runq_advance,
            State.set_runqueue, hth, ht]
        · simpa [debit_quantum, State.set_thread, thread_yield_higher, sched_runq_advance,
            State.set_runqueue] using hact
      · rw [if_neg c3]
        refine ⟨_, rfl, ?_, ?_, ?_⟩
        · simp [debit_quantum, State.set_thread, hth]
        · intro t ht
          simp [debit_quantum, State.set_thread, hth, ht]
        · simpa [debit_quantum, State.set_thread] using hact

/-- C26. One quantum expiry demotes by at most one rung and never past the bottom class.
With a non-null active thread `a` the callback runs to its end; afterwards the priority of
`a` is one more than before if its service time was not 0, its priority was the observed
class `_current_fb_priority` and below `MAX_Q`, and is unchanged otherwise; a priority in
`[1, 3]` stays in `[1, 3]`; no other thread has its priority changed. -/
theorem C26_quantum_demotion (cfg : Config) (s : State) (a : Nat)
    (ha : s.sched_active_thread = some a) :
    ∃ s1, _sched_feedback_cb cfg s = .ok s1 ∧
      (((s.threads a).service_time ≠ 0 ∧
          (s.threads a).priority = s._current_fb_priority ∧ (s.threads a).priority < MAX_Q) →
        (s1.threads a).priority = (s.threads a).priority + 1) ∧
      (¬ ((s.threads a).service_time ≠ 0 ∧
          (s.threads a).priority = s._current_fb_priority ∧ (s.threads a).priority < MAX_Q) →
        (s1.threads a).priority = (s.threads a).priority) ∧
      ((1 ≤ (s.threads a).priority ∧ (s.threads a).priority ≤ MAX_Q) →
        1 ≤ (s1.threads a).priority ∧ (s1.threads a).priority ≤ MAX_Q) ∧
      (∀ t, t ≠ a → (s1.threads t).priority = (s.threads t).priority) := by
  obtain ⟨s1, hs1, hp, hother, _⟩ := feedback_cb_priority cfg s a ha
  refine ⟨s1, hs1, ?_, ?_, ?_, hother⟩
  · intro hc
    rw [hp, if_pos hc]
  · intro hc
    rw [hp, if_neg hc]
  · intro hr
    rw [hp]
    split_ifs with hc
    · have := hc.2.2
      unfold MAX_Q at this ⊢
      omega
    · exact hr

/-! ## Budgets that are multiples of the quantum -/

theorem expiries_service_time (cfg : Config) (a k : Nat) (hk : k * 500000 < 2 ^ 32)
    (s s1 : State) (j : Nat) (hrun : Expiries cfg a j s s1)
    (hserv : (s.threads a).service_time = k * 500000) (hj : j ≤ k) :
    (s1.threads a).service_time = (k - j) * 500000 := by
  induction hrun with
  | start => simpa using hserv
  | expiry j s s1 s2 _ hact hcb ih =>
    have h1 := ih hserv (by omega)
    have hsub : (k - j) * 500000 = k * 500000 - j * 500000 := Nat.sub_mul k j 500000
    have hsub2 : (k - (j + 1)) * 500000 = k * 500000 - (j + 1) * 500000 :=
      Nat.sub_mul k (j + 1) 500000
    have hjk : (j + 1) * 500000 ≤ k * 500000 := Nat.mul_le_mul_right _ hj
    obtain ⟨s3, h3, hs3, _⟩ := feedback_cb_service_time cfg s1 a hact (by rw [h1]; omega)
    rw [hcb] at h3
    cases h3
    rw [hs3, h1]
    norm_num at hk ⊢
    omega
  | set_status j s s1 t status _ ih =>
    rw [sched_set_status_threads]
    dsimp only
    split_ifs <;> exact ih hserv hj
  | change_priority j s s1 s2 t p _ hcp ih =>
    rw [sched_change_priority_service_time cfg s1 s2 t p hcp a]
    exact ih hserv hj
  | run j s s1 s2 n _ hr ih =>
    rw [sched_run_service_time cfg s1 s2 n hr a]
    exact ih hserv hj

/-- C28. Budgets that are whole multiples of the quantum drain exactly.  For a thread `a`
with `service_time = k * 500000` below 2^32, after `j <= k` quantum expiries with `a` the
active thread (scheduler calls in between allowed) its service time is `(k - j) * 500000`,
hence exactly 0 after the `k`-th, without wrap-around.  Each expiry with `a` active runs
to its end; and every `S_TIME` value of the reference workload is such a multiple. -/
theorem C28_multiples_drain_exactly (cfg : Config) (a k : Nat) (hk : k * 500000 < 2 ^ 32)
    (s s1 : State) (j : Nat) (hrun : Expiries cfg a j s s1)
    (hserv : (s.threads a).service_time = k * 500000) (hj : j ≤ k) :
    (s1.threads a).service_time = (k - j) * 500000 ∧
    (j = k → (s1.threads a).service_time = 0) ∧
    (s1.sched_active_thread = some a → ∃ s2, _sched_feedback_cb cfg s1 = .ok s2) ∧
    (∀ x ∈ S_TIME, ∃ m, 1 ≤ m ∧ x = m * 500000 ∧ x < 2 ^ 32) := by
  have h := expiries_service_time cfg a k hk s s1 j hrun hserv hj
  refine ⟨h, ?_, ?_, ?_⟩
  · intro e
    rw [h, e]
    simp
  · intro hact
    obtain ⟨s2, h2, _⟩ := feedback_cb_priority cfg s1 a hact
    exact ⟨s2, h2⟩
  · intro x hx
    simp only [S_TIME, List.mem_cons, List.mem_singleton, List.not_mem_nil, or_false] at hx
    rcases hx with rfl | rfl | rfl | rfl | rfl
    · exact ⟨6, by norm_num⟩
    · exact ⟨12, by norm_num⟩
    · exact ⟨8, by norm_num⟩
    · exact ⟨10, by norm_num⟩
    · exact ⟨4, by norm_num⟩

/-! ## Selection after a rotation -/

/-- With a 32-bit cache that matches the run queues and the canary of an outgoing thread
intact (when the stack test is compiled in), `sched_run` returns the head of the smallest
occupied run queue; it leaves run queues, cache, memory, priorities and stack bounds as
they were, makes the thread returned RUNNING and active, and takes no other thread out of
the on-runqueue statuses. -/
theorem sched_run_returns_head (cfg : Config) (s : State) (p h : Nat) (rest : List Nat)
    (hc : s.runqueue_bitcache < 2 ^ 32) (hbits : bits_match cfg s) (hp : p < 32)
    (hhead : s.sched_runqueues p = h :: rest) (hmin : ∀ q, q < p → s.sched_runqueues q = [])
    (hcanary : cfg.SCHED_TEST_STACK = true → ∀ a, s.sched_active_thread = some a → a ≠ h →
      s.mem (s.threads a).stack_start = (s.threads a).stack_start) :
    ∃ s1, sched_run cfg s = .ok (h, s1) ∧
      s1.sched_runqueues = s.sched_runqueues ∧
      s1.runqueue_bitcache = s.runqueue_bitcache ∧
      s1.mem = s.mem ∧
      s1.sched_active_thread = some h ∧
      (s1.threads h).status = STATUS_RUNNING ∧
      (∀ t, (s1.threads t).priority = (s.threads t).priority ∧
        (s1.threads t).stack_start = (s.threads t).stack_start) ∧
      (∀ t, t ≠ h → STATUS_ON_RUNQUEUE ≤ (s.threads t).status →
        STATUS_ON_RUNQUEUE ≤ (s1.threads t).status) := by
  have hset : runqueue_bit cfg s.runqueue_bitcache p = true :=
    (hbits p hp).mpr (by rw [hhead]; simp)
  have hclear : ∀ q, q < p → runqueue_bit cfg s.runqueue_bitcache q = false := by
    intro q hq
    have := (hbits q (lt_trans hq hp)).not.mpr (by simp [hmin q hq])
    simpa using this
  have hnext := get_prio_queue_eq cfg _ p hc hp hset hclear
  have hne : s.runqueue_bitcache ≠ 0 := by
    intro e
    rw [e, runqueue_bit_zero] at hset
    cases hset
  obtain ⟨s1, hs1⟩ : ∃ s1, sched_run cfg s = .ok (h, s1) := by
    unfold sched_run
    simp only [hne, and_false, if_false, hnext, hhead, List.head?_cons]
    by_cases hprev : s.sched_active_thread = some h
    · simp [hprev]
    · simp only [hprev, if_false]
      cases ha : s.sched_active_thread with
      | none => simp
      | some a =>
        have hah : a ≠ h := by
          intro e
          apply hprev
          rw [ha, e]
        dsimp only
        rw [unschedule_ok]
        · exact ⟨_, rfl⟩
        · intro ht
          have := hcanary ht a ha hah
          simpa [State.set_thread, hah] using this
  refine ⟨s1, hs1, (sched_run_frame cfg s s1 h hs1).1, (sched_run_frame cfg s s1 h hs1).2, ?_⟩
  unfold sched_run at hs1
  simp only [hne, and_false, if_false, hnext, hhead, List.head?_cons] at hs1
  by_cases hprev : s.sched_active_thread = some h
  · simp only [hprev, if_true, Except.ok.injEq, Prod.mk.injEq, true_and] at hs1
    subst hs1
    refine ⟨by simp [State.set_thread], by simp [State.set_thread, hprev],
      by simp [State.set_thread], ?_, ?_⟩
    · intro t
      simp only [State.set_thread, sched_runq_callback_threads]
      split_ifs <;> exact ⟨rfl, rfl⟩
    · intro t ht hon
      simpa [State.set_thread, ht] using hon
  · simp only [hprev, if_false] at hs1
    split at hs1
    · simp at hs1
    · rename_i s4 heq
      simp only [Except.ok.injEq, Prod.mk.injEq, true_and] at hs1
      subst hs1
      have h4 : s4 = (sched_runq_callback { s with sched_context_switch_request := 0 }
              (p % 256)).set_thread h (fun t => { t with status := STATUS_RUNNING }) ∨
          ∃ a, a ≠ h ∧ s4 = _unschedule_status
            ((sched_runq_callback { s with sched_context_switch_request := 0 }
              (p % 256)).set_thread h (fun t => { t with status := STATUS_RUNNING })) a := by
        cases ha : s.sched_active_thread with
        | none =>
          rw [ha] at heq
          simp only [Except.ok.injEq] at heq
          exact Or.inl (by rw [← heq])
        | some a =>
          rw [ha] at heq
          dsimp only at heq
          have hah : a ≠ h := by
            intro e
            apply hprev
            rw [ha, e]
          right
          refine ⟨a, hah, ?_⟩
          have := unschedule_result cfg _ _ _ heq
          rw [this]
          simp only [_unschedule_status, ha]
      rcases h4 with h4 | ⟨a, hah, h4⟩
      · subst h4
        refine ⟨by simp [State.set_thread], rfl, by simp [State.set_thread], ?_, ?_⟩
        · intro t
          simp only [State.set_thread, sched_runq_callback_threads]
          split_ifs <;> exact ⟨rfl, rfl⟩
        · intro t ht hon
          simpa [State.set_thread, ht] using hon
      · subst h4
        have hha : ¬ h = a := fun e => hah e.symm
        refine ⟨?_, rfl, ?_, ?_, ?_⟩
        · simp [unschedule_status_mem, State.set_thread]
        · simp [unschedule_status_threads, State.set_thread, hha]
        · intro t
          rw [unschedule_status_threads]
          by_cases hta : t = a
          · subst hta
            split_ifs <;> simp [State.set_thread, hah]
          · simp only [hta, false_and, if_false, State.set_thread, sched_runq_callback_threads]
            split_ifs <;> exact ⟨rfl, rfl⟩
        · intro t ht hon
          rw [unschedule_status_threads]
          by_cases hta : t = a
          · subst hta
            split_ifs
            · show STATUS_ON_RUNQUEUE ≤ STATUS_PENDING
              decide
            · simpa [State.set_thread, ht] using hon
          · simpa [hta, State.set_thread, ht] using hon

/-- In the bottom class, with service left, the quantum callback runs to its end, rotates
run queue `MAX_Q` and leaves every other run queue, the cache, the memory, the active
thread, the priorities and the stack bounds as they were. -/
theorem feedback_cb_bottom_class (cfg : Config) (s : State) (a : Nat)
    (ha : s.sched_active_thread = some a) (hserv : (s.threads a).service_time ≠ 0)
    (hprio : (s.threads a).priority = MAX_Q) :
    ∃ s1, _sched_feedback_cb cfg s = .ok s1 ∧
      s1.sched_runqueues MAX_Q = clist_lpoprpush (s.sched_runqueues MAX_Q) ∧
      (∀ q, q ≠ MAX_Q → s1.sched_runqueues q = s.sched_runqueues q) ∧
      s1.runqueue_bitcache = s.runqueue_bitcache ∧
      s1.mem = s.mem ∧
      s1.sched_active_thread = some a ∧
      (∀ t, (s1.threads t).priority = (s.threads t).priority ∧
        (s1.threads t).stack_start = (s.threads t).stack_start) := by
  unfold _sched_feedback_cb
  dsimp only
  split
  · rename_i hnone
    rw [ha] at hnone
    cases hnone
  rename_i a1 ha1
  have ha1a : a = a1 := by
    rw [ha] at ha1
    exact Option.some.inj ha1
  subst ha1a
  have hth : (if s._current_fb_priority ≠ 0xff then
      ({ s with _current_fb_priority := 0xff } : State) else s).threads = s.threads := by
    split_ifs <;> rfl
  have hrq : (if s._current_fb_priority ≠ 0xff then
      ({ s with _current_fb_priority := 0xff } : State) else s).sched_runqueues
        = s.sched_runqueues := by
    split_ifs <;> rfl
  have hcache : (if s._current_fb_priority ≠ 0xff then
      ({ s with _current_fb_priority := 0xff } : State) else s).runqueue_bitcache
        = s.runqueue_bitcache := by
    split_ifs <;> rfl
  have hmem : (if s._current_fb_priority ≠ 0xff then
      ({ s with _current_fb_priority := 0xff } : State) else s).mem = s.mem := by
    split_ifs <;> rfl
  have hact : (if s._current_fb_priority ≠ 0xff then
      ({ s with _current_fb_priority := 0xff } : State) else s).sched_active_thread
        = some a := by
    split_ifs <;> exact ha
  generalize (if s._current_fb_priority ≠ 0xff then
      ({ s with _current_fb_priority := 0xff } : State) else s) = sa
      at hth hrq hcache hmem hact
  have c2 : ¬ ((s.threads a).priority = s._current_fb_priority ∧ (s.threads a).priority < MAX_Q) :=
    fun hc => absurd hc.2 (by rw [hprio]; exact lt_irrefl _)
  simp only [hth, hserv, if_false, ne_eq, not_false_eq_true, if_true]
  rw [if_neg c2, if_pos hprio]
  refine ⟨_, rfl, ?_, ?_, ?_, ?_, ?_, ?_⟩
  · simp [debit_quantum, State.set_thread, thread_yield_higher, sched_runq_advance,
      State.set_runqueue, hrq]
  · intro q hq
    simp [debit_quantum, State.set_thread, thread_yield_higher, sched_runq_advance,
      State.set_runqueue, hrq, hq]
  · simp [debit_quantum, State.set_thread, thread_yield_higher, sched_runq_advance,
      State.set_runqueue, hcache]
  · simp [debit_quantum, State.set_thread, thread_yield_higher, sched_runq_advance,
      State.set_runqueue, hmem]
  · simpa [debit_quantum, State.set_thread, thread_yield_higher, sched_runq_advance,
      State.set_runqueue] using hact
  · intro t
    simp only [debit_quantum, State.set_thread, thread_yield_higher, sched_runq_advance,
      State.set_runqueue, sched_runq_callback_threads, hth]
    split_ifs <;> exact ⟨rfl, rfl⟩

/-- C21 (amended). Round-robin in the bottom class.  In a state with a 32-bit cache that
matches the run queues, where run queue 3 is `[A, B, ...]` with A of priority 3 RUNNING
and active at its head, no class 0..2 is occupied, `A.service_time > 0` and, when the
stack test is compiled in, the canary of A is intact: after the quantum callback run
queue 3 is rotated by one (B is the head, A the tail, the members are the same), every
other run queue is unchanged, A still has priority 3, and the next `sched_run` returns
B. -/
theorem C21_round_robin_bottom_class (cfg : Config) (s : State) (a b : Nat) (rest : List Nat)
    (hc : s.runqueue_bitcache < 2 ^ 32) (hbits : bits_match cfg s)
    (hq : s.sched_runqueues 3 = a :: b :: rest)
    (hact : s.sched_active_thread = some a) (_hrun : (s.threads a).status = STATUS_RUNNING)
    (hprio : (s.threads a).priority = 3)
    (hlow : ∀ q, q < 3 → s.sched_runqueues q = [])
    (hserv : 0 < (s.threads a).service_time)
    (hcanary : cfg.SCHED_TEST_STACK = true →
      s.mem (s.threads a).stack_start = (s.threads a).stack_start) :
    ∃ s1, _sched_feedback_cb cfg s = .ok s1 ∧
      s1.sched_runqueues 3 = b :: rest ++ [a] ∧
      (∀ t, t ∈ s1.sched_runqueues 3 ↔ t ∈ s.sched_runqueues 3) ∧
      (∀ q, q ≠ 3 → s1.sched_runqueues q = s.sched_runqueues q) ∧
      (s1.threads a).priority = 3 ∧
      ∃ s2, sched_run cfg s1 = .ok (b, s2) := by
  obtain ⟨s1, hs1, hrq3, hrq, hcache, hmem, hact1, hth⟩ :=
    feedback_cb_bottom_class cfg s a hact (by omega) hprio
  have hrq3b : s1.sched_runqueues 3 = b :: rest ++ [a] := by
    have : s1.sched_runqueues 3 = clist_lpoprpush (s.sched_runqueues 3) := hrq3
    rw [this, hq]
    rfl
  have hbits1 : bits_match cfg s1 := by
    intro q hq32
    rw [hcache]
    by_cases hq3 : q = 3
    · subst hq3
      rw [hrq3b, hbits 3 hq32, hq]
      simp
    · rw [hrq q hq3]
      exact hbits q hq32
  refine ⟨s1, hs1, hrq3b, ?_, fun q hq3 => hrq q hq3, ?_, ?_⟩
  · intro t
    rw [hrq3b, hq]
    simp only [List.mem_cons, List.mem_append, List.mem_singleton, List.cons_append]
    tauto
  · rw [(hth a).1, hprio]
  · obtain ⟨s2, hs2, _⟩ := sched_run_returns_head cfg s1 3 b (rest ++ [a])
      (by rw [hcache]; exact hc) hbits1 (by decide) hrq3b
      (fun q hq3 => by rw [hrq q (Nat.ne_of_lt hq3)]; exact hlow q hq3)
      (fun ht x hx _ => by
        rw [hact1] at hx
        have hxa : x = a := (Option.some.inj hx).symm
        subst hxa
        rw [hmem, (hth x).2]
        exact hcanary ht)
    exact ⟨s2, hs2⟩

/-! ## First in, first out within a class -/

theorem sched_set_status_bitcache_lt (cfg : Config) (s : State) (t st : Nat)
    (hc : s.runqueue_bitcache < 2 ^ 32) :
    (sched_set_status cfg s t st).runqueue_bitcache < 2 ^ 32 := by
  rw [sched_set_status_bitcache]
  split_ifs
  · exact hc
  · rw [runqueue_push_bitcache]; exact set_runqueue_bit_lt cfg _ _
  · rw [runqueue_pop_bitcache]
    split_ifs
    · exact clear_runqueue_bit_lt cfg _ _
    · exact hc
  · exact hc

/-- Making a thread that is off the run queues PENDING appends it to the run queue of its
priority and writes nothing but its status. -/
theorem sched_set_status_pending (cfg : Config) (s : State) (t : Nat)
    (hoff : (s.threads t).status < STATUS_ON_RUNQUEUE) :
    (sched_set_status cfg s t STATUS_PENDING).sched_runqueues
      = (fun q => if q = (s.threads t).priority then s.sched_runqueues q ++ [t]
                  else s.sched_runqueues q) := by
  have h1 : STATUS_ON_RUNQUEUE ≤ STATUS_PENDING := by decide
  have h2 : ¬ STATUS_ON_RUNQUEUE ≤ (s.threads t).status := by omega
  rw [sched_set_status_runqueues, if_pos h1, if_neg h2, runqueue_push_runqueues]
  funext q
  by_cases hq : q = (s.threads t).priority
  · subst hq; simp
  · simp [hq]

/-- What `make_pending` does to distinct threads of priority `p` that are off the run
queues: they are appended to run queue `p` in order and become PENDING; the other run
queues, the memory, the active thread, the priorities, the stack bounds and the status of
every other thread stay as they were; the cache still matches and still has 32 bits. -/
theorem make_pending_spec (cfg : Config) (p : Nat) : ∀ (ts : List Nat) (s : State),
    ts.Nodup →
    (∀ t ∈ ts, (s.threads t).status < STATUS_ON_RUNQUEUE ∧ (s.threads t).priority = p) →
    (make_pending cfg s ts).sched_runqueues p = s.sched_runqueues p ++ ts ∧
    (∀ q, q ≠ p → (make_pending cfg s ts).sched_runqueues q = s.sched_runqueues q) ∧
    (make_pending cfg s ts).mem = s.mem ∧
    (make_pending cfg s ts).sched_active_thread = s.sched_active_thread ∧
    (∀ t, ((make_pending cfg s ts).threads t).priority = (s.threads t).priority ∧
      ((make_pending cfg s ts).threads t).stack_start = (s.threads t).stack_start) ∧
    (∀ t ∈ ts, ((make_pending cfg s ts).threads t).status = STATUS_PENDING) ∧
    (∀ t, t ∉ ts → ((make_pending cfg s ts).threads t).status = (s.threads t).status) ∧
    (bits_match cfg s → bits_match cfg (make_pending cfg s ts)) ∧
    (s.runqueue_bitcache < 2 ^ 32 → (make_pending cfg s ts).runqueue_bitcache < 2 ^ 32) := by
  intro ts
  induction ts with
  | nil =>
    intro s _ _
    simp [make_pending]
  | cons t ts ih =>
    intro s hnd hoff
    have ht := hoff t (List.mem_cons_self t ts)
    have hnd2 := (List.nodup_cons.mp hnd)
    have hth : ∀ u, ((sched_set_status cfg s t STATUS_PENDING).threads u).priority
          = (s.threads u).priority ∧
        ((sched_set_status cfg s t STATUS_PENDING).threads u).stack_start
          = (s.threads u).stack_start := by
      intro u
      rw [sched_set_status_threads]
      dsimp only
      split_ifs <;> exact ⟨rfl, rfl⟩
    have hoff2 : ∀ u ∈ ts,
        ((sched_set_status cfg s t STATUS_PENDING).threads u).status < STATUS_ON_RUNQUEUE ∧
        ((sched_set_status cfg s t STATUS_PENDING).threads u).priority = p := by
      intro u hu
      have hut : u ≠ t := fun e => hnd2.1 (e ▸ hu)
      refine ⟨?_, by rw [(hth u).1]; exact (hoff u (List.mem_cons_of_mem t hu)).2⟩
      rw [sched_set_status_threads]
      simp only [hut, if_false]
      exact (hoff u (List.mem_cons_of_mem t hu)).1
    obtain ⟨i1, i2, i3, i4, i5, i6, i9, i7, i8⟩ :=
      ih (sched_set_status cfg s t STATUS_PENDING) hnd2.2 hoff2
    have hrq := sched_set_status_pending cfg s t ht.1
    rw [ht.2] at hrq
    have hmp : make_pending cfg s (t :: ts)
        = make_pending cfg (sched_set_status cfg s t STATUS_PENDING) ts := rfl
    rw [hmp]
    refine ⟨?_, ?_, ?_, ?_, ?_, ?_, ?_, ?_, ?_⟩
    · rw [i1, hrq]
      simp
    · intro q hq
      rw [i2 q hq, hrq]
      simp [hq]
    · rw [i3]
      simp
    · rw [i4]
      simp
    · intro u
      rw [(i5 u).1, (i5 u).2]
      exact hth u
    · intro u hu
      rcases List.mem_cons.mp hu with rfl | hu2
      · rw [i9 u hnd2.1, sched_set_status_threads]
        simp
      · exact i6 u hu2
    · intro u hu
      have hu1 : u ≠ t := fun e => hu (e ▸ List.mem_cons_self t ts)
      have hu2 : u ∉ ts := fun e => hu (List.mem_cons_of_mem t e)
      rw [i9 u hu2, sched_set_status_threads]
      simp [hu1]
    · intro hb
      exact i7 (bits_match_set_status cfg s t _ hb)
    · intro hc
      exact i8 (sched_set_status_bitcache_lt cfg s t _ hc)

/-- Draining a run queue: when run queue `p` is the list `l` of distinct queued threads of
priority `p`, no lower-numbered run queue is occupied and the stack words that
`_unschedule` tests are intact, `l.length` rounds of `sched_run` followed by
`sched_set_status(returned, STOPPED)` return the threads of `l` in order. -/
theorem run_and_stop_spec (cfg : Config) (p : Nat) (hp : p < 32) : ∀ (l : List Nat) (s : State),
    l.Nodup →
    s.sched_runqueues p = l →
    (∀ q, q < p → s.sched_runqueues q = []) →
    bits_match cfg s →
    s.runqueue_bitcache < 2 ^ 32 →
    (∀ t ∈ l, STATUS_ON_RUNQUEUE ≤ (s.threads t).status ∧ (s.threads t).priority = p) →
    (cfg.SCHED_TEST_STACK = true →
      (∀ a, s.sched_active_thread = some a →
        s.mem (s.threads a).stack_start = (s.threads a).stack_start) ∧
      (∀ t ∈ l, s.mem (s.threads t).stack_start = (s.threads t).stack_start)) →
    ∃ s1, run_and_stop cfg l.length s = .ok (l, s1) := by
  intro l
  induction l with
  | nil =>
    intro s _ _ _ _ _ _ _
    exact ⟨s, rfl⟩
  | cons h rest ih =>
    intro s hnd hrq hmin hbits hc hthr hcan
    have hnd2 := List.nodup_cons.mp hnd
    obtain ⟨s1, hrun, r1, r2, r3, r4, r5, r6, r7⟩ :=
      sched_run_returns_head cfg s p h rest hc hbits hp hrq hmin
        (fun ht a ha _ => (hcan ht).1 a ha)
    have hb1 : bits_match cfg s1 := bits_match_of_eq cfg s s1 r1 r2 hbits
    have hc1 : s1.runqueue_bitcache < 2 ^ 32 := by rw [r2]; exact hc
    have hh := hthr h (List.mem_cons_self h rest)
    have hst : STATUS_ON_RUNQUEUE ≤ (s1.threads h).status := by rw [r5]
    have hnot : ¬ STATUS_ON_RUNQUEUE ≤ STATUS_STOPPED := by decide
    have hrq2 : (sched_set_status cfg s1 h STATUS_STOPPED).sched_runqueues
        = fun q => if q = p then (s.sched_runqueues q).tail else s.sched_runqueues q := by
      rw [sched_set_status_runqueues, if_neg hnot, if_pos hst, runqueue_pop_runqueues,
        (r6 h).1, hh.2, r1]
    have hth2 : ∀ u, u ≠ h →
        (sched_set_status cfg s1 h STATUS_STOPPED).threads u = s1.threads u := by
      intro u hu
      rw [sched_set_status_threads]
      simp [hu]
    have hps : ∀ u, ((sched_set_status cfg s1 h STATUS_STOPPED).threads u).priority
          = (s.threads u).priority ∧
        ((sched_set_status cfg s1 h STATUS_STOPPED).threads u).stack_start
          = (s.threads u).stack_start := by
      intro u
      rw [← (r6 u).1, ← (r6 u).2, sched_set_status_threads]
      dsimp only
      split_ifs <;> exact ⟨rfl, rfl⟩
    obtain ⟨s2, hs2⟩ := ih (sched_set_status cfg s1 h STATUS_STOPPED) hnd2.2
      (by rw [hrq2]; simp [hrq])
      (by
        intro q hq
        rw [hrq2]
        simp only [Nat.ne_of_lt hq, if_false]
        exact hmin q hq)
      (bits_match_set_status cfg s1 h _ hb1)
      (sched_set_status_bitcache_lt cfg s1 h _ hc1)
      (by
        intro u hu
        have huh : u ≠ h := fun e => hnd2.1 (e ▸ hu)
        have hu0 := hthr u (List.mem_cons_of_mem h hu)
        refine ⟨?_, by rw [(hps u).1]; exact hu0.2⟩
        rw [hth2 u huh]
        exact r7 u huh hu0.1)
      (by
        intro ht
        refine ⟨?_, ?_⟩
        · intro a ha
          rw [sched_set_status_sched_active_thread, r4] at ha
          have hah : a = h := (Option.some.inj ha).symm
          subst hah
          rw [sched_set_status_mem, r3, (hps a).2]
          exact (hcan ht).2 a (List.mem_cons_self a rest)
        · intro u hu
          rw [sched_set_status_mem, r3, (hps u).2]
          exact (hcan ht).2 u (List.mem_cons_of_mem h hu))
    refine ⟨s2, ?_⟩
    show run_and_stop cfg (rest.length + 1) s = _
    simp only [run_and_stop, hrun, hs2]

/-- C24 (amended).  Within one priority class selection is first in, first out.  Let the
cache match the run queues and have 32 bits, let `ts` be distinct threads of priority
`p < SCHED_PRIO_LEVELS` that are off the run queues, let run queue `p` be empty and no
lower-numbered run queue be occupied, and, when the stack test is compiled in, let the
stack word of the active thread and of every thread of `ts` be intact.  After the
threads are made PENDING in the order of `ts`, `ts.length` rounds of `sched_run` followed
by `sched_set_status(returned, STOPPED)` all return, and they return the threads of `ts`
in exactly that order. -/
theorem C24_strict_fifo_within_class (cfg : Config) (s : State) (p : Nat) (ts : List Nat)
    (hc : s.runqueue_bitcache < 2 ^ 32) (hbits : bits_match cfg s)
    (hp : p < SCHED_PRIO_LEVELS) (hnd : ts.Nodup)
    (hoff : ∀ t ∈ ts, (s.threads t).status < STATUS_ON_RUNQUEUE ∧ (s.threads t).priority = p)
    (hempty : s.sched_runqueues p = [])
    (hmin : ∀ q, q < p → s.sched_runqueues q = [])
    (hcanary : cfg.SCHED_TEST_STACK = true →
      (∀ a, s.sched_active_thread = some a →
        s.mem (s.threads a).stack_start = (s.threads a).stack_start) ∧
      (∀ t ∈ ts, s.mem (s.threads t).stack_start = (s.threads t).stack_start)) :
    ∃ s1, run_and_stop cfg ts.length (make_pending cfg s ts) = .ok (ts, s1) := by
  obtain ⟨m1, m2, m3, m4, m5, m6, _, m7, m8⟩ := make_pending_spec cfg p ts s hnd hoff
  have hp32 : p < 32 := Nat.lt_of_lt_of_le hp (by decide)
  refine run_and_stop_spec cfg p hp32 ts (make_pending cfg s ts) hnd ?_ ?_ (m7 hbits) (m8 hc)
    ?_ ?_
  · rw [m1, hempty]; rfl
  · intro q hq
    rw [m2 q (Nat.ne_of_lt hq)]
    exact hmin q hq
  · intro t ht
    refine ⟨?_, by rw [(m5 t).1]; exact (hoff t ht).2⟩
    rw [m6 t ht]
    decide
  · intro htest
    refine ⟨?_, ?_⟩
    · intro a ha
      rw [m4] at ha
      rw [m3, (m5 a).2]
      exact (hcanary htest).1 a ha
    · intro t ht
      rw [m3, (m5 t).2]
      exact (hcanary htest).2 t ht

/-! ## Scenarios of the later claims -/

/-- C21, witness: scenario S5.  A and B of priority 3 share run queue 3, A is RUNNING and
active with a budget left; the quantum callback rotates the queue to `[B, A]`, A keeps
priority 3 and the next `sched_run` returns B. -/
theorem C21_round_robin_bottom_class_witness :
    ∃ s1, _sched_feedback_cb cfg_lsb (round_robin_pair cfg_lsb) = .ok s1 ∧
      s1.sched_runqueues 3 = [1, 0] ∧ (s1.threads 0).priority = 3 ∧
      ∃ s2, sched_run cfg_lsb s1 = .ok (1, s2) :=
  (C21_round_robin_bottom_class cfg_lsb (round_robin_pair cfg_lsb) 0 1 [] (by decide)
    (by unfold bits_match; decide) (by decide) rfl (by decide) (by decide) (by decide)
    (by decide) (fun _ => by decide)).elim
    fun s1 h => ⟨s1, h.1, h.2.1, h.2.2.2.2.1, h.2.2.2.2.2⟩

/-- C21, counterexample to the claim as stated: the state of scenario S5 in which A has
overflowed its stack.  Every condition of the claim holds and the cache matches the run
queues; the quantum callback rotates run queue 3 to `[B, A]`, but the next `sched_run`
does not return B: `_unschedule` of the outgoing thread A panics. -/
theorem C21_counterexample_stack_overflow :
    bits_match cfg_lsb (stack_smashed (round_robin_pair cfg_lsb) 0) ∧
    (stack_smashed (round_robin_pair cfg_lsb) 0).sched_runqueues 3 = [0, 1] ∧
    (stack_smashed (round_robin_pair cfg_lsb) 0).sched_active_thread = some 0 ∧
    ((stack_smashed (round_robin_pair cfg_lsb) 0).threads 0).status = STATUS_RUNNING ∧
    (∀ q, q < 3 → (stack_smashed (round_robin_pair cfg_lsb) 0).sched_runqueues q = []) ∧
    0 < ((stack_smashed (round_robin_pair cfg_lsb) 0).threads 0).service_time ∧
    ∃ s1, _sched_feedback_cb cfg_lsb (stack_smashed (round_robin_pair cfg_lsb) 0) = .ok s1 ∧
      s1.sched_runqueues 3 = [1, 0] ∧
      sched_run cfg_lsb s1 = .error .core_panic_stack_overflow :=
  ⟨by unfold bits_match; decide, by decide, rfl, by decide, by decide, by decide,
    _, rfl, by decide, rfl⟩

/-- C22, failing input.  A (priority 1) is the only runnable thread, RUNNING and active
with the controller armed on class 1; A exits through `sched_task_exit`, which leaves no
thread active; the quantum callback that fires next reads `active_thread->priority`
before it tests the pointer. -/
theorem C22_failing_input_null_active_thread :
    ∃ s1, sched_task_exit cfg_lsb (single_running cfg_lsb 1 1000000 1) = .ok s1 ∧
      s1.sched_active_thread = none ∧
      _sched_feedback_cb cfg_lsb s1 = .error .null_deref :=
  ⟨_, rfl, rfl, rfl⟩

/-- C23, failing input.  A (priority 1, budget three quanta) is the only runnable thread,
RUNNING and active with the controller armed on class 1.  The first quantum callback
demotes A to priority 2 and leaves the controller observing class 1; `sched_run` selects A
again; the second quantum callback finds `active_priority = 2` and `prio = 1` and does not
demote: A has priority 2, not 3, and a budget left. -/
theorem C23_failing_input_second_expiry :
    (single_running cfg_lsb 1 1500000 1).sched_runqueues 1 = [0] ∧
    (∀ q, q < SCHED_PRIO_LEVELS → q ≠ 1 →
      (single_running cfg_lsb 1 1500000 1).sched_runqueues q = []) ∧
    (single_running cfg_lsb 1 1500000 1).sched_active_thread = some 0 ∧
    ((single_running cfg_lsb 1 1500000 1).threads 0).priority = 1 ∧
    (single_running cfg_lsb 1 1500000 1)._current_fb_priority = 1 ∧
    3 * 500000 ≤ ((single_running cfg_lsb 1 1500000 1).threads 0).service_time ∧
    ∃ s1 s2 s3, _sched_feedback_cb cfg_lsb (single_running cfg_lsb 1 1500000 1) = .ok s1 ∧
      (s1.threads 0).priority = 2 ∧ s1._current_fb_priority = 1 ∧
      sched_run cfg_lsb s1 = .ok (0, s2) ∧
      _sched_feedback_cb cfg_lsb s2 = .ok s3 ∧
      (s3.threads 0).priority = 2 ∧ (s3.threads 0).service_time = 500000 :=
  ⟨by decide, by decide, rfl, by decide, by decide, by decide,
    _, _, _, rfl, by decide, by decide, rfl, rfl, by decide, by decide⟩

/-- C24, witness: three threads of priority 1 are made PENDING in the order 0, 1, 2 and
are returned in that order. -/
theorem C24_strict_fifo_within_class_witness :
    ∃ s1, run_and_stop cfg_lsb 3 (make_pending cfg_lsb three_created [0, 1, 2])
      = .ok ([0, 1, 2], s1) :=
  C24_strict_fifo_within_class cfg_lsb three_created 1 [0, 1, 2] (by decide)
    (by unfold bits_match; decide) (by decide) (by decide) (by decide) rfl (by decide)
    (fun _ => ⟨fun a ha => (nomatch ha), by decide⟩)

/-- C24, counterexample to the claim as stated: A (priority 2) is RUNNING and active and
has overflowed its stack; B (priority 1) is off the run queues, run queue 1 is empty and
run queue 0 is not occupied.  B is made PENDING, and the first `sched_run` does not return
B: `_unschedule` of the outgoing thread A panics. -/
theorem C24_counterexample_stack_overflow :
    bits_match cfg_lsb overflowed_running ∧
    (overflowed_running.threads 1).status < STATUS_ON_RUNQUEUE ∧
    (overflowed_running.threads 1).priority = 1 ∧
    overflowed_running.sched_runqueues 1 = [] ∧
    (∀ q, q < 1 → overflowed_running.sched_runqueues q = []) ∧
    run_and_stop cfg_lsb 1 (make_pending cfg_lsb overflowed_running [1])
      = .error .core_panic_stack_overflow :=
  ⟨by unfold bits_match; decide, by decide, by decide, by decide, by decide, rfl⟩

/-- C25, witness: A is RUNNING with its stack word intact; `_unschedule(A)` does not
panic, returns, and A is PENDING. -/
theorem C25_unschedule_stack_test_witness :
    _unschedule cfg_lsb (running_and_pending cfg_lsb) 0 ≠ .error .core_panic_stack_overflow ∧
    _unschedule cfg_lsb (running_and_pending cfg_lsb) 0
      = .ok (_unschedule_status (running_and_pending cfg_lsb) 0) ∧
    ((_unschedule_status (running_and_pending cfg_lsb) 0).threads 0).status = STATUS_PENDING :=
  have h := C25_unschedule_stack_test cfg_lsb (running_and_pending cfg_lsb) 0 rfl
  ⟨fun e => h.1.mp e (by decide), h.2.1 (by decide), h.2.2.1 (by decide)⟩

/-- C26, witness: A (priority 1, budget left) is active with the controller armed on class
1; the quantum callback returns and A has priority 2. -/
theorem C26_quantum_demotion_witness :
    ∃ s1, _sched_feedback_cb cfg_lsb (single_running cfg_lsb 1 1500000 1) = .ok s1 ∧
      (s1.threads 0).priority = 1 + 1 :=
  (C26_quantum_demotion cfg_lsb (single_running cfg_lsb 1 1500000 1) 0 rfl).elim
    fun s1 h => ⟨s1, h.1, h.2.1 ⟨by decide, by decide, by decide⟩⟩

/-- C28, witness: A has a budget of two quanta and is the active thread at two consecutive
quantum expiries; its service time is then 0. -/
theorem C28_multiples_drain_exactly_witness :
    ∃ s1, Expiries cfg_lsb 0 2 (single_running cfg_lsb 1 1000000 1) s1 ∧
      (s1.threads 0).service_time = 0 :=
  have hexp : Expiries cfg_lsb 0 2 (single_running cfg_lsb 1 1000000 1) _ :=
    Expiries.expiry 1 _ _ _ (Expiries.expiry 0 _ _ _ (Expiries.start _) rfl rfl) rfl rfl
  ⟨_, hexp, (C28_multiples_drain_exactly cfg_lsb 0 2 (by decide) _ _ 2 hexp rfl
    (by decide)).2.1 rfl⟩

/-- C27, failing input.  The main thread A (priority 7) is RUNNING and active, alone at the
head of run queue 7.  `sched_feedback_init` gives A priority 1, but the pop nested in
`sched_change_priority` empties run queue 7 and calls `sched_runq_callback(7)` while the
controller is idle: the controller is armed on class 7, and the final
`sched_runq_callback(1)` changes nothing. -/
theorem C27_failing_input_armed_on_old_class :
    (main_thread_running cfg_lsb).sched_active_thread = some 0 ∧
    ((main_thread_running cfg_lsb).threads 0).priority = 7 ∧
    (main_thread_running cfg_lsb).sched_runqueues 7 = [0] ∧
    ∃ s1, sched_feedback_init cfg_lsb (main_thread_running cfg_lsb) = .ok s1 ∧
      (s1.threads 0).priority = 1 ∧ s1._current_fb_priority = 7 ∧
      s1.fb_timer = some 500000 ∧ s1.runq_cb_log = [1, 7] :=
  ⟨rfl, by decide, by decide, _, rfl, by decide, by decide, by decide, by decide⟩

/-! ## Linked run queues -/

theorem links_to_congr (next next2 : Nat → Nat) : ∀ (l : List Nat) (b : Nat),
    (∀ x ∈ l, next2 x = next x) → (links_to next2 l b ↔ links_to next l b) := by
  intro l
  induction l with
  | nil => intro b _; simp [links_to]
  | cons x xs ih =>
    intro b h
    simp only [links_to]
    rw [h x (List.mem_cons_self x xs), ih b (fun y hy => h y (List.mem_cons_of_mem x hy))]

theorem links_to_append (next : Nat → Nat) : ∀ (l1 : List Nat) (y : Nat) (l2 : List Nat)
    (b : Nat), links_to next (l1 ++ y :: l2) b ↔ links_to next l1 y ∧ links_to next (y :: l2) b := by
  intro l1
  induction l1 with
  | nil => intro y l2 b; simp [links_to]
  | cons x xs ih =>
    intro y l2 b
    have hh : (xs ++ y :: l2).headD b = xs.headD y := by cases xs <;> rfl
    show (next x = (xs ++ y :: l2).headD b ∧ links_to next (xs ++ y :: l2) b) ↔
      (next x = xs.headD y ∧ links_to next xs y) ∧ links_to next (y :: l2) b
    rw [hh, ih y l2 b, and_assoc]

theorem eq_nil_or_snoc (l : List Nat) : l = [] ∨ ∃ init last, l = init ++ [last] := by
  rcases List.eq_nil_or_concat l with h | ⟨i, b, h⟩
  · exact Or.inl h
  · exact Or.inr ⟨i, b, by rw [h, List.concat_eq_append]⟩

theorem getLast_snoc (init : List Nat) (last : Nat) :
    (init ++ [last]).getLast? = some last := by
  rw [List.getLast?_append]; simp

/-- After `clist_rpush` of a node that is not in the FIFO, the FIFO is the old list with
the node appended. -/
theorem clist_rpush_is_fifo (L : Links) (p t : Nat) (l : List Nat)
    (h : L.is_fifo p l) (ht : t ∉ l) : (L.clist_rpush p t).is_fifo p (l ++ [t]) := by
  obtain ⟨h1, h2, h3⟩ := h
  rcases eq_nil_or_snoc l with rfl | ⟨init, last, rfl⟩
  · simp only [List.getLast?_nil] at h1
    unfold Links.clist_rpush Links.is_fifo
    simp [h1, links_to]
  · rw [getLast_snoc] at h1
    have hhead : (init ++ [last]).headD 0 = init.headD last := by cases init <;> rfl
    rw [hhead, links_to_append] at h3
    have hnd := List.nodup_append.mp h2
    have hlast : ∀ x ∈ init, x ≠ last := fun x hx e =>
      hnd.2.2 hx (List.mem_singleton.mpr e)
    have htl : t ≠ last := fun e => ht (e ▸ List.mem_append_right _ (List.mem_singleton_self _))
    have hti : ∀ x ∈ init, x ≠ t := fun x hx e => ht (e ▸ List.mem_append_left _ hx)
    unfold Links.clist_rpush Links.is_fifo
    simp only [h1]
    refine ⟨by simp, ?_, ?_⟩
    · exact List.nodup_append.mpr ⟨h2, List.nodup_singleton t, by
        intro a ha hb
        exact ht (List.mem_singleton.mp hb ▸ ha)⟩
    · have hhead2 : (init ++ [last] ++ [t]).headD 0 = init.headD last := by cases init <;> rfl
      rw [hhead2, List.append_assoc, List.singleton_append, links_to_append]
      refine ⟨?_, ?_⟩
      · refine (links_to_congr L.rq_entry _ init last ?_).mpr h3.1
        intro x hx
        simp [hlast x hx, hti x hx]
      · simp only [links_to, List.headD_cons, List.headD_nil, and_true]
        refine ⟨by simp, ?_⟩
        simp only [htl, if_false, if_true]
        exact h3.2.1

/-- After `clist_lpop` the FIFO is the old list without its head. -/
theorem clist_lpop_is_fifo (L : Links) (p : Nat) (l : List Nat)
    (h : L.is_fifo p l) : (L.clist_lpop p).is_fifo p l.tail := by
  obtain ⟨h1, h2, h3⟩ := h
  cases l with
  | nil =>
    simp only [List.getLast?_nil] at h1
    unfold Links.clist_lpop
    simp only [h1]
    exact ⟨h1, List.nodup_nil, trivial⟩
  | cons a r =>
    rcases eq_nil_or_snoc r with rfl | ⟨init, last, rfl⟩
    · simp only [List.getLast?_singleton] at h1
      simp only [links_to, List.headD_cons, List.headD_nil, and_true] at h3
      unfold Links.clist_lpop Links.is_fifo
      simp [h1, h3, links_to]
    · have hl : (a :: (init ++ [last])).getLast? = some last :=
        getLast_snoc (a :: init) last
      rw [hl] at h1
      have hnd := List.nodup_cons.mp h2
      have hla : last ≠ a := fun e =>
        hnd.1 (e ▸ List.mem_append_right _ (List.mem_singleton_self _))
      have hnd2 := List.nodup_append.mp hnd.2
      have hlast : ∀ x ∈ init, x ≠ last := fun x hx e =>
        hnd2.2.2 hx (List.mem_singleton.mpr e)
      have hhead : (init ++ [last]).headD a = init.headD last := by cases init <;> rfl
      simp only [links_to, List.headD_cons, hhead] at h3
      rw [links_to_append] at h3
      simp only [links_to, List.headD_nil, and_true] at h3
      obtain ⟨ha, hinit, hclose⟩ := h3
      unfold Links.clist_lpop Links.is_fifo
      simp only [h1, hclose, hla, if_false, List.tail_cons]
      have hl2 : (init ++ [last]).getLast? = some last := getLast_snoc init last
      refine ⟨by rw [hl2], hnd.2, ?_⟩
      have hhead2 : (init ++ [last]).headD 0 = init.headD last := by cases init <;> rfl
      rw [hhead2, links_to_append]
      refine ⟨?_, ?_⟩
      · refine (links_to_congr L.rq_entry _ init last ?_).mpr hinit
        intro x hx
        simp [hlast x hx]
      · simp only [links_to, List.headD_nil, and_true, if_true]
        exact ha

/-- A FIFO whose nodes are not written stays what it was. -/
theorem is_fifo_frame (L L2 : Links) (q : Nat) (l : List Nat)
    (hq : L2.runqueue q = L.runqueue q) (hl : ∀ x ∈ l, L2.rq_entry x = L.rq_entry x)
    (h : L.is_fifo q l) : L2.is_fifo q l :=
  ⟨hq.trans h.1, h.2.1, (links_to_congr L.rq_entry L2.rq_entry l _ hl).mpr h.2.2⟩

/-- The head of a FIFO is the node the last node is linked to. -/
theorem is_fifo_last (L : Links) (p : Nat) (l : List Nat) (h : L.is_fifo p l) (hne : l ≠ []) :
    ∃ last, L.runqueue p = some last ∧ last ∈ l ∧ L.rq_entry last = l.headD 0 := by
  obtain ⟨h1, _, h3⟩ := h
  rcases eq_nil_or_snoc l with rfl | ⟨init, last, rfl⟩
  · exact absurd rfl hne
  · have hl : (init ++ [last]).getLast? = some last := getLast_snoc init last
    have hhead : (init ++ [last]).headD 0 = init.headD last := by cases init <;> rfl
    rw [hhead, links_to_append] at h3
    refine ⟨last, h1.trans hl, List.mem_append_right _ (List.mem_singleton_self _), ?_⟩
    rw [hhead]
    exact h3.2.1

/-- `clist_rpush` writes the link of the new node and of the last node of the list. -/
theorem clist_rpush_frame (L : Links) (p t q : Nat) (l l2 : List Nat)
    (hp : L.is_fifo p l) (hqp : q ≠ p) (h : L.is_fifo q l2)
    (hdis : ∀ x ∈ l2, x ≠ t ∧ x ∉ l) : (L.clist_rpush p t).is_fifo q l2 := by
  refine is_fifo_frame L _ q l2 ?_ ?_ h
  · unfold Links.clist_rpush
    cases L.runqueue p <;> simp [hqp]
  · intro x hx
    unfold Links.clist_rpush
    cases hr : L.runqueue p with
    | none => simp [(hdis x hx).1]
    | some last =>
      have hne : l ≠ [] := by
        intro e; subst e
        rw [hp.1] at hr
        exact absurd hr (by simp)
      obtain ⟨last2, e1, e2, _⟩ := is_fifo_last L p l hp hne
      have : last2 = last := Option.some.inj (e1.symm.trans hr)
      subst this
      have hxl : x ≠ last2 := fun e => (hdis x hx).2 (e ▸ e2)
      simp [(hdis x hx).1, hxl]

/-- `clist_lpop` writes the link of the last node of the list. -/
theorem clist_lpop_frame (L : Links) (p q : Nat) (l l2 : List Nat)
    (hp : L.is_fifo p l) (hqp : q ≠ p) (h : L.is_fifo q l2)
    (hdis : ∀ x ∈ l2, x ∉ l) : (L.clist_lpop p).is_fifo q l2 := by
  refine is_fifo_frame L _ q l2 ?_ ?_ h
  · unfold Links.clist_lpop
    cases L.runqueue p with
    | none => rfl
    | some last =>
      dsimp only
      split_ifs <;> simp [hqp]
  · intro x hx
    unfold Links.clist_lpop
    cases hr : L.runqueue p with
    | none => rfl
    | some last =>
      have hne : l ≠ [] := by
        intro e; subst e
        rw [hp.1] at hr
        exact absurd hr (by simp)
      obtain ⟨last2, e1, e2, _⟩ := is_fifo_last L p l hp hne
      have : last2 = last := Option.some.inj (e1.symm.trans hr)
      subst this
      have hxl : x ≠ last2 := fun e => hdis x hx (e ▸ e2)
      dsimp only
      split_ifs <;> simp [hxl]

/-! ## The run queue operations on linked run queues -/

theorem linked_push_links (cfg : Config) (s : LinkedState) (t p : Nat) :
    (Linked._runqueue_push cfg s t p).links = s.links.clist_rpush p t := by
  unfold Linked._runqueue_push; dsimp only
  cases s.globals.sched_active_thread with
  | none => rfl
  | some a => dsimp only; split_ifs <;> rfl

theorem linked_push_threads (cfg : Config) (s : LinkedState) (t p : Nat) :
    (Linked._runqueue_push cfg s t p).globals.threads = s.globals.threads := by
  unfold Linked._runqueue_push; dsimp only
  cases s.globals.sched_active_thread with
  | none => rfl
  | some a => dsimp only; split_ifs <;> simp

theorem linked_push_bitcache (cfg : Config) (s : LinkedState) (t p : Nat) :
    (Linked._runqueue_push cfg s t p).globals.runqueue_bitcache
      = _set_runqueue_bit cfg s.globals.runqueue_bitcache p := by
  unfold Linked._runqueue_push; dsimp only
  cases s.globals.sched_active_thread with
  | none => rfl
  | some a => dsimp only; split_ifs <;> simp

theorem linked_push_log (cfg : Config) (s : LinkedState) (t p : Nat) :
    (Linked._runqueue_push cfg s t p).globals.runq_cb_log
      = match s.globals.sched_active_thread with
        | some a =>
          if (s.globals.threads a).priority = p then p :: s.globals.runq_cb_log
          else s.globals.runq_cb_log
        | none => s.globals.runq_cb_log := by
  unfold Linked._runqueue_push; dsimp only
  cases h : s.globals.sched_active_thread with
  | none => rfl
  | some a => dsimp only; split_ifs <;> simp [sched_runq_callback_log]

theorem linked_pop_links (cfg : Config) (s : LinkedState) (t : Nat) :
    (Linked._runqueue_pop cfg s t).links
      = s.links.clist_lpop (s.globals.threads t).priority := by
  unfold Linked._runqueue_pop; dsimp only; split_ifs <;> rfl

theorem linked_pop_threads (cfg : Config) (s : LinkedState) (t : Nat) :
    (Linked._runqueue_pop cfg s t).globals.threads = s.globals.threads := by
  unfold Linked._runqueue_pop; dsimp only; split_ifs <;> simp

theorem linked_pop_bitcache (cfg : Config) (s : LinkedState) (t : Nat) :
    (Linked._runqueue_pop cfg s t).globals.runqueue_bitcache
      = if (s.links.clist_lpop (s.globals.threads t).priority).runqueue
            (s.globals.threads t).priority = none then
          _clear_runqueue_bit cfg s.globals.runqueue_bitcache (s.globals.threads t).priority
        else s.globals.runqueue_bitcache := by
  unfold Linked._runqueue_pop; dsimp only; split_ifs <;> simp

theorem linked_pop_log (cfg : Config) (s : LinkedState) (t : Nat) :
    (Linked._runqueue_pop cfg s t).globals.runq_cb_log
      = if (s.links.clist_lpop (s.globals.threads t).priority).runqueue
            (s.globals.threads t).priority = none then
          (s.globals.threads t).priority :: s.globals.runq_cb_log
        else s.globals.runq_cb_log := by
  unfold Linked._runqueue_pop; dsimp only; split_ifs <;> simp [sched_runq_callback_log]

theorem linked_set_status_threads (cfg : Config) (s : LinkedState) (t st : Nat) :
    (Linked.sched_set_status cfg s t st).globals.threads
      = fun i => if i = t then { s.globals.threads i with status := st }
                 else s.globals.threads i := by
  unfold Linked.sched_set_status; dsimp only
  split_ifs <;> simp [State.set_thread, linked_push_threads, linked_pop_threads]

theorem linked_set_status_links (cfg : Config) (s : LinkedState) (t st : Nat) :
    (Linked.sched_set_status cfg s t st).links
      = if STATUS_ON_RUNQUEUE ≤ st then
          if STATUS_ON_RUNQUEUE ≤ (s.globals.threads t).status then s.links
          else s.links.clist_rpush (s.globals.threads t).priority t
        else
          if STATUS_ON_RUNQUEUE ≤ (s.globals.threads t).status then
            s.links.clist_lpop (s.globals.threads t).priority
          else s.links := by
  unfold Linked.sched_set_status; dsimp only
  split_ifs <;> simp [linked_push_links, linked_pop_links]

theorem linked_set_status_bitcache (cfg : Config) (s : LinkedState) (t st : Nat) :
    (Linked.sched_set_status cfg s t st).globals.runqueue_bitcache
      = if STATUS_ON_RUNQUEUE ≤ st then
          if STATUS_ON_RUNQUEUE ≤ (s.globals.threads t).status then s.globals.runqueue_bitcache
          else (Linked._runqueue_push cfg s t (s.globals.threads t).priority).globals.runqueue_bitcache
        else
          if STATUS_ON_RUNQUEUE ≤ (s.globals.threads t).status then
            (Linked._runqueue_pop cfg s t).globals.runqueue_bitcache
          else s.globals.runqueue_bitcache := by
  unfold Linked.sched_set_status; dsimp only
  split_ifs <;> simp [State.set_thread]

theorem linked_set_status_sched_threads (cfg : Config) (s : LinkedState) (t st : Nat) :
    (Linked.sched_set_status cfg s t st).globals.sched_threads = s.globals.sched_threads := by
  unfold Linked.sched_set_status Linked._runqueue_push Linked._runqueue_pop; dsimp only
  cases s.globals.sched_active_thread <;> dsimp only <;> split_ifs <;> simp [State.set_thread]

theorem linked_set_status_sched_num_threads (cfg : Config) (s : LinkedState) (t st : Nat) :
    (Linked.sched_set_status cfg s t st).globals.sched_num_threads
      = s.globals.sched_num_threads := by
  unfold Linked.sched_set_status Linked._runqueue_push Linked._runqueue_pop; dsimp only
  cases s.globals.sched_active_thread <;> dsimp only <;> split_ifs <;> simp [State.set_thread]

/-- An empty FIFO is one whose list is empty. -/
theorem is_fifo_runqueue_none (L : Links) (p : Nat) (l : List Nat) (h : L.is_fifo p l) :
    L.runqueue p = none ↔ l = [] := by
  rw [h.1]
  exact List.getLast?_eq_none_iff

/-- C13 (amended).  For every thread `t` and priority `p < SCHED_PRIO_LEVELS`, when the
FIFO of `p` is a properly linked ring with the members `l` and `t` is not one of them,
`_runqueue_push(t, p)` makes the FIFO the ring `l ++ [t]` (`t` is appended at the tail),
sets bit `p`, and calls `sched_runq_callback(p)` exactly when an active thread exists
whose priority is `p`, whether or not the FIFO was empty. -/
theorem C13_runqueue_push (cfg : Config) (s : LinkedState) (t p : Nat) (l : List Nat)
    (hp : p < SCHED_PRIO_LEVELS) (hfifo : s.links.is_fifo p l) (ht : t ∉ l) :
    (Linked._runqueue_push cfg s t p).links.is_fifo p (l ++ [t]) ∧
    runqueue_bit cfg (Linked._runqueue_push cfg s t p).globals.runqueue_bitcache p = true ∧
    ((∃ a, s.globals.sched_active_thread = some a ∧ (s.globals.threads a).priority = p) →
      (Linked._runqueue_push cfg s t p).globals.runq_cb_log = p :: s.globals.runq_cb_log) ∧
    (¬ (∃ a, s.globals.sched_active_thread = some a ∧ (s.globals.threads a).priority = p) →
      (Linked._runqueue_push cfg s t p).globals.runq_cb_log = s.globals.runq_cb_log) := by
  have hp32 : p < 32 := lt_of_lt_of_le hp (by decide)
  refine ⟨?_, ?_, ?_, ?_⟩
  · rw [linked_push_links]; exact clist_rpush_is_fifo _ p t l hfifo ht
  · rw [linked_push_bitcache, runqueue_bit_set cfg _ _ _ hp32]; simp
  · rintro ⟨a, ha, hpa⟩
    rw [linked_push_log, ha]
    simp [hpa]
  · intro hn
    rw [linked_push_log]
    cases ha : s.globals.sched_active_thread with
    | none => rfl
    | some a =>
      have : ¬ (s.globals.threads a).priority = p := fun e => hn ⟨a, ha, e⟩
      simp [this]

/-- C7 (amended).  For every thread `t` and status, when the FIFO of `t.priority` is a
properly linked ring with the members `l`, `sched_set_status(t, status)` behaves as
follows.  If the new status is an on-runqueue status, the old one is not and `t` is not
linked in its FIFO, the FIFO becomes `l ++ [t]` and the bit of `t.priority` is set.  If
the old status is an on-runqueue status and the new one is not, the head of the FIFO is
removed.  If both are on the same side of `STATUS_ON_RUNQUEUE`, the run queue table and
the bit cache are unchanged.  In every case `t.status` is the new status and `t.priority`
is unchanged, and every other FIFO that shares no node with `l` and does not hold `t`
stays the ring it was. -/
theorem C7_sched_set_status (cfg : Config) (s : LinkedState) (t status : Nat) (l : List Nat)
    (hprio : (s.globals.threads t).priority < SCHED_PRIO_LEVELS)
    (hfifo : s.links.is_fifo (s.globals.threads t).priority l) :
    ((STATUS_ON_RUNQUEUE ≤ status ∧ (s.globals.threads t).status < STATUS_ON_RUNQUEUE ∧
        t ∉ l) →
      (Linked.sched_set_status cfg s t status).links.is_fifo (s.globals.threads t).priority
          (l ++ [t]) ∧
      runqueue_bit cfg (Linked.sched_set_status cfg s t status).globals.runqueue_bitcache
          (s.globals.threads t).priority = true) ∧
    ((status < STATUS_ON_RUNQUEUE ∧ STATUS_ON_RUNQUEUE ≤ (s.globals.threads t).status) →
      (Linked.sched_set_status cfg s t status).links.is_fifo (s.globals.threads t).priority
          l.tail) ∧
    ((STATUS_ON_RUNQUEUE ≤ status ↔ STATUS_ON_RUNQUEUE ≤ (s.globals.threads t).status) →
      (Linked.sched_set_status cfg s t status).links = s.links ∧
      (Linked.sched_set_status cfg s t status).globals.runqueue_bitcache
        = s.globals.runqueue_bitcache) ∧
    ((Linked.sched_set_status cfg s t status).globals.threads t).status = status ∧
    ((Linked.sched_set_status cfg s t status).globals.threads t).priority
      = (s.globals.threads t).priority ∧
    (∀ q l2, q ≠ (s.globals.threads t).priority → s.links.is_fifo q l2 →
      (∀ x ∈ l2, x ≠ t ∧ x ∉ l) →
      (Linked.sched_set_status cfg s t status).links.is_fifo q l2) := by
  have hp32 : (s.globals.threads t).priority < 32 := lt_of_lt_of_le hprio (by decide)
  refine ⟨?_, ?_, ?_, ?_, ?_, ?_⟩
  · rintro ⟨h1, h2, h3⟩
    have h4 : ¬ STATUS_ON_RUNQUEUE ≤ (s.globals.threads t).status := by omega
    rw [linked_set_status_links, linked_set_status_bitcache]
    simp only [h1, h4, if_true, if_false, linked_push_bitcache]
    refine ⟨clist_rpush_is_fifo _ _ t l hfifo h3, ?_⟩
    rw [runqueue_bit_set cfg _ _ _ hp32]; simp
  · rintro ⟨h1, h2⟩
    have h3 : ¬ STATUS_ON_RUNQUEUE ≤ status := by omega
    rw [linked_set_status_links]
    simp only [h2, h3, if_true, if_false]
    exact clist_lpop_is_fifo _ _ l hfifo
  · intro h
    rw [linked_set_status_links, linked_set_status_bitcache]
    by_cases h1 : STATUS_ON_RUNQUEUE ≤ status
    · have h2 := h.mp h1
      simp [h1, h2]
    · have h2 : ¬ STATUS_ON_RUNQUEUE ≤ (s.globals.threads t).status := fun e => h1 (h.mpr e)
      simp [h1, h2]
  · rw [linked_set_status_threads]; simp
  · rw [linked_set_status_threads]; simp
  · intro q l2 hq hl2 hdis
    rw [linked_set_status_links]
    split_ifs
    · exact hl2
    · exact clist_rpush_frame _ _ t q l l2 hfifo hq hl2 hdis
    · exact clist_lpop_frame _ _ q l l2 hfifo hq hl2 (fun x hx => (hdis x hx).2)
    · exact hl2

/-- C10 (amended).  For every state in which the active thread `a` is RUNNING and at the
head of its FIFO, a properly linked ring `a :: rest`, `sched_task_exit` returns a state in
which the process table slot of the active pid is null, `sched_num_threads` is one less,
`a` is STOPPED, the FIFO is the ring `rest` (which does not hold `a`), the bit is clear if
`rest` is empty and the bit cache is unchanged otherwise, no thread is active, every other
descriptor is unchanged, and every other FIFO that shares no node with the FIFO of `a`
stays the ring it was. -/
theorem C10_sched_task_exit (cfg : Config) (s : LinkedState) (a : Nat) (rest : List Nat)
    (ha : s.globals.sched_active_thread = some a)
    (hrun : (s.globals.threads a).status = STATUS_RUNNING)
    (hhead : s.links.is_fifo (s.globals.threads a).priority (a :: rest))
    (hprio : (s.globals.threads a).priority < SCHED_PRIO_LEVELS) :
    ∃ s1, Linked.sched_task_exit cfg s = .ok s1 ∧
      s1.globals.sched_threads s.globals.sched_active_pid = none ∧
      s1.globals.sched_num_threads = s.globals.sched_num_threads - 1 ∧
      (s1.globals.threads a).status = STATUS_STOPPED ∧
      s1.links.is_fifo (s.globals.threads a).priority rest ∧
      a ∉ rest ∧
      (rest = [] →
        runqueue_bit cfg s1.globals.runqueue_bitcache (s.globals.threads a).priority = false) ∧
      (rest ≠ [] → s1.globals.runqueue_bitcache = s.globals.runqueue_bitcache) ∧
      s1.globals.sched_active_thread = none ∧
      (∀ t, t ≠ a → s1.globals.threads t = s.globals.threads t) ∧
      (∀ q l2, q ≠ (s.globals.threads a).priority → s.links.is_fifo q l2 →
        (∀ x ∈ l2, x ∉ a :: rest) → s1.links.is_fifo q l2) := by
  have hp32 : (s.globals.threads a).priority < 32 := lt_of_lt_of_le hprio (by decide)
  have hon : STATUS_ON_RUNQUEUE ≤ (s.globals.threads a).status := by rw [hrun]
  have hoff : ¬ STATUS_ON_RUNQUEUE ≤ STATUS_STOPPED := by decide
  have hpop := clist_lpop_is_fifo _ _ _ hhead
  rw [List.tail_cons] at hpop
  have hnone := is_fifo_runqueue_none _ _ _ hpop
  unfold Linked.sched_task_exit
  simp only [ha]
  refine ⟨_, rfl, ?_, ?_, ?_, ?_, ?_, ?_, ?_, ?_, ?_, ?_⟩
  · simp [linked_set_status_sched_threads]
  · simp [linked_set_status_sched_num_threads]
  · simp [linked_set_status_threads]
  · simp only [linked_set_status_links, hon, hoff, if_true, if_false]
    exact hpop
  · exact (List.nodup_cons.mp hhead.2.1).1
  · intro hr
    simp only [linked_set_status_bitcache, hon, hoff, if_true, if_false, linked_pop_bitcache,
      hnone.mpr hr]
    rw [runqueue_bit_clear cfg _ _ _ hp32]
    simp
  · intro hr
    have hn : ¬ (s.links.clist_lpop (s.globals.threads a).priority).runqueue
        (s.globals.threads a).priority = none := fun e => hr (hnone.mp e)
    simp only [linked_set_status_bitcache, hon, hoff, if_true, if_false, linked_pop_bitcache, hn]
  · trivial
  · intro t ht
    simp [linked_set_status_threads, ht]
  · intro q l2 hq hl2 hdis
    simp only [linked_set_status_links, hon, hoff, if_true, if_false]
    exact clist_lpop_frame _ _ q _ l2 hhead hq hl2 hdis

/-! ## The run queue change notifier on linked run queues -/

/-- C14 (amended). A push on class `q` calls the notifier (with `q`, once) exactly when an
active thread exists and `q` is its priority: the condition is necessary (first conjunct)
and sufficient (second conjunct), whatever FIFO `q` holds.  A pop on class `p`, the
priority of the thread given, calls it (with `p`, once) exactly when FIFO `p` is empty
after the pop (`sched_runqueues[p].next` is null): the condition is necessary (third
conjunct) and sufficient (fourth conjunct), whatever the priority of the active thread
is.  So a call by a pop means that the emptiness of the FIFO has changed whenever it was
non-empty before (fifth conjunct); for a FIFO that is the ring `l`, empty after the pop
means that `l` has at most one member (sixth conjunct). -/
theorem C14_notifier_calls (cfg : Config) (s : LinkedState) (t q : Nat) :
    ((Linked._runqueue_push cfg s t q).globals.runq_cb_log ≠ s.globals.runq_cb_log →
      (∃ a, s.globals.sched_active_thread = some a ∧ (s.globals.threads a).priority = q) ∧
      (Linked._runqueue_push cfg s t q).globals.runq_cb_log = q :: s.globals.runq_cb_log) ∧
    ((∃ a, s.globals.sched_active_thread = some a ∧ (s.globals.threads a).priority = q) →
      (Linked._runqueue_push cfg s t q).globals.runq_cb_log = q :: s.globals.runq_cb_log ∧
      (Linked._runqueue_push cfg s t q).globals.runq_cb_log ≠ s.globals.runq_cb_log) ∧
    ((Linked._runqueue_pop cfg s t).globals.runq_cb_log ≠ s.globals.runq_cb_log →
      (Linked._runqueue_pop cfg s t).links.runqueue (s.globals.threads t).priority = none ∧
      (Linked._runqueue_pop cfg s t).globals.runq_cb_log
        = (s.globals.threads t).priority :: s.globals.runq_cb_log) ∧
    ((Linked._runqueue_pop cfg s t).links.runqueue (s.globals.threads t).priority = none →
      (Linked._runqueue_pop cfg s t).globals.runq_cb_log
        = (s.globals.threads t).priority :: s.globals.runq_cb_log ∧
      (Linked._runqueue_pop cfg s t).globals.runq_cb_log ≠ s.globals.runq_cb_log) ∧
    ((Linked._runqueue_pop cfg s t).globals.runq_cb_log ≠ s.globals.runq_cb_log →
      s.links.runqueue (s.globals.threads t).priority ≠ none →
      ¬ (s.links.runqueue (s.globals.threads t).priority = none ↔
        (Linked._runqueue_pop cfg s t).links.runqueue (s.globals.threads t).priority = none)) ∧
    (∀ l, s.links.is_fifo (s.globals.threads t).priority l →
      ((Linked._runqueue_pop cfg s t).links.runqueue (s.globals.threads t).priority = none ↔
        l.tail = [])) := by
  have hcons : ∀ (x : Nat) (l : List Nat), x :: l ≠ l := fun x l e =>
    absurd (congrArg List.length e) (by simp)
  refine ⟨?_, ?_, ?_, ?_, ?_, ?_⟩
  · rw [linked_push_log]
    cases ha : s.globals.sched_active_thread with
    | none => simp
    | some a =>
      by_cases hpa : (s.globals.threads a).priority = q
      · simp [hpa]
      · simp [hpa]
  · rintro ⟨a, ha, hpa⟩
    rw [linked_push_log, ha]
    simp only [hpa, if_true]
    exact ⟨trivial, hcons _ _⟩
  · rw [linked_pop_log, linked_pop_links]
    by_cases he : (s.links.clist_lpop (s.globals.threads t).priority).runqueue
        (s.globals.threads t).priority = none
    · simp [he]
    · simp [he]
  · rw [linked_pop_log, linked_pop_links]
    intro he
    simp only [he, if_true]
    exact ⟨trivial, hcons _ _⟩
  · rw [linked_pop_log, linked_pop_links]
    intro hlog hne hiff
    by_cases he : (s.links.clist_lpop (s.globals.threads t).priority).runqueue
        (s.globals.threads t).priority = none
    · exact hne (hiff.mpr he)
    · simp [he] at hlog
  · intro l hl
    rw [linked_pop_links]
    exact is_fifo_runqueue_none _ _ _ (clist_lpop_is_fifo _ _ l hl)

/-! ## Scenarios on linked run queues -/

/-- C7, witness: the STOPPED thread A (priority 1), linked nowhere, is made PENDING while
FIFO 1 is empty: FIFO 1 becomes the ring `[A]`, bit 1 is set and A is PENDING. -/
theorem C7_sched_set_status_witness :
    (Linked.sched_set_status cfg_lsb (linked_boot (created (fun _ => 1) (fun _ => 500000))) 0
        STATUS_PENDING).links.is_fifo 1 ([] ++ [0]) ∧
    runqueue_bit cfg_lsb
      (Linked.sched_set_status cfg_lsb (linked_boot (created (fun _ => 1) (fun _ => 500000))) 0
        STATUS_PENDING).globals.runqueue_bitcache 1 = true ∧
    ((Linked.sched_set_status cfg_lsb (linked_boot (created (fun _ => 1) (fun _ => 500000))) 0
        STATUS_PENDING).globals.threads 0).status = STATUS_PENDING :=
  have h := C7_sched_set_status cfg_lsb (linked_boot (created (fun _ => 1) (fun _ => 500000))) 0
    STATUS_PENDING [] (by decide) (by decide)
  have h1 := h.1 ⟨by decide, by decide, by decide⟩
  ⟨h1.1, h1.2, h.2.2.2.1⟩

/-- C7, counterexample to the claim as stated.  A (priority 1, service time 0) is RUNNING
and active at the head of FIFO 1 = `[A, B]` with the controller armed on class 1.  The
quantum callback finds `service_time == 0`, writes `status = 0` and rotates the FIFO: A is
STOPPED and still linked, FIFO 1 is the ring `[B, A]`.  `sched_set_status(A, PENDING)`
then pushes A, whose status is below `STATUS_ON_RUNQUEUE`: `clist_rpush` links the one
`rq_entry` of A to itself, FIFO 1 is the ring `[A]` and not `[B, A, A]`, and B, still
PENDING, is in no FIFO. -/
theorem C7_counterexample_stopped_thread_relinked :
    ∃ s1, Linked._sched_feedback_cb cfg_lsb (linked_exhausted_pair cfg_lsb) = .ok s1 ∧
      (s1.globals.threads 0).status = STATUS_STOPPED ∧
      (s1.globals.threads 0).priority = 1 ∧
      s1.links.is_fifo 1 [1, 0] ∧
      (Linked.sched_set_status cfg_lsb s1 0 STATUS_PENDING).links.is_fifo 1 [0] ∧
      ¬ (Linked.sched_set_status cfg_lsb s1 0 STATUS_PENDING).links.is_fifo 1 ([1, 0] ++ [0]) ∧
      ((Linked.sched_set_status cfg_lsb s1 0 STATUS_PENDING).globals.threads 1).status
        = STATUS_PENDING :=
  ⟨_, rfl, by decide, by decide, by decide, by decide, by decide, by decide⟩

/-- C10, witness: scenario S2 on linked run queues.  A (priority 3) is RUNNING at the head
of FIFO 3 = `[A, B]` and exits: A is STOPPED, FIFO 3 is the ring `[B]`, no thread is
active. -/
theorem C10_sched_task_exit_witness :
    ∃ s1, Linked.sched_task_exit cfg_lsb (linked_running_and_pending cfg_lsb) = .ok s1 ∧
      (s1.globals.threads 0).status = STATUS_STOPPED ∧ s1.links.is_fifo 3 [1] ∧
      s1.globals.sched_active_thread = none :=
  (C10_sched_task_exit cfg_lsb (linked_running_and_pending cfg_lsb) 0 [1] rfl (by decide)
    (by decide) (by decide)).elim
    fun s1 hs1 => ⟨s1, hs1.1, hs1.2.2.2.1, hs1.2.2.2.2.1, hs1.2.2.2.2.2.2.2.2.1⟩

/-- C10, counterexample to the claim as stated.  A and B (priority 1) and C (priority 3)
are PENDING, FIFO 1 = `[A, B]` and FIFO 3 = `[C]`.  `sched_change_priority(B, 3)` pops the
head A of FIFO 1 instead of B and pushes B on FIFO 3: B is now the last node of both
FIFOs and both are the ring `[C, B]`.  `sched_run` selects C from FIFO 1.  C (priority 3)
is RUNNING, active and at the head of its FIFO 3; its `sched_task_exit` removes it from
FIFO 3 and thereby changes FIFO 1 from `[C, B]` to `[B]`. -/
theorem C10_counterexample_shared_node :
    ∃ s1 s2 s3, Linked.sched_change_priority cfg_lsb (linked_three_pending cfg_lsb) (some 1) 3
        = .ok s1 ∧
      Linked.sched_run cfg_lsb s1 = .ok (2, s2) ∧
      s2.globals.sched_active_thread = some 2 ∧
      (s2.globals.threads 2).status = STATUS_RUNNING ∧
      (s2.globals.threads 2).priority = 3 ∧
      s2.links.is_fifo 3 [2, 1] ∧
      s2.links.is_fifo 1 [2, 1] ∧
      Linked.sched_task_exit cfg_lsb s2 = .ok s3 ∧
      s3.links.is_fifo 3 [1] ∧
      s3.links.is_fifo 1 [1] ∧
      ¬ s3.links.is_fifo 1 [2, 1] :=
  ⟨_, _, _, rfl, rfl, rfl, by decide, by decide, by decide, by decide, rfl, by decide,
    by decide, by decide⟩

/-- C13, witness.  With A (priority 3) active and FIFO 3 the ring `[A, B]`, pushing a third
thread on class 3 appends it, sets bit 3 and calls the notifier with 3. -/
theorem C13_runqueue_push_witness :
    (Linked._runqueue_push cfg_clz (linked_running_and_pending cfg_clz) 2 3).links.is_fifo 3
      ([0, 1] ++ [2]) ∧
    runqueue_bit cfg_clz
      (Linked._runqueue_push cfg_clz (linked_running_and_pending cfg_clz) 2
        3).globals.runqueue_bitcache 3 = true ∧
    (Linked._runqueue_push cfg_clz (linked_running_and_pending cfg_clz) 2 3).globals.runq_cb_log
      = 3 :: (linked_running_and_pending cfg_clz).globals.runq_cb_log :=
  have h := C13_runqueue_push cfg_clz (linked_running_and_pending cfg_clz) 2 3 [0, 1]
    (by decide) (by decide) (by decide)
  ⟨h.1, h.2.1, h.2.2.1 ⟨0, rfl, by decide⟩⟩

/-- C13, counterexample to the claim as stated.  FIFO 3 is the ring `[A, B]`, not empty,
and A (priority 3) is active: pushing a third thread on class 3 calls
`sched_runq_callback(3)` although the FIFO was not empty before.  And pushing A, which is
linked in FIFO 3 already, does not append it: `clist_rpush` links the one `rq_entry` of A
to itself and FIFO 3 is the ring `[A]`, not `[A, B, A]`. -/
theorem C13_counterexample_queue_not_empty :
    (linked_running_and_pending cfg_lsb).links.is_fifo 3 [0, 1] ∧
    (linked_running_and_pending cfg_lsb).globals.runq_cb_log = [] ∧
    (Linked._runqueue_push cfg_lsb (linked_running_and_pending cfg_lsb) 2 3).globals.runq_cb_log
      = [3] ∧
    (Linked._runqueue_push cfg_lsb (linked_running_and_pending cfg_lsb) 0 3).links.is_fifo 3
      [0] ∧
    ¬ (Linked._runqueue_push cfg_lsb (linked_running_and_pending cfg_lsb) 0 3).links.is_fifo 3
      ([0, 1] ++ [0]) :=
  ⟨by decide, by decide, by decide, by decide, by decide⟩

/-- C14, witness.  With A (priority 2) active and FIFO 1 the ring `[B]`, the pop of B
empties FIFO 1 and calls the notifier with 1. -/
theorem C14_notifier_calls_witness :
    (Linked._runqueue_pop cfg_lsb (linked_running_then_woken cfg_lsb) 1).links.runqueue
        ((linked_running_then_woken cfg_lsb).globals.threads 1).priority = none ∧
    (Linked._runqueue_pop cfg_lsb (linked_running_then_woken cfg_lsb) 1).globals.runq_cb_log
      = ((linked_running_then_woken cfg_lsb).globals.threads 1).priority
          :: (linked_running_then_woken cfg_lsb).globals.runq_cb_log :=
  (C14_notifier_calls cfg_lsb (linked_running_then_woken cfg_lsb) 1 1).2.2.1 (by decide)

/-- C14, counterexample to the claim as stated.  A push on the active class 3 calls the
notifier although FIFO 3 is non-empty before (the ring `[A, B]`) and after (the ring
`[A, B, C]`); a pop on class 1 calls the notifier with 1 although the active thread A has
priority 2. -/
theorem C14_counterexample_push_and_pop :
    ((linked_running_and_pending cfg_lsb).links.is_fifo 3 [0, 1] ∧
      (Linked._runqueue_push cfg_lsb (linked_running_and_pending cfg_lsb) 2 3).links.is_fifo 3
        [0, 1, 2] ∧
      (Linked._runqueue_push cfg_lsb (linked_running_and_pending cfg_lsb) 2 3).globals.runq_cb_log
        = 3 :: (linked_running_and_pending cfg_lsb).globals.runq_cb_log) ∧
    ((linked_running_then_woken cfg_lsb).globals.sched_active_thread = some 0 ∧
      ((linked_running_then_woken cfg_lsb).globals.threads 0).priority = 2 ∧
      ((linked_running_then_woken cfg_lsb).globals.threads 1).priority = 1 ∧
      (linked_running_then_woken cfg_lsb).links.is_fifo 1 [1] ∧
      (Linked._runqueue_pop cfg_lsb (linked_running_then_woken cfg_lsb) 1).globals.runq_cb_log
        = 1 :: (linked_running_then_woken cfg_lsb).globals.runq_cb_log) :=
  ⟨⟨by decide, by decide, by decide⟩, by decide, by decide, by decide, by decide, by decide⟩

end Sched
